import Mathlib

/-!
# Payslip generator: payroll run and working-day count

A shallow embedding of `pkg/utils/date_utils.go` (`CalculateWorkingDays`) and of
`pkg/controllers/admin_controller.go` (`RunPayroll`), with the parts of the Go
standard library (`time`), `shopspring/decimal` and `gorm` that these functions
call, followed by the properties proved about them.
-/

set_option autoImplicit false

namespace PayslipGenerator

/-! ## `time.Time` -/

/-- Nanoseconds in one civil day. -/
def nsPerDay : Int := 86400000000000

/-- A `time.Time` in a fixed-offset location.  `day` is the civil day number of the wall-clock
date in that location (days since 1970-01-01), `nsec` the wall-clock time of day in nanoseconds
since local midnight, and `offset` the location's offset east of UTC in seconds.  The application
only produces UTC times (`time.Parse` without a zone, database session `TimeZone=UTC`). -/
structure Time where
  day : Int
  nsec : Nat
  offset : Int
  deriving DecidableEq, Repr

namespace Time

/-- The absolute instant of `t`, in nanoseconds since 1970-01-01T00:00:00Z. -/
def instant (t : Time) : Int :=
  t.day * nsPerDay + (t.nsec : Int) - t.offset * 1000000000

/-- Go `t.Before(u)`: the instant of `t` is earlier than the instant of `u`. -/
def Before (t u : Time) : Bool := decide (t.instant < u.instant)

/-- Go `t.After(u)`: the instant of `t` is later than the instant of `u`. -/
def After (t u : Time) : Bool := decide (t.instant > u.instant)

/-- Go `t.Equal(u)`: both denote the same instant. -/
def Equal (t u : Time) : Bool := decide (t.instant = u.instant)

/-- Go `t.Weekday()` as Go numbers it: 0 = Sunday, 1 = Monday, ..., 6 = Saturday.
Day 0 (1970-01-01) was a Thursday. -/
def Weekday (t : Time) : Int := (t.day + 4) % 7

/-- Go `t.AddDate(0, 0, days)`: the same wall-clock time `days` civil days later, same location. -/
def AddDate (t : Time) (days : Int) : Time := { t with day := t.day + days }

/-- The composite `time.Date(t.Year(), t.Month(), t.Day(), 0, 0, 0, 0, t.Location())`:
midnight of the civil date of `t`, in the location of `t`. -/
def startOfDay (t : Time) : Time := { t with nsec := 0 }

end Time

/-- The constant `time.Saturday`. -/
def Saturday : Int := 6

/-- The constant `time.Sunday`. -/
def Sunday : Int := 0

/-- Civil day number (days since 1970-01-01) of the proleptic Gregorian date `y-m-d`. -/
def daysFromCivil (y m d : Int) : Int :=
  let y1 := if m ≤ 2 then y - 1 else y
  let era := y1 / 400
  let yoe := y1 - era * 400
  let mp := (m + 9) % 12
  let doy := (153 * mp + 2) / 5 + d - 1
  let doe := yoe * 365 + yoe / 4 - yoe / 100 + doy
  era * 146097 + doe - 719468

/-- Go `time.Date(y, m, d, 0, 0, 0, 0, time.UTC)`. -/
def DateUTC (y m d : Int) : Time := { day := daysFromCivil y m d, nsec := 0, offset := 0 }

/-! ## `CalculateWorkingDays` (`pkg/utils/date_utils.go`) -/

/-- The `for !current.After(endDate)` loop of `CalculateWorkingDays`, started at `current`
with `workingDays` counted so far. -/
def countLoop (endDate : Time) (current : Time) (workingDays : Nat) : Nat :=
  if h : current.After endDate then workingDays
  else
    let weekday := current.Weekday
    let workingDays := if weekday ≠ Saturday ∧ weekday ≠ Sunday then workingDays + 1 else workingDays
    countLoop endDate (current.AddDate 1) workingDays
termination_by ((endDate.instant - current.instant) / nsPerDay + 1).toNat
decreasing_by
  have h1 : ¬ (current.instant > endDate.instant) := fun hgt => h (decide_eq_true hgt)
  have h2 : (current.AddDate 1).instant = current.instant + nsPerDay := by
    unfold Time.instant Time.AddDate
    ring
  rw [h2]
  unfold nsPerDay at *
  omega

/-- The function `CalculateWorkingDays(start, end)`. -/
def CalculateWorkingDays (start end_ : Time) : Nat :=
  let startDate := start.startOfDay
  let endDate := end_.startOfDay
  if endDate.Before startDate then 0
  else countLoop endDate startDate 0

/-- The number of Monday-to-Friday dates among the `n` consecutive civil days starting at day
number `a`. -/
def weekdaysFrom (a : Int) : Nat → Nat
  | 0 => 0
  | n + 1 => (if (a + 4) % 7 ≠ Saturday ∧ (a + 4) % 7 ≠ Sunday then 1 else 0) + weekdaysFrom (a + 1) n

/-- Written from the specification: the number of calendar dates `d` with `a ≤ d ≤ b` whose
weekday is Monday to Friday. -/
def weekdayCount (a b : Int) : Nat :=
  ((Finset.Icc a b).filter (fun d => 1 ≤ (d + 4) % 7 ∧ (d + 4) % 7 ≤ 5)).card

/-! ## `shopspring/decimal` -/

/-- The power `2 ^ e` for an integer exponent. -/
def twoPow (e : Int) : ℚ := if 0 ≤ e then (2 : ℚ) ^ e.toNat else 1 / (2 : ℚ) ^ (-e).toNat

/-- The power `10 ^ e` for an integer exponent. -/
def tenPow (e : Int) : ℚ := if 0 ≤ e then (10 : ℚ) ^ e.toNat else 1 / (10 : ℚ) ^ (-e).toNat

/-- A `decimal.Decimal`: the number `value * 10 ^ exp`. -/
structure Decimal where
  value : Int
  exp : Int
  deriving DecidableEq, Repr

namespace Decimal

/-- The variable `decimal.DivisionPrecision`: digits after the decimal point kept by `Div`. -/
def DivisionPrecision : Int := 16

/-- Go `decimal.New(value, exp)`. -/
def New (value : Int) (exp : Int) : Decimal := { value := value, exp := exp }

/-- Go `decimal.NewFromInt(v)`. -/
def NewFromInt (v : Int) : Decimal := { value := v, exp := 0 }

/-- The rational number a decimal denotes. -/
def toRat (d : Decimal) : ℚ := (d.value : ℚ) * tenPow d.exp

/-- Go `d.rescale(exp)`: the same number with exponent `exp`; digits below `10 ^ exp` are
truncated when `exp` is larger than the exponent of `d`. -/
def rescale (d : Decimal) (exp : Int) : Decimal :=
  if d.exp = exp then d
  else
    let diff := (exp - d.exp).natAbs
    if exp > d.exp then { value := Int.tdiv d.value (10 ^ diff), exp := exp }
    else { value := d.value * 10 ^ diff, exp := exp }

/-- Go `decimal.RescalePair(d1, d2)`: both numbers at the smaller of the two exponents. -/
def RescalePair (d1 d2 : Decimal) : Decimal × Decimal :=
  if d1.exp < d2.exp then (d1, d2.rescale d1.exp)
  else if d1.exp > d2.exp then (d1.rescale d2.exp, d2)
  else (d1, d2)

/-- Go `d.Add(d2)`. -/
def Add (d d2 : Decimal) : Decimal :=
  let p := RescalePair d d2
  { value := p.1.value + p.2.value, exp := p.1.exp }

/-- Go `d.Sub(d2)`. -/
def Sub (d d2 : Decimal) : Decimal :=
  let p := RescalePair d d2
  { value := p.1.value - p.2.value, exp := p.1.exp }

/-- Go `d.Mul(d2)`. -/
def Mul (d d2 : Decimal) : Decimal :=
  { value := d.value * d2.value, exp := d.exp + d2.exp }

/-- Go `d.Abs()`. -/
def Abs (d : Decimal) : Decimal := { value := |d.value|, exp := d.exp }

/-- Go `d.Cmp(d2)`: `-1`, `0` or `1`. -/
def Cmp (d d2 : Decimal) : Int :=
  let p := RescalePair d d2
  if p.1.value < p.2.value then -1 else if p.1.value = p.2.value then 0 else 1

/-- Go `d.QuoRem(d2, precision)`: the quotient truncated to `precision` decimal places, and the
remainder.  Go panics when `d2` is zero; here the integer division then yields zero. -/
def QuoRem (d d2 : Decimal) (precision : Int) : Decimal × Decimal :=
  let scale := -precision
  let e := d.exp - d2.exp - scale
  if e < 0 then
    let aa := d.value
    let bb := d2.value * 10 ^ (-e).toNat
    ({ value := Int.tdiv aa bb, exp := scale }, { value := Int.tmod aa bb, exp := d.exp })
  else
    let aa := d.value * 10 ^ e.toNat
    let bb := d2.value
    ({ value := Int.tdiv aa bb, exp := scale }, { value := Int.tmod aa bb, exp := scale + d2.exp })

/-- Go `d.DivRound(d2, precision)`: the quotient rounded to `precision` decimal places, a half
rounded away from zero. -/
def DivRound (d d2 : Decimal) (precision : Int) : Decimal :=
  let qr := QuoRem d d2 precision
  let q := qr.1
  let r := qr.2
  let r2 : Decimal := { value := |r.value| * 2, exp := r.exp + precision }
  let c := r2.Cmp d2.Abs
  if c < 0 then q
  else if d.value.sign * d2.value.sign < 0 then q.Sub (New 1 (-precision))
  else q.Add (New 1 (-precision))

/-- Go `d.Div(d2)`. -/
def Div (d d2 : Decimal) : Decimal := DivRound d d2 DivisionPrecision

end Decimal

/-- Rounding a rational number to the nearest integer, a half going away from zero. -/
def roundHalfAway (x : ℚ) : Int :=
  if 0 ≤ x then Rat.floor (x + 1 / 2) else -Rat.floor (-x + 1 / 2)

/-- Rounding a rational number to `places` decimal places, a half going away from zero. -/
def roundPlaces (x : ℚ) (places : Nat) : ℚ :=
  (roundHalfAway (x * (10 : ℚ) ^ places) : ℚ) / (10 : ℚ) ^ places

/-! ## `float64` and its conversions to and from `Decimal` -/

/-- A finite `float64`, given by the rational number it holds.  Infinities and NaN are not
represented: the amounts of this application (`decimal(10,2)` columns and quotients of them)
are far inside the finite range. -/
structure Float64 where
  val : ℚ
  deriving DecidableEq

/-- The number of base-`b` digits of `n`, counted with at most `fuel` divisions. -/
def digitCount (b : Nat) : Nat → Nat → Nat
  | 0, _ => 0
  | fuel + 1, n => if n = 0 then 0 else digitCount b fuel (n / b) + 1

/-- The integer `e` with `2 ^ e ≤ q < 2 ^ (e + 1)`, for `q > 0`. -/
def floorLog2 (q : ℚ) : Int :=
  let e0 : Int := (digitCount 2 q.num.natAbs q.num.natAbs : Int) - (digitCount 2 q.den q.den : Int)
  if q < twoPow e0 then e0 - 1
  else if twoPow (e0 + 1) ≤ q then e0 + 1
  else e0

/-- The integer `e` with `10 ^ e ≤ q < 10 ^ (e + 1)`, for `q > 0`. -/
def floorLog10 (q : ℚ) : Int :=
  let e0 : Int := (digitCount 10 q.num.natAbs q.num.natAbs : Int) - (digitCount 10 q.den q.den : Int)
  if q < tenPow e0 then e0 - 1
  else if tenPow (e0 + 1) ≤ q then e0 + 1
  else e0

/-- Rounding to the nearest integer, a tie going to the even one. -/
def roundNearestEven (q : ℚ) : Int :=
  let f := Rat.floor q
  let r := q - f
  if r < 1 / 2 then f
  else if 1 / 2 < r then f + 1
  else if f % 2 = 0 then f else f + 1

/-- The `float64` nearest to a rational number (IEEE 754 binary64, round to nearest, ties to
even; 53-bit significand, smallest exponent of the last place `-1074`). -/
def roundToFloat64 (q : ℚ) : Float64 :=
  if q = 0 then { val := 0 }
  else
    let e := floorLog2 |q|
    let u := max (e - 52) (-1074)
    { val := (roundNearestEven (q / twoPow u) : ℚ) * twoPow u }

namespace Float64

/-- Go's `+` on `float64`. -/
def add (a b : Float64) : Float64 := roundToFloat64 (a.val + b.val)

end Float64

/-- Go `d.InexactFloat64()`: the `float64` nearest to `d`. -/
def Decimal.InexactFloat64 (d : Decimal) : Float64 := roundToFloat64 d.toRat

/-- The search of `NewFromFloat` for the shortest digit string: with `n` significant digits the
two neighbours of `a` are tried, and one that converts back to `a` is taken (the nearer one when
both do); otherwise one more digit is used, up to 17 digits. -/
def shortestDecimal (a : ℚ) (e10 : Int) : Nat → Nat → Int × Int
  | 0, n =>
    let exp := e10 - (n : Int) + 1
    (roundNearestEven (a / tenPow exp), exp)
  | fuel + 1, n =>
    let exp := e10 - (n : Int) + 1
    let x := a / tenPow exp
    let lo := Rat.floor x
    let hi := lo + 1
    let okdown := decide ((roundToFloat64 ((lo : ℚ) * tenPow exp)).val = a)
    let okup := decide ((roundToFloat64 ((hi : ℚ) * tenPow exp)).val = a)
    if okdown && okup then (roundNearestEven x, exp)
    else if okdown then (lo, exp)
    else if okup then (hi, exp)
    else shortestDecimal a e10 fuel (n + 1)

/-- Go `decimal.NewFromFloat(f)`: the decimal with the fewest digits that converts back to `f`. -/
def Decimal.NewFromFloat (f : Float64) : Decimal :=
  if f.val = 0 then Decimal.New 0 0
  else
    let a := |f.val|
    let r := shortestDecimal a (floorLog10 a) 16 1
    { value := if f.val < 0 then -r.1 else r.1, exp := r.2 }

/-- What a column of type `decimal(p,2)` keeps of a `float64` written to it, as a read gives it
back (`payslip.go`, lines 12-19; the store is PostgreSQL, `database.go`): the driver sends the
shortest decimal that converts back to the `float64`, the digits that `decimal.NewFromFloat`
finds too; the column rounds it to two decimal places, a half away from zero; a read converts
that number to the nearest `float64`.  A number with more than `p - 2` digits before the point
is refused by the column: that insert fails, which is one of the faults of `Env`. -/
def numeric2 (f : Float64) : Float64 :=
  roundToFloat64 (roundPlaces (Decimal.NewFromFloat f).toRat 2)

/-! ## Models (`pkg/models`) -/

/-- A `uuid.UUID`. -/
abbrev UUID := Nat

/-- Model `models.BaseModel`, without the `CreatedAt` and `UpdatedAt` timestamps that the database
and gorm maintain on their own. -/
structure BaseModel where
  ID : UUID
  CreatedBy : Option UUID
  UpdatedBy : Option UUID
  IPAddress : Option String
  deriving DecidableEq

/-- Model `models.Employee`. -/
structure Employee extends BaseModel where
  Username : String
  Salary : Float64
  deriving DecidableEq

/-- Model `models.AttendancePeriod`. -/
structure AttendancePeriod extends BaseModel where
  StartDate : Time
  EndDate : Time
  PayrollRunAt : Option Time
  deriving DecidableEq

/-- Model `models.AttendanceRecord`. -/
structure AttendanceRecord extends BaseModel where
  EmployeeID : UUID
  AttendancePeriodID : UUID
  Date : Time
  CheckInTime : Time
  deriving DecidableEq

/-- Model `models.OvertimeRecord`. -/
structure OvertimeRecord extends BaseModel where
  EmployeeID : UUID
  Date : Time
  Hours : Int
  SubmittedAt : Time
  RateMultiplier : Float64
  deriving DecidableEq

/-- Model `models.ReimbursementRequest`, as the row of the table: the nullable column
`attendance_period_id` is `none` when it is `NULL`. -/
structure ReimbursementRequest extends BaseModel where
  EmployeeID : UUID
  AttendancePeriodID : Option UUID
  Description : String
  Amount : Float64
  Status : String
  deriving DecidableEq

/-- Model `models.Payslip`. -/
structure Payslip extends BaseModel where
  EmployeeID : UUID
  AttendancePeriodID : UUID
  BaseSalary : Float64
  ProratedSalary : Float64
  AttendanceCount : Nat
  TotalWorkingDays : Nat
  OvertimeHours : Float64
  OvertimePay : Float64
  ReimbursementsTotal : Float64
  TakeHomePay : Float64
  deriving DecidableEq

/-- The row that the table `payslips` keeps of a payslip: the amounts are columns of type
`decimal(10,2)`, the overtime hours a column of type `decimal(4,2)`. -/
def Payslip.row (p : Payslip) : Payslip :=
  { p with BaseSalary := numeric2 p.BaseSalary, ProratedSalary := numeric2 p.ProratedSalary,
           OvertimeHours := numeric2 p.OvertimeHours, OvertimePay := numeric2 p.OvertimePay,
           ReimbursementsTotal := numeric2 p.ReimbursementsTotal,
           TakeHomePay := numeric2 p.TakeHomePay }

/-- The `Changes` payload of an audit entry: the maps that `RunPayroll` writes, or the object
that a handler has created. -/
inductive AuditChanges where
  | message (text : String)
  | payrollRun (payslips_generated : Nat) (period_id : UUID)
  | period (created : AttendancePeriod)
  | attendanceRecord (created : AttendanceRecord)
  | overtimeRecord (created : OvertimeRecord)
  deriving DecidableEq

/-- Model `models.AuditLog`. -/
structure AuditLog where
  ID : UUID
  Timestamp : Time
  UserID : UUID
  UserType : String
  Action : String
  TargetResource : String
  TargetResourceID : UUID
  Changes : AuditChanges
  IPAddress : String
  RequestID : String
  deriving DecidableEq

/-! ## The store (`database.DB`, gorm) -/

/-- The persisted state: the rows of each table, each row as a read of the table gives it. -/
structure DB where
  employees : List Employee
  attendance_periods : List AttendancePeriod
  attendance_records : List AttendanceRecord
  overtime_records : List OvertimeRecord
  reimbursement_requests : List ReimbursementRequest
  payslips : List Payslip
  audit_logs : List AuditLog
  deriving DecidableEq

/-- What a request cannot determine by itself: the clock, which store operations fail (the
operation issued at step `n` fails with the error text `faults n`, if any), the identifiers
that `uuid.New` hands out, and `uuid.Parse`. -/
structure Env where
  now : Time
  faults : Nat → Option String
  newID : Nat → UUID
  uuidParse : String → Option UUID

/-- A `*gorm.DB` handle inside a transaction: the state as the transaction sees it and the
number of store operations issued so far. -/
structure Tx where
  db : DB
  step : Nat

namespace Tx

/-- The handle after one more store operation that left the rows as they are. -/
def next (tx : Tx) : Tx := { tx with step := tx.step + 1 }

/-- The query `tx.Where("employee_id = ? AND date BETWEEN ? AND ?", id, start, end).Find(&records)` on
`attendance_records`; `records` stays empty when the query fails. -/
def findAttendance (env : Env) (tx : Tx) (employeeID : UUID) (start end_ : Time) :
    List AttendanceRecord :=
  match env.faults tx.step with
  | some _ => []
  | none => tx.db.attendance_records.filter (fun r =>
      decide (r.EmployeeID = employeeID) && decide (start.instant ≤ r.Date.instant)
        && decide (r.Date.instant ≤ end_.instant))

/-- The query `tx.Where("employee_id = ? AND date BETWEEN ? AND ?", id, start, end).Find(&records)` on
`overtime_records`; `records` stays empty when the query fails. -/
def findOvertime (env : Env) (tx : Tx) (employeeID : UUID) (start end_ : Time) :
    List OvertimeRecord :=
  match env.faults tx.step with
  | some _ => []
  | none => tx.db.overtime_records.filter (fun r =>
      decide (r.EmployeeID = employeeID) && decide (start.instant ≤ r.Date.instant)
        && decide (r.Date.instant ≤ end_.instant))

/-- The query `tx.Where("employee_id = ? AND status = ? AND (attendance_period_id IS NULL OR
attendance_period_id = ?)", id, "approved", periodID).Find(&requests)`; `requests` stays empty
when the query fails. -/
def findReimbursements (env : Env) (tx : Tx) (employeeID : UUID) (periodID : UUID) :
    List ReimbursementRequest :=
  match env.faults tx.step with
  | some _ => []
  | none => tx.db.reimbursement_requests.filter (fun r =>
      decide (r.EmployeeID = employeeID) && decide (r.Status = "approved")
        && (decide (r.AttendancePeriodID = none) || decide (r.AttendancePeriodID = some periodID)))

/-- A successful `tx.Save(rr)` of a reimbursement request: the row with its primary key is
replaced, and inserted when there is none.  The amount of `rr` was read from its `decimal(10,2)`
column in the same transaction, so the column keeps it as it is. -/
def saveReimbursement (tx : Tx) (rr : ReimbursementRequest) : Tx :=
  { db := { tx.db with
      reimbursement_requests :=
        if tx.db.reimbursement_requests.any (fun r => decide (r.ID = rr.ID)) then
          tx.db.reimbursement_requests.map (fun r => if r.ID = rr.ID then rr else r)
        else tx.db.reimbursement_requests ++ [rr] },
    step := tx.step + 1 }

/-- A successful `tx.Save(&attendancePeriod)`. -/
def savePeriod (tx : Tx) (p : AttendancePeriod) : Tx :=
  { db := { tx.db with
      attendance_periods :=
        if tx.db.attendance_periods.any (fun r => decide (r.ID = p.ID)) then
          tx.db.attendance_periods.map (fun r => if r.ID = p.ID then p else r)
        else tx.db.attendance_periods ++ [p] },
    step := tx.step + 1 }

/-- A successful `tx.Create(&payslip)`: `BeforeCreate` gives the payslip a fresh identifier when
it has none, and the table keeps its row, the amounts at the two decimal places of their
columns. -/
def createPayslip (env : Env) (tx : Tx) (p : Payslip) : Tx :=
  let payslip : Payslip := if p.ID = 0 then { p with ID := env.newID tx.step } else p
  { db := { tx.db with payslips := tx.db.payslips ++ [payslip.row] }, step := tx.step + 1 }

end Tx

/-- The parameters of `services.AuditLogEntryParams` that `RunPayroll` fills in. -/
structure AuditLogEntryParams where
  UserID : UUID
  UserType : String
  Action : String
  TargetResource : String
  TargetResourceID : UUID
  Changes : AuditChanges
  IPAddress : String
  RequestID : String
  PerformedBy : UUID

/-- Modelled from the spec: `services.AuditService.CreateAuditLog` (package `pkg/services` is
not among the sources).  As section 4.4 of the spec has it, it appends one entry describing
actor, action, target, payload, origin address and correlation identifier, through the handle
the service was built with, so that the entry is part of the transaction of that handle.  The
spec gives the append no other outcome, and no caller takes a result from it. -/
def CreateAuditLog (env : Env) (tx : Tx) (params : AuditLogEntryParams) : Tx :=
  let entry : AuditLog :=
    { ID := env.newID tx.step, Timestamp := env.now, UserID := params.UserID,
      UserType := params.UserType, Action := params.Action,
      TargetResource := params.TargetResource, TargetResourceID := params.TargetResourceID,
      Changes := params.Changes, IPAddress := params.IPAddress, RequestID := params.RequestID }
  { db := { tx.db with audit_logs := tx.db.audit_logs ++ [entry] }, step := tx.step + 1 }

/-! ## `RunPayroll` (`pkg/controllers/admin_controller.go`) -/

/-- A `*fiber.Error`. -/
structure FiberError where
  Code : Nat
  Message : String
  deriving DecidableEq

/-- A Go `error` as `RunPayroll` tells them apart: a `*fiber.Error`, or any other error. -/
inductive GoError where
  | fiber (e : FiberError)
  | other (text : String)
  deriving DecidableEq

/-- The answer of a handler: the HTTP status code and the `status` and `message` fields of the
JSON body. -/
structure Response where
  code : Nat
  status : String
  message : String
  deriving DecidableEq

/-- What the handler reads from the `*fiber.Ctx`: the outcome of `c.BodyParser(&payload)` (an
error text, or the `attendance_period_id` of the payload), the `userID` local when it holds a
`uuid.UUID`, `c.IP()`, and the request identifier local. -/
structure Ctx where
  body : Except String String
  userID : Option UUID
  ip : String
  requestID : String

/-- The call `db.Transaction(fc)` of gorm: `fc` runs on a transaction handle; the writes are committed
when `fc` returns `nil` and rolled back when it returns an error.  Beginning (step 0) and
committing are store operations that can fail too, with nothing written. -/
def Transaction (env : Env) (db : DB) (fc : Tx → Tx × Option FiberError) : DB × Option GoError :=
  match env.faults 0 with
  | some e => (db, some (GoError.other e))
  | none =>
    let r := fc { db := db, step := 1 }
    match r.2 with
    | some fe => (db, some (GoError.fiber fe))
    | none =>
      match env.faults r.1.step with
      | some e => (db, some (GoError.other e))
      | none => (r.1.db, none)

/-- The prorated salary of lines 193-196. -/
def proratedSalaryOf (salary : Float64) (totalWorkingDays attendanceCount : Nat) : Decimal :=
  if totalWorkingDays > 0 then
    ((Decimal.NewFromFloat salary).Div (Decimal.NewFromInt totalWorkingDays)).Mul
      (Decimal.NewFromInt attendanceCount)
  else Decimal.NewFromFloat { val := 0 }

/-- The loop over `overtimeRecords` of lines 207-213, returning `(overtimePay, overtimeHours)`. -/
def overtimeLoop (hourlySalary : Decimal) :
    List OvertimeRecord → Decimal → Decimal → Decimal × Decimal
  | [], overtimePay, overtimeHours => (overtimePay, overtimeHours)
  | ot :: rest, overtimePay, overtimeHours =>
    let hoursDecimal := Decimal.NewFromInt ot.Hours
    let rateMultiplierDecimal := Decimal.NewFromFloat ot.RateMultiplier
    let currentOvertimePay := (hourlySalary.Mul hoursDecimal).Mul rateMultiplierDecimal
    overtimeLoop hourlySalary rest (overtimePay.Add currentOvertimePay)
      (overtimeHours.Add hoursDecimal)

/-- Lines 201-214: `(overtimePay, overtimeHours)` of an employee. -/
def overtimeOf (salary : Float64) (totalWorkingDays : Nat) (overtimeRecords : List OvertimeRecord) :
    Decimal × Decimal :=
  if totalWorkingDays > 0 then
    let dailySalary := (Decimal.NewFromFloat salary).Div (Decimal.NewFromInt totalWorkingDays)
    let hourlySalary := dailySalary.Div (Decimal.NewFromInt 8)
    overtimeLoop hourlySalary overtimeRecords (Decimal.NewFromFloat { val := 0 })
      (Decimal.NewFromFloat { val := 0 })
  else (Decimal.NewFromFloat { val := 0 }, Decimal.NewFromFloat { val := 0 })

/-- The loop over `reimbursementRequests` of lines 220-230: each request is added to the total,
marked paid for the period and saved; a failed save ends the run with an error. -/
def reimbursementLoop (env : Env) (periodID adminID : UUID) (ipAddress : String) :
    List ReimbursementRequest → Decimal → Tx → Decimal × Tx × Option FiberError
  | [], reimbursementsTotal, tx => (reimbursementsTotal, tx, none)
  | rr :: rest, reimbursementsTotal, tx =>
    let reimbursementsTotal := reimbursementsTotal.Add (Decimal.NewFromFloat rr.Amount)
    let rr1 : ReimbursementRequest :=
      { rr with AttendancePeriodID := some periodID, Status := "paid",
                UpdatedBy := some adminID, IPAddress := some ipAddress }
    match env.faults tx.step with
    | some e =>
      (reimbursementsTotal, tx.next, some
        { Code := 500,
          Message := "Failed to update reimbursement request " ++ toString rr.ID ++ ": " ++ e })
    | none =>
      reimbursementLoop env periodID adminID ipAddress rest reimbursementsTotal
        (tx.saveReimbursement rr1)

/-- The body of the loop over `employees`, lines 184-253. -/
def processEmployee (env : Env) (attendancePeriod : AttendancePeriod) (periodID adminID : UUID)
    (ipAddress : String) (totalWorkingDays : Nat) (emp : Employee) (tx : Tx) :
    Tx × Option FiberError :=
  let attendanceRecords :=
    tx.findAttendance env emp.ID attendancePeriod.StartDate attendancePeriod.EndDate
  let tx := tx.next
  let attendanceCount := ((attendanceRecords.map (fun ar => ar.Date.day)).dedup).length
  let proratedSalary := proratedSalaryOf emp.Salary totalWorkingDays attendanceCount
  let overtimeRecords :=
    tx.findOvertime env emp.ID attendancePeriod.StartDate attendancePeriod.EndDate
  let tx := tx.next
  let ot := overtimeOf emp.Salary totalWorkingDays overtimeRecords
  let overtimePay := ot.1
  let overtimeHours := ot.2
  let reimbursementRequests := tx.findReimbursements env emp.ID periodID
  let tx := tx.next
  let rl := reimbursementLoop env periodID adminID ipAddress reimbursementRequests
    (Decimal.NewFromFloat { val := 0 }) tx
  let reimbursementsTotal := rl.1
  let tx := rl.2.1
  match rl.2.2 with
  | some e => (tx, some e)
  | none =>
    let takeHomePay := (proratedSalary.Add overtimePay).Add reimbursementsTotal
    let payslip : Payslip :=
      { ID := 0, CreatedBy := some adminID, UpdatedBy := some adminID,
        IPAddress := some ipAddress,
        EmployeeID := emp.ID,
        AttendancePeriodID := periodID,
        BaseSalary := emp.Salary,
        ProratedSalary := proratedSalary.InexactFloat64,
        AttendanceCount := attendanceCount,
        TotalWorkingDays := totalWorkingDays,
        OvertimeHours := overtimeHours.InexactFloat64,
        OvertimePay := overtimePay.InexactFloat64,
        ReimbursementsTotal := reimbursementsTotal.InexactFloat64,
        TakeHomePay := takeHomePay.InexactFloat64 }
    match env.faults tx.step with
    | some e =>
      (tx.next, some
        { Code := 500,
          Message := "Failed to create payslip for employee " ++ toString emp.ID ++ ": " ++ e })
    | none => (tx.createPayslip env payslip, none)

/-- The loop `for _, emp := range employees` of lines 183-254, returning `payslipsGenerated`. -/
def employeesLoop (env : Env) (attendancePeriod : AttendancePeriod) (periodID adminID : UUID)
    (ipAddress : String) (totalWorkingDays : Nat) :
    List Employee → Nat → Tx → Nat × Tx × Option FiberError
  | [], payslipsGenerated, tx => (payslipsGenerated, tx, none)
  | emp :: rest, payslipsGenerated, tx =>
    let r := processEmployee env attendancePeriod periodID adminID ipAddress totalWorkingDays emp tx
    match r.2 with
    | some e => (payslipsGenerated, r.1, some e)
    | none =>
      employeesLoop env attendancePeriod periodID adminID ipAddress totalWorkingDays rest
        (payslipsGenerated + 1) r.1

/-- The function passed to `database.DB.Transaction`, lines 136-278: the handle as it stands
when the function returns, and the error it returns (`none` for `nil`). -/
def runPayrollTx (env : Env) (periodID adminID : UUID) (ipAddress requestID : String) (tx : Tx) :
    Tx × Option FiberError :=
  match env.faults tx.step with
  | some e => (tx.next, some { Code := 500, Message := "Database error: " ++ e })
  | none =>
    match tx.db.attendance_periods.find? (fun p => decide (p.ID = periodID)) with
    | none => (tx.next, some { Code := 404, Message := "Attendance period not found." })
    | some attendancePeriod =>
      let tx := tx.next
      if attendancePeriod.PayrollRunAt ≠ none then
        (tx, some { Code := 400, Message := "Payroll already run for this period." })
      else
        match env.faults tx.step with
        | some e => (tx.next, some { Code := 500, Message := "Failed to fetch employees: " ++ e })
        | none =>
          let employees := tx.db.employees
          let tx := tx.next
          let totalWorkingDays :=
            CalculateWorkingDays attendancePeriod.StartDate attendancePeriod.EndDate
          if totalWorkingDays = 0 then
            let attendancePeriod : AttendancePeriod :=
              { attendancePeriod with PayrollRunAt := some env.now, UpdatedBy := some adminID,
                                      IPAddress := some ipAddress }
            match env.faults tx.step with
            | some e =>
              (tx.next, some
                { Code := 500, Message := "Failed to update attendance period: " ++ e })
            | none =>
              let tx := tx.savePeriod attendancePeriod
              let tx := CreateAuditLog env tx
                { UserID := adminID, UserType := "admin",
                  Action := "run_payroll_zero_working_days",
                  TargetResource := "attendance_period",
                  TargetResourceID := attendancePeriod.ID,
                  Changes := AuditChanges.message
                    "Attempted payroll run for period with zero working days.",
                  IPAddress := ipAddress, RequestID := requestID, PerformedBy := adminID }
              (tx, some
                { Code := 400,
                  Message := "Payroll cannot be run for a period with zero total working days." })
          else
            let el := employeesLoop env attendancePeriod periodID adminID ipAddress
              totalWorkingDays employees 0 tx
            let payslipsGenerated := el.1
            let tx := el.2.1
            match el.2.2 with
            | some e => (tx, some e)
            | none =>
              let attendancePeriod : AttendancePeriod :=
                { attendancePeriod with PayrollRunAt := some env.now, UpdatedBy := some adminID,
                                        IPAddress := some ipAddress }
              match env.faults tx.step with
              | some e =>
                (tx.next, some
                  { Code := 500, Message := "Failed to update attendance period: " ++ e })
              | none =>
                let tx := tx.savePeriod attendancePeriod
                let tx := CreateAuditLog env tx
                  { UserID := adminID, UserType := "admin", Action := "run_payroll",
                    TargetResource := "attendance_period",
                    TargetResourceID := attendancePeriod.ID,
                    Changes := AuditChanges.payrollRun payslipsGenerated attendancePeriod.ID,
                    IPAddress := ipAddress, RequestID := requestID, PerformedBy := adminID }
                (tx, none)

/-- The handler `RunPayroll(c)`: the persisted state after the request and the response sent. -/
def RunPayroll (env : Env) (c : Ctx) (db : DB) : DB × Response :=
  match c.body with
  | Except.error e => (db, { code := 400, status := "fail", message := e })
  | Except.ok attendancePeriodID =>
    match env.uuidParse attendancePeriodID with
    | none => (db, { code := 400, status := "fail", message := "Invalid AttendancePeriodID format." })
    | some periodID =>
      match c.userID with
      | none =>
        (db, { code := 401, status := "fail", message := "Admin ID not found in token or invalid." })
      | some adminID =>
        let r := Transaction env db (runPayrollTx env periodID adminID c.ip c.requestID)
        match r.2 with
        | some (GoError.fiber fe) => (r.1, { code := fe.Code, status := "fail", message := fe.Message })
        | some (GoError.other _) =>
          (r.1, { code := 500, status := "error",
                  message := "An internal error occurred during payroll processing." })
        | none =>
          (r.1, { code := 200, status := "success",
                  message := "Payroll run successfully for period " ++ toString periodID })

/-- The row of the payslip that the loop body of `RunPayroll` builds for `emp` in a run with
`totalWorkingDays` working days: every amount is what its column keeps of the `float64`
conversion of a decimal computed from the salary of `emp`, the attendance count stored in the
same payslip, some list of overtime records and some reimbursement total. -/
def PayslipComputed (totalWorkingDays : Nat) (emp : Employee) (ps : Payslip) : Prop :=
  ∃ (overtimeRecords : List OvertimeRecord) (reimbursementsTotal : Decimal),
    ps.EmployeeID = emp.ID ∧ ps.BaseSalary = numeric2 emp.Salary ∧
    ps.TotalWorkingDays = totalWorkingDays ∧
    ps.ProratedSalary
      = numeric2 (proratedSalaryOf emp.Salary totalWorkingDays ps.AttendanceCount).InexactFloat64 ∧
    ps.OvertimeHours
      = numeric2 (overtimeOf emp.Salary totalWorkingDays overtimeRecords).2.InexactFloat64 ∧
    ps.OvertimePay
      = numeric2 (overtimeOf emp.Salary totalWorkingDays overtimeRecords).1.InexactFloat64 ∧
    ps.ReimbursementsTotal = numeric2 reimbursementsTotal.InexactFloat64 ∧
    ps.TakeHomePay
      = numeric2 (((proratedSalaryOf emp.Salary totalWorkingDays ps.AttendanceCount).Add
          (overtimeOf emp.Salary totalWorkingDays overtimeRecords).1).Add
            reimbursementsTotal).InexactFloat64

/-! ## Concrete scenarios -/

/-- A `BaseModel` with identifier `id` and the other fields unset. -/
def baseOf (id : UUID) : BaseModel :=
  { ID := id, CreatedBy := none, UpdatedBy := none, IPAddress := none }

/-- An environment in which no store operation fails; `uuid.Parse` knows the identifier `"1"`. -/
def quietEnv : Env :=
  { now := { day := 19662, nsec := 32400000000000, offset := 0 },
    faults := fun _ => none,
    newID := fun n => 1000 + n,
    uuidParse := fun s => if s = "1" then some 1 else none }

/-- The request of admin 99 to run payroll for period `"1"`. -/
def adminRequest : Ctx :=
  { body := Except.ok "1", userID := some 99, ip := "127.0.0.1", requestID := "req-1" }

/-- The attendance record `id` of `employeeID` in period `periodID` on the date of `date`. -/
def attendanceOn (id employeeID periodID : UUID) (date : Time) : AttendanceRecord :=
  { baseOf id with EmployeeID := employeeID, AttendancePeriodID := periodID, Date := date,
                   CheckInTime := date }

/-- A store with employee 7 (salary `salary`), the unprocessed period 1 from `start` to `end_`,
and the given attendance and overtime records. -/
def storeOf (salary : ℚ) (start end_ : Time) (attendance : List AttendanceRecord)
    (overtime : List OvertimeRecord) : DB :=
  { employees := [{ baseOf 7 with Username := "employee7", Salary := { val := salary } }],
    attendance_periods :=
      [{ baseOf 1 with StartDate := start, EndDate := end_, PayrollRunAt := none }],
    attendance_records := attendance,
    overtime_records := overtime,
    reimbursement_requests := [],
    payslips := [],
    audit_logs := [] }

/-- Salary 100, period Mon 2023-10-02 to Wed 2023-10-04 (three working days), present on one
day, one overtime hour at multiplier 2.0. -/
def thirdsDB : DB :=
  storeOf 100 (DateUTC 2023 10 2) (DateUTC 2023 10 4)
    [attendanceOn 20 7 1 (DateUTC 2023 10 2)]
    [{ baseOf 30 with EmployeeID := 7, Date := DateUTC 2023 10 2, Hours := 1,
                      SubmittedAt := DateUTC 2023 10 2, RateMultiplier := { val := 2 } }]

/-- The payslip that the run on `thirdsDB` creates, as the table keeps it: prorated salary
33.33, overtime pay 8.33, take-home pay 41.67. -/
def thirdsPayslip : Payslip :=
  { ID := 1006, CreatedBy := some 99, UpdatedBy := some 99, IPAddress := some "127.0.0.1",
    EmployeeID := 7, AttendancePeriodID := 1,
    BaseSalary := { val := 100 },
    ProratedSalary := roundToFloat64 (3333 / 100),
    AttendanceCount := 1, TotalWorkingDays := 3,
    OvertimeHours := { val := 1 },
    OvertimePay := roundToFloat64 (833 / 100),
    ReimbursementsTotal := { val := 0 },
    TakeHomePay := roundToFloat64 (4167 / 100) }

/-- Salary 1, the same three-day period, present on all three days, no overtime. -/
def fullAttendanceDB : DB :=
  storeOf 1 (DateUTC 2023 10 2) (DateUTC 2023 10 4)
    [attendanceOn 20 7 1 (DateUTC 2023 10 2), attendanceOn 21 7 1 (DateUTC 2023 10 3),
      attendanceOn 22 7 1 (DateUTC 2023 10 4)]
    []

/-- Salary 80000, period Wed 2023-02-01 to Tue 2023-02-28 (twenty working days), present on
every working day, no overtime. -/
def februaryDB : DB :=
  storeOf 80000 (DateUTC 2023 2 1) (DateUTC 2023 2 28)
    ((List.range 28).filterMap (fun (i : Nat) =>
      let date := (DateUTC 2023 2 1).AddDate (i : Int)
      if date.Weekday ≠ Saturday ∧ date.Weekday ≠ Sunday then some (attendanceOn (100 + i) 7 1 date)
      else none))
    []

/-- The payslip that the run on `februaryDB` creates. -/
def februaryPayslip : Payslip :=
  { ID := 1006, CreatedBy := some 99, UpdatedBy := some 99, IPAddress := some "127.0.0.1",
    EmployeeID := 7, AttendancePeriodID := 1,
    BaseSalary := { val := 80000 },
    ProratedSalary := { val := 80000 },
    AttendanceCount := 20, TotalWorkingDays := 20,
    OvertimeHours := { val := 0 },
    OvertimePay := { val := 0 },
    ReimbursementsTotal := { val := 0 },
    TakeHomePay := { val := 80000 } }

/-- Salary 5000 and the unprocessed period Sat 2023-10-07 to Sun 2023-10-08, which has no
working day. -/
def weekendDB : DB :=
  storeOf 5000 (DateUTC 2023 10 7) (DateUTC 2023 10 8) [] []

/-- The period Mon 2023-10-02 to Wed 2023-10-04, already processed. -/
def processedPeriod : AttendancePeriod :=
  { baseOf 1 with StartDate := DateUTC 2023 10 2, EndDate := DateUTC 2023 10 4,
                  PayrollRunAt := some (DateUTC 2023 10 5) }

/-- A store whose only period is `processedPeriod`. -/
def processedDB : DB :=
  { storeOf 5000 (DateUTC 2023 10 2) (DateUTC 2023 10 4) [] [] with
    attendance_periods := [processedPeriod] }

/-- The reimbursement request `id` of employee 7 with the given period, amount and status. -/
def requestOf (id : UUID) (periodID : Option UUID) (amount : ℚ) (status : String) :
    ReimbursementRequest :=
  { baseOf id with EmployeeID := 7, AttendancePeriodID := periodID,
                   Description := "expenses", Amount := { val := amount }, Status := status }

/-- The store `thirdsDB` with three reimbursement requests of employee 7: request 40, approved,
no period, amount 150; request 41, pending, amount 60; request 42, approved, bound to period 2,
amount 75. -/
def reimbursementDB : DB :=
  { thirdsDB with
    reimbursement_requests :=
      [requestOf 40 none 150 "approved", requestOf 41 none 60 "pending",
        requestOf 42 (some 2) 75 "approved"] }

/-- An environment in which exactly the three reads of the first employee's records fail
(steps 3, 4 and 5: attendance, overtime, reimbursements). -/
def readsFailEnv : Env :=
  { quietEnv with
    faults := fun n => if 3 ≤ n ∧ n ≤ 5 then some "connection reset" else none }

/-- The store `thirdsDB` without any attendance period. -/
def noPeriodDB : DB := { thirdsDB with attendance_periods := [] }

/-- The payslip that the run on `reimbursementDB` creates when the three reads fail. -/
def emptyPayslip : Payslip :=
  { ID := 1006, CreatedBy := some 99, UpdatedBy := some 99, IPAddress := some "127.0.0.1",
    EmployeeID := 7, AttendancePeriodID := 1,
    BaseSalary := { val := 100 },
    ProratedSalary := { val := 0 },
    AttendanceCount := 0, TotalWorkingDays := 3,
    OvertimeHours := { val := 0 },
    OvertimePay := { val := 0 },
    ReimbursementsTotal := { val := 0 },
    TakeHomePay := { val := 0 } }

/-- The tables that a payroll run only reads are the same in `db` and `db'`. -/
def SameRecords (db db' : DB) : Prop :=
  db'.employees = db.employees ∧ db'.attendance_records = db.attendance_records ∧
    db'.overtime_records = db.overtime_records

/-- The payslip `ps` is the row of the one that the loop body of `RunPayroll` (lines 184-245)
builds for `emp` when it starts on the handle `tx`: the attendance count comes from the first
query, the overtime amounts from the second, the reimbursement total from the loop over the
result of the third, the take-home pay from the sum of the three decimal amounts; each amount
is what its column keeps of the `float64` of the decimal. -/
def PayslipBuilt (env : Env) (p : AttendancePeriod) (periodID adminID : UUID) (ip : String)
    (W : Nat) (emp : Employee) (tx : Tx) (ps : Payslip) : Prop :=
  ps.EmployeeID = emp.ID ∧ ps.AttendancePeriodID = periodID ∧
    ps.BaseSalary = numeric2 emp.Salary ∧
    ps.TotalWorkingDays = W ∧
    ps.AttendanceCount
      = (((tx.findAttendance env emp.ID p.StartDate p.EndDate).map
          (fun ar => ar.Date.day)).dedup).length ∧
    ps.ProratedSalary
      = numeric2 (proratedSalaryOf emp.Salary W ps.AttendanceCount).InexactFloat64 ∧
    ps.OvertimeHours
      = numeric2 (overtimeOf emp.Salary W
          (tx.next.findOvertime env emp.ID p.StartDate p.EndDate)).2.InexactFloat64 ∧
    ps.OvertimePay
      = numeric2 (overtimeOf emp.Salary W
          (tx.next.findOvertime env emp.ID p.StartDate p.EndDate)).1.InexactFloat64 ∧
    ps.ReimbursementsTotal
      = numeric2 (reimbursementLoop env periodID adminID ip
          (tx.next.next.findReimbursements env emp.ID periodID)
          (Decimal.NewFromFloat { val := 0 }) tx.next.next.next).1.InexactFloat64 ∧
    ps.TakeHomePay
      = numeric2 (((proratedSalaryOf emp.Salary W ps.AttendanceCount).Add
          (overtimeOf emp.Salary W
            (tx.next.findOvertime env emp.ID p.StartDate p.EndDate)).1).Add
          (reimbursementLoop env periodID adminID ip
            (tx.next.next.findReimbursements env emp.ID periodID)
            (Decimal.NewFromFloat { val := 0 }) tx.next.next.next).1).InexactFloat64

/-- An environment in which only the store operation at step 7 fails: on `reimbursementDB` that
is the insert of the payslip, after the update of request 40 at step 6. -/
def insertFailsEnv : Env :=
  { quietEnv with faults := fun n => if n = 7 then some "connection reset" else none }

/-- A `time.Time` read from a column of type `date`: midnight UTC of a calendar day. -/
def IsDate (t : Time) : Prop := t.nsec = 0 ∧ t.offset = 0

instance (t : Time) : Decidable (IsDate t) :=
  inferInstanceAs (Decidable (t.nsec = 0 ∧ t.offset = 0))

/-- The calendar date of `t` lies in the inclusive date range of the period `p`. -/
def inPeriod (p : AttendancePeriod) (t : Time) : Bool :=
  decide (p.StartDate.day ≤ t.day) && decide (t.day ≤ p.EndDate.day)

/-- The number of distinct calendar dates among the attendance records of employee `employeeID`
whose date lies in the inclusive date range of the period `p`. -/
def distinctAttendanceDates (records : List AttendanceRecord) (employeeID : UUID)
    (p : AttendancePeriod) : Nat :=
  (((records.filter (fun r => decide (r.EmployeeID = employeeID) && inPeriod p r.Date)).map
    (fun r => r.Date.day)).toFinset).card

/-- Salary 100, period Mon 2023-10-02 to Wed 2023-10-04; two attendance records on 2023-10-02,
one on 2023-10-03, and one on 2023-10-05, after the end of the period. -/
def duplicateAttendanceDB : DB :=
  storeOf 100 (DateUTC 2023 10 2) (DateUTC 2023 10 4)
    [attendanceOn 20 7 1 (DateUTC 2023 10 2), attendanceOn 21 7 1 (DateUTC 2023 10 2),
      attendanceOn 22 7 1 (DateUTC 2023 10 3), attendanceOn 23 7 1 (DateUTC 2023 10 5)] []

/-- The overtime records of employee `employeeID` whose date lies in the inclusive date range of
the period `p`. -/
def overtimeInPeriod (records : List OvertimeRecord) (employeeID : UUID) (p : AttendancePeriod) :
    List OvertimeRecord :=
  records.filter (fun r => decide (r.EmployeeID = employeeID) && inPeriod p r.Date)

/-- The sum of the hours of the records. -/
def hoursSum (records : List OvertimeRecord) : Int := (records.map (fun ot => ot.Hours)).sum

/-- The hourly rate `salary / W / 8`, each of the two quotients taken at the 16 decimal places
that the division of the decimal library keeps. -/
def hourlyRate (salary : Float64) (W : Nat) : ℚ :=
  roundPlaces (roundPlaces ((Decimal.NewFromFloat salary).toRat / W) 16 / 8) 16

/-- The sum over the records of `hourly rate * hours * rate multiplier`. -/
def overtimePaySum (salary : Float64) (W : Nat) (records : List OvertimeRecord) : ℚ :=
  (records.map (fun ot =>
    hourlyRate salary W * ot.Hours * (Decimal.NewFromFloat ot.RateMultiplier).toRat)).sum

/-- Salary 80000, period February 2023 (20 working days), one overtime record of 2 hours at
multiplier 2.0 inside the period and one of 3 hours after its end. -/
def overtimeDB : DB :=
  storeOf 80000 (DateUTC 2023 2 1) (DateUTC 2023 2 28) []
    [{ baseOf 30 with EmployeeID := 7, Date := DateUTC 2023 2 15, Hours := 2,
                      SubmittedAt := DateUTC 2023 2 15, RateMultiplier := { val := 2 } },
     { baseOf 31 with EmployeeID := 7, Date := DateUTC 2023 3 1, Hours := 3,
                      SubmittedAt := DateUTC 2023 3 1, RateMultiplier := { val := 2 } }]

/-- A reimbursement request is eligible for a run on period `periodID`: its status is approved
and its period id is null or the period of the run. -/
def eligible (periodID : UUID) (r : ReimbursementRequest) : Bool :=
  decide (r.Status = "approved") &&
    (decide (r.AttendancePeriodID = none) || decide (r.AttendancePeriodID = some periodID))

/-- The request `r` as a run on period `periodID` by `adminID` saves it: bound to the period and
paid. -/
def markPaid (periodID adminID : UUID) (ip : String) (r : ReimbursementRequest) :
    ReimbursementRequest :=
  { r with AttendancePeriodID := some periodID, Status := "paid", UpdatedBy := some adminID,
           IPAddress := some ip }

/-- The table `T` with the rows that satisfy `P` saved as paid and every other row as it is. -/
def markRows (periodID adminID : UUID) (ip : String) (P : ReimbursementRequest → Bool)
    (T : List ReimbursementRequest) : List ReimbursementRequest :=
  T.map (fun r => if P r then markPaid periodID adminID ip r else r)

/-- The sum of the amounts of the requests, each amount as the decimal that
`decimal.NewFromFloat` reads from the `float64`. -/
def amountsTotal (rrs : List ReimbursementRequest) : ℚ :=
  (rrs.map (fun r => (Decimal.NewFromFloat r.Amount).toRat)).sum

/-- The rows that the query for the reimbursement requests of `emp`, issued at step `step`,
selects: none when the query fails, otherwise the eligible requests of the employee. -/
def claimedBy (env : Env) (periodID : UUID) (emp : Employee) (step : Nat)
    (r : ReimbursementRequest) : Bool :=
  (env.faults step).isNone && (decide (r.EmployeeID = emp.ID) && eligible periodID r)

/-- The requests of a sequence handled by `RunPayroll` one after the other: the persisted state
after the last of them. -/
def runs : List (Env × Ctx) → DB → DB
  | [], db => db
  | e :: rest, db => runs rest (RunPayroll e.1 e.2 db).1

/-- The store `reimbursementDB` with a second unprocessed period 2, Mon 2023-10-09 to
Wed 2023-10-11. -/
def twoPeriodsDB : DB :=
  { reimbursementDB with
    attendance_periods :=
      reimbursementDB.attendance_periods ++
        [{ baseOf 2 with StartDate := DateUTC 2023 10 9, EndDate := DateUTC 2023 10 11,
                         PayrollRunAt := none }] }

/-- An environment for a later request: no store operation fails, `uuid.Parse` knows the
identifier `"2"`. -/
def laterEnv : Env :=
  { now := { day := 19669, nsec := 32400000000000, offset := 0 },
    faults := fun _ => none,
    newID := fun n => 2000 + n,
    uuidParse := fun s => if s = "2" then some 2 else none }

/-- The request of admin 99 to run payroll for period `"2"`. -/
def laterRequest : Ctx :=
  { body := Except.ok "2", userID := some 99, ip := "127.0.0.1", requestID := "req-2" }

/-- An environment in which only the read of the attendance period (store operation 1) fails,
with the error text `e`; the failure is not `gorm.ErrRecordNotFound`. -/
def periodReadFailsEnv (e : String) : Env :=
  { quietEnv with faults := fun n => if n = 1 then some e else none }

/-! ## Middleware (`pkg/middleware/auth.go`) -/

/-- A value that `c.Locals(key)` holds: a `uuid.UUID`, a `string`, or a value of another type. -/
inductive LocalValue where
  | uuid (u : UUID)
  | str (s : String)
  | other
  deriving DecidableEq

/-- The locals of a `*fiber.Ctx` that the middleware reads: `c.Locals("userID")` and
`c.Locals("userType")`, `none` when the interface value is `nil`. -/
structure Locals where
  userID : Option LocalValue
  userType : Option LocalValue
  deriving DecidableEq

/-- What a middleware does with a request: it calls `c.Next()` with the locals as they stand, or
it answers. -/
inductive Handled where
  | next (c : Locals)
  | respond (r : Response)
  deriving DecidableEq

/-- The claims `utils.JWTCustomClaims` of a token, as far as the middleware uses them. -/
structure JWTCustomClaims where
  UserID : UUID
  UserType : String
  deriving DecidableEq

/-- The part of the request that `DeserializeUser` reads: the `Authorization` header and the
`token` cookie. -/
structure AuthRequest where
  authorization : String
  cookieToken : String

/-- The middleware `DeserializeUser`.  `parseJWT` stands for `utils.ParseJWT` with the configured
secret (`none` for an error); the error it returns is always wrapped by `fmt.Errorf`, so the
comparison `err == jwt.ErrTokenExpired` never holds. -/
def DeserializeUser (parseJWT : String → Option JWTCustomClaims) (r : AuthRequest) : Handled :=
  let tokenString :=
    if r.authorization.startsWith "Bearer " then r.authorization.drop 7
    else if r.cookieToken ≠ "" then r.cookieToken
    else ""
  if tokenString = "" then Handled.next { userID := none, userType := none }
  else
    match parseJWT tokenString with
    | none => Handled.respond { code := 401, status := "fail", message := "Invalid token" }
    | some claims =>
      Handled.next { userID := some (LocalValue.uuid claims.UserID),
                     userType := some (LocalValue.str claims.UserType) }

/-- The middleware `RequireLoggedIn()`. -/
def RequireLoggedIn (c : Locals) : Handled :=
  match c.userID with
  | none =>
    Handled.respond { code := 401, status := "fail",
                      message := "You are not logged in. Please provide a valid token." }
  | some _ => Handled.next c

/-- The middleware `RequireUserType(requiredType)`. -/
def RequireUserType (requiredType : String) (c : Locals) : Handled :=
  match c.userID with
  | none =>
    Handled.respond { code := 401, status := "fail",
                      message := "Authentication required. Please log in." }
  | some _ =>
    match c.userType with
    | some (LocalValue.str userType) =>
      if userType = "" then
        Handled.respond { code := 403, status := "fail",
                          message := "User type not found in token or token is invalid." }
      else if userType ≠ requiredType then
        Handled.respond
          { code := 403, status := "fail",
            message := "You are not authorized to perform this action. Required role: "
              ++ requiredType }
      else Handled.next c
    | _ =>
      Handled.respond { code := 403, status := "fail",
                        message := "User type not found in token or token is invalid." }

/-- One middleware after another: the second runs when the first calls `c.Next()`. -/
def Handled.andThen (h : Handled) (f : Locals → Handled) : Handled :=
  match h with
  | Handled.next c => f c
  | Handled.respond r => Handled.respond r

/-- The middleware in front of the protected admin routes: `app.Use(DeserializeUser)` and the
group `api.Group("", RequireLoggedIn(), RequireUserType("admin"))` of `SetupAdminRoutes`. -/
def adminProtectedGroup (parseJWT : String → Option JWTCustomClaims) (r : AuthRequest) :
    Handled :=
  ((DeserializeUser parseJWT r).andThen RequireLoggedIn).andThen (RequireUserType "admin")

/-- A token parser that knows the token of admin 99 and the token of employee 7. -/
def sampleParseJWT (token : String) : Option JWTCustomClaims :=
  if token = "admin-token" then some { UserID := 99, UserType := "admin" }
  else if token = "employee-token" then some { UserID := 7, UserType := "employee" }
  else none

/-! ## Handlers that create periods and records (`pkg/controllers`) -/

/-- The number that a string of decimal digits denotes; `none` when a character is not a
digit. -/
def digitsValue (cs : List Char) : Option Nat :=
  if cs.all Char.isDigit then some (cs.foldl (fun n c => 10 * n + (c.toNat - 48)) 0) else none

/-- The number of days of month `m` of year `y` in the Gregorian calendar. -/
def daysIn (y m : Nat) : Nat :=
  if m = 2 then (if (y % 4 = 0 ∧ y % 100 ≠ 0) ∨ y % 400 = 0 then 29 else 28)
  else if m = 4 ∨ m = 6 ∨ m = 9 ∨ m = 11 then 30
  else 31

/-- Go `time.Parse("2006-01-02", s)`: four digits of the year, two of the month, two of the day,
separated by `-`, a month from 1 to 12 and a day that the month has; the result is midnight UTC
of that date, `none` stands for an error. -/
def parseDate (s : String) : Option Time :=
  match s.toList with
  | [y1, y2, y3, y4, s1, m1, m2, s2, d1, d2] =>
    if s1 = '-' ∧ s2 = '-' then
      match digitsValue [y1, y2, y3, y4], digitsValue [m1, m2], digitsValue [d1, d2] with
      | some y, some m, some d =>
        if 1 ≤ m ∧ m ≤ 12 ∧ 1 ≤ d ∧ d ≤ daysIn y m then some (DateUTC y m d) else none
      | _, _, _ => none
    else none
  | _ => none

/-- Go `t.Hour()`: the hour of the wall-clock time of `t`. -/
def Time.Hour (t : Time) : Nat := t.nsec / 3600000000000

/-- The JSON answer of a handler: a status code with `status` and `message`, or a status code
with `status` and `data`. -/
inductive Answer (α : Type) where
  | message (code : Nat) (status : String) (message : String)
  | data (code : Nat) (status : String) (data : α)
  deriving DecidableEq

/-- What a handler reads from the `*fiber.Ctx`: the outcome of `c.BodyParser(&payload)` (an
error text, or the payload), the `userID` local when it holds a `uuid.UUID`, `c.IP()`, and the
request identifier local. -/
structure Req (β : Type) where
  body : Except String β
  userID : Option UUID
  ip : String
  requestID : String

/-- The query `db.Where(cond).First(&row)` of gorm: the row with the smallest primary key among
the rows `rows` that satisfy the condition; `none` stands for `gorm.ErrRecordNotFound`. -/
def firstBy {α : Type} (key : α → UUID) : List α → Option α
  | [] => none
  | a :: rest =>
    match firstBy key rest with
    | none => some a
    | some b => if key a ≤ key b then some a else some b

namespace Tx

/-- A successful `Create(&period)`: `BeforeCreate` gives the row a fresh identifier when it has
none; the row as created is returned with the handle. -/
def createPeriod (env : Env) (tx : Tx) (p : AttendancePeriod) : Tx × AttendancePeriod :=
  let row : AttendancePeriod := if p.ID = 0 then { p with ID := env.newID tx.step } else p
  ({ db := { tx.db with attendance_periods := tx.db.attendance_periods ++ [row] },
     step := tx.step + 1 }, row)

/-- A successful `Create(&attendanceRecord)`. -/
def createAttendance (env : Env) (tx : Tx) (r : AttendanceRecord) : Tx × AttendanceRecord :=
  let row : AttendanceRecord := if r.ID = 0 then { r with ID := env.newID tx.step } else r
  ({ db := { tx.db with attendance_records := tx.db.attendance_records ++ [row] },
     step := tx.step + 1 }, row)

/-- A successful `Create(&overtimeRecord)`.  The hours are an integer column; the rate multiplier
that `SubmitOvertime` writes is 2.0, which its `decimal(3,2)` column keeps as it is. -/
def createOvertime (env : Env) (tx : Tx) (r : OvertimeRecord) : Tx × OvertimeRecord :=
  let row : OvertimeRecord := if r.ID = 0 then { r with ID := env.newID tx.step } else r
  ({ db := { tx.db with overtime_records := tx.db.overtime_records ++ [row] },
     step := tx.step + 1 }, row)

end Tx

/-- The payload `CreateAttendancePeriodPayload`. -/
structure CreateAttendancePeriodPayload where
  StartDate : String
  EndDate : String

/-- The handler `CreateAttendancePeriod(c)`: the persisted state after the request and the
answer sent.  The store operations run on `database.DB` directly, outside a transaction. -/
def CreateAttendancePeriod (env : Env) (c : Req CreateAttendancePeriodPayload) (db : DB) :
    DB × Answer AttendancePeriod :=
  match c.body with
  | Except.error e => (db, Answer.message 400 "fail" e)
  | Except.ok payload =>
    match parseDate payload.StartDate with
    | none => (db, Answer.message 400 "fail" "Invalid start date format. Use YYYY-MM-DD.")
    | some startDate =>
      match parseDate payload.EndDate with
      | none => (db, Answer.message 400 "fail" "Invalid end date format. Use YYYY-MM-DD.")
      | some endDate =>
        if endDate.Before startDate || endDate.Equal startDate then
          (db, Answer.message 400 "fail" "End date must be after start date.")
        else
          match c.userID with
          | none => (db, Answer.message 401 "fail" "Admin ID not found in token or invalid.")
          | some adminID =>
            let period : AttendancePeriod :=
              { ID := 0, CreatedBy := some adminID, UpdatedBy := some adminID,
                IPAddress := some c.ip, StartDate := startDate, EndDate := endDate,
                PayrollRunAt := none }
            let tx : Tx := { db := db, step := 0 }
            match env.faults tx.step with
            | some e =>
              (db, Answer.message 500 "error" ("Could not create attendance period: " ++ e))
            | none =>
              let created := tx.createPeriod env period
              let tx := CreateAuditLog env created.1
                { UserID := adminID, UserType := "admin", Action := "create_attendance_period",
                  TargetResource := "attendance_period", TargetResourceID := created.2.ID,
                  Changes := AuditChanges.period created.2, IPAddress := c.ip,
                  RequestID := c.requestID, PerformedBy := adminID }
              (tx.db, Answer.data 201 "success" created.2)

/-- A store without rows. -/
def emptyDB : DB :=
  { employees := [], attendance_periods := [], attendance_records := [], overtime_records := [],
    reimbursement_requests := [], payslips := [], audit_logs := [] }

/-- The request of admin 99 to create the period from `start` to `end_`. -/
def periodRequest (start end_ : String) : Req CreateAttendancePeriodPayload :=
  { body := Except.ok { StartDate := start, EndDate := end_ }, userID := some 99,
    ip := "127.0.0.1", requestID := "req-1" }

/-- Salary 0.02 (the `float64` nearest to it), period Mon 2023-10-02 to Wed 2023-10-04 (three
working days), present on all three days, no overtime. -/
def centsDB : DB :=
  storeOf (roundToFloat64 (1 / 50)).val (DateUTC 2023 10 2) (DateUTC 2023 10 4)
    [attendanceOn 20 7 1 (DateUTC 2023 10 2), attendanceOn 21 7 1 (DateUTC 2023 10 3),
      attendanceOn 22 7 1 (DateUTC 2023 10 4)] []

/-- The handler `SubmitAttendance(c)`: the persisted state after the request and the answer sent.
It reads no body.  The store operations run on `database.DB` directly: the search for the active
period (operation 0), the search for an attendance record of today (1), the insert (2) and the
audit entry (3). -/
def SubmitAttendance (env : Env) (c : Req Unit) (db : DB) : DB × Answer AttendanceRecord :=
  match c.userID with
  | none => (db, Answer.message 401 "fail" "User not authenticated.")
  | some employeeID =>
    let today := env.now
    let weekday := today.Weekday
    if weekday = Saturday ∨ weekday = Sunday then
      (db, Answer.message 400 "fail" "Attendance submission not allowed on weekends.")
    else
      let dateOnlyToday := today.startOfDay
      match env.faults 0 with
      | some _ => (db, Answer.message 500 "error" "Database error finding attendance period.")
      | none =>
        match firstBy (fun p => p.ID) (db.attendance_periods.filter (fun p =>
            decide (p.StartDate.instant ≤ dateOnlyToday.instant) &&
            decide (p.EndDate.instant ≥ dateOnlyToday.instant) &&
            decide (p.PayrollRunAt = none))) with
        | none =>
          (db, Answer.message 400 "fail"
            "No active attendance period for today, or payroll has been run.")
        | some activePeriod =>
          match env.faults 1 with
          | some _ =>
            (db, Answer.message 500 "error" "Database error checking existing attendance.")
          | none =>
            match firstBy (fun r => r.ID) (db.attendance_records.filter (fun r =>
                decide (r.EmployeeID = employeeID) &&
                decide (r.Date.instant = dateOnlyToday.instant))) with
            | some _ =>
              (db, Answer.message 409 "fail" "Attendance already submitted for today.")
            | none =>
              let attendanceRecord : AttendanceRecord :=
                { ID := 0, CreatedBy := some employeeID, UpdatedBy := some employeeID,
                  IPAddress := some c.ip, EmployeeID := employeeID,
                  AttendancePeriodID := activePeriod.ID, Date := dateOnlyToday,
                  CheckInTime := today }
              let tx : Tx := { db := db, step := 2 }
              match env.faults tx.step with
              | some e =>
                (db, Answer.message 500 "error" ("Could not submit attendance: " ++ e))
              | none =>
                let created := tx.createAttendance env attendanceRecord
                let tx := CreateAuditLog env created.1
                  { UserID := employeeID, UserType := "employee", Action := "submit_attendance",
                    TargetResource := "attendance_record", TargetResourceID := created.2.ID,
                    Changes := AuditChanges.attendanceRecord created.2, IPAddress := c.ip,
                    RequestID := c.requestID, PerformedBy := employeeID }
                (tx.db, Answer.data 201 "success" created.2)

/-- The payload `SubmitOvertimePayload`. -/
structure SubmitOvertimePayload where
  Date : String
  Hours : Int

/-- The handler `SubmitOvertime(c)`: the persisted state after the request and the answer sent.
The store operations run on `database.DB` directly: the search for the attendance record of the
date (operation 0), the search for the active period (1), the insert (2) and the audit entry
(3). -/
def SubmitOvertime (env : Env) (c : Req SubmitOvertimePayload) (db : DB) :
    DB × Answer OvertimeRecord :=
  match c.body with
  | Except.error e => (db, Answer.message 400 "fail" e)
  | Except.ok payload =>
    if payload.Hours ≤ 0 ∨ payload.Hours > 3 then
      (db, Answer.message 400 "fail" "Overtime hours must be between 1 and 3.")
    else
      match parseDate payload.Date with
      | none => (db, Answer.message 400 "fail" "Invalid date format. Use YYYY-MM-DD.")
      | some overtimeDate =>
        match c.userID with
        | none => (db, Answer.message 401 "fail" "User not authenticated.")
        | some employeeID =>
          let now := env.now
          if overtimeDate.day = now.day ∧ now.Hour < 17 then
            (db, Answer.message 400 "fail"
              "Overtime for today can only be submitted after 5 PM.")
          else if overtimeDate.After now then
            (db, Answer.message 400 "fail" "Overtime date cannot be in the future.")
          else
            match env.faults 0 with
            | some _ =>
              (db, Answer.message 500 "error"
                "Database error checking attendance for overtime.")
            | none =>
              match firstBy (fun r => r.ID) (db.attendance_records.filter (fun r =>
                  decide (r.EmployeeID = employeeID) &&
                  decide (r.Date.instant = overtimeDate.instant))) with
              | none =>
                (db, Answer.message 400 "fail"
                  "Cannot submit overtime for a day you did not attend.")
              | some _ =>
                match env.faults 1 with
                | some _ =>
                  (db, Answer.message 500 "error"
                    "Database error finding attendance period for overtime.")
                | none =>
                  match firstBy (fun p => p.ID) (db.attendance_periods.filter (fun p =>
                      decide (p.StartDate.instant ≤ overtimeDate.instant) &&
                      decide (p.EndDate.instant ≥ overtimeDate.instant) &&
                      decide (p.PayrollRunAt = none))) with
                  | none =>
                    (db, Answer.message 400 "fail"
                      "No active attendance period for the overtime date, or payroll has been run.")
                  | some _ =>
                    let overtimeRecord : OvertimeRecord :=
                      { ID := 0, CreatedBy := some employeeID, UpdatedBy := some employeeID,
                        IPAddress := some c.ip, EmployeeID := employeeID, Date := overtimeDate,
                        Hours := payload.Hours, SubmittedAt := now,
                        RateMultiplier := { val := 2 } }
                    let tx : Tx := { db := db, step := 2 }
                    match env.faults tx.step with
                    | some e =>
                      (db, Answer.message 500 "error" ("Could not submit overtime: " ++ e))
                    | none =>
                      let created := tx.createOvertime env overtimeRecord
                      let tx := CreateAuditLog env created.1
                        { UserID := employeeID, UserType := "employee",
                          Action := "submit_overtime", TargetResource := "overtime_record",
                          TargetResourceID := created.2.ID,
                          Changes := AuditChanges.overtimeRecord created.2, IPAddress := c.ip,
                          RequestID := c.requestID, PerformedBy := employeeID }
                      (tx.db, Answer.data 201 "success" created.2)

/-- The request of employee 7 to record `hours` hours of overtime on the date `date`. -/
def overtimeRequest (date : String) (hours : Int) : Req SubmitOvertimePayload :=
  { body := Except.ok { Date := date, Hours := hours }, userID := some 7, ip := "10.0.0.7",
    requestID := "req-7" }

/-- The requests of a sequence handled by `SubmitAttendance` one after the other: the persisted
state after the last of them. -/
def submissions : List (Env × Req Unit) → DB → DB
  | [], db => db
  | e :: rest, db => submissions rest (SubmitAttendance e.1 e.2 db).1

/-- The request of employee 7 to record attendance. -/
def attendanceRequest : Req Unit :=
  { body := Except.ok (), userID := some 7, ip := "10.0.0.7", requestID := "req-7" }

/-- A store with employee 7 and the unprocessed period 1 that covers November 2023, without
attendance records. -/
def novemberDB : DB := storeOf 100 (DateUTC 2023 11 1) (DateUTC 2023 11 30) [] []

/-- The environment `quietEnv` three hours later on the same day, Wed 2023-11-01. -/
def noonEnv : Env :=
  { quietEnv with now := { day := 19662, nsec := 43200000000000, offset := 0 },
                  newID := fun n => 3000 + n }

/-- The attendance records hold calendar dates of the location with offset `loc`, and no two of
them have the same employee and the same calendar date. -/
def OnePerDay (loc : Int) (records : List AttendanceRecord) : Prop :=
  (∀ r ∈ records, r.Date.nsec = 0 ∧ r.Date.offset = loc) ∧
    (records.map (fun r => (r.EmployeeID, r.Date.day))).Nodup

instance (loc : Int) (records : List AttendanceRecord) : Decidable (OnePerDay loc records) :=
  inferInstanceAs (Decidable ((∀ r ∈ records, r.Date.nsec = 0 ∧ r.Date.offset = loc) ∧
    (records.map (fun (r : AttendanceRecord) => (r.EmployeeID, r.Date.day))).Nodup))

/-- The total that the loop over the reimbursement requests computes: the amounts added one by
one to `decimal.NewFromFloat(0)`. -/
def reimbursementSum (rrs : List ReimbursementRequest) : Decimal :=
  rrs.foldl (fun total rr => total.Add (Decimal.NewFromFloat rr.Amount))
    (Decimal.NewFromFloat { val := 0 })

/-- The payslip of lines 234-247 before it is inserted, built from the records the loop body has
fetched and the reimbursement total it has computed. -/
def payslipFrom (periodID adminID : UUID) (ip : String) (W : Nat) (emp : Employee)
    (attendanceRecords : List AttendanceRecord) (overtimeRecords : List OvertimeRecord)
    (reimbursementsTotal : Decimal) : Payslip :=
  let attendanceCount := ((attendanceRecords.map (fun ar => ar.Date.day)).dedup).length
  let proratedSalary := proratedSalaryOf emp.Salary W attendanceCount
  let ot := overtimeOf emp.Salary W overtimeRecords
  { ID := 0, CreatedBy := some adminID, UpdatedBy := some adminID, IPAddress := some ip,
    EmployeeID := emp.ID, AttendancePeriodID := periodID, BaseSalary := emp.Salary,
    ProratedSalary := proratedSalary.InexactFloat64, AttendanceCount := attendanceCount,
    TotalWorkingDays := W, OvertimeHours := ot.2.InexactFloat64,
    OvertimePay := ot.1.InexactFloat64,
    ReimbursementsTotal := reimbursementsTotal.InexactFloat64,
    TakeHomePay := ((proratedSalary.Add ot.1).Add reimbursementsTotal).InexactFloat64 }

/-- The row of the payslip of employee `emp` for period `p`, computed from the employee and the
rows of the attendance, overtime and reimbursement tables alone, with the identifier left
unset. -/
def payslipOf (periodID adminID : UUID) (ip : String) (p : AttendancePeriod) (W : Nat)
    (attendance : List AttendanceRecord) (overtime : List OvertimeRecord)
    (requests : List ReimbursementRequest) (emp : Employee) : Payslip :=
  (payslipFrom periodID adminID ip W emp
    (attendance.filter (fun r =>
      decide (r.EmployeeID = emp.ID) && decide (p.StartDate.instant ≤ r.Date.instant)
        && decide (r.Date.instant ≤ p.EndDate.instant)))
    (overtime.filter (fun r =>
      decide (r.EmployeeID = emp.ID) && decide (p.StartDate.instant ≤ r.Date.instant)
        && decide (r.Date.instant ≤ p.EndDate.instant)))
    (reimbursementSum (requests.filter
      (fun r => decide (r.EmployeeID = emp.ID) && eligible periodID r)))).row

/-- Employee 7 of the scenarios, with salary 100. -/
def employee7 : Employee := { baseOf 7 with Username := "employee7", Salary := { val := 100 } }

/-- Employee 8, with salary 200. -/
def employee8 : Employee := { baseOf 8 with Username := "employee8", Salary := { val := 200 } }

/-- A store with the employees 7 and 8, the unprocessed period 1 from Mon 2023-10-02 to
Wed 2023-10-04, attendance of both, one overtime record of employee 8 and one approved request
of each. -/
def twoEmployeesDB : DB :=
  { employees := [employee7, employee8],
    attendance_periods :=
      [{ baseOf 1 with StartDate := DateUTC 2023 10 2, EndDate := DateUTC 2023 10 4,
                       PayrollRunAt := none }],
    attendance_records :=
      [attendanceOn 20 7 1 (DateUTC 2023 10 2), attendanceOn 21 8 1 (DateUTC 2023 10 2),
        attendanceOn 22 8 1 (DateUTC 2023 10 3)],
    overtime_records :=
      [{ baseOf 30 with EmployeeID := 8, Date := DateUTC 2023 10 3, Hours := 2,
                        SubmittedAt := DateUTC 2023 10 3, RateMultiplier := { val := 2 } }],
    reimbursement_requests :=
      [requestOf 40 none 150 "approved",
        { requestOf 43 none 20 "approved" with EmployeeID := 8 }],
    payslips := [],
    audit_logs := [] }

/-- A `float64` read from a `decimal(10,2)` column, such as the column `salary` of `employees`
(`employee.go`, line 10): the `float64` nearest to a whole number of cents that is below
`10 ^ 10` in absolute value. -/
def IsAmount (f : Float64) : Prop :=
  ∃ k : Int, |k| < 10 ^ 10 ∧ f = roundToFloat64 ((k : ℚ) / 100)

/-- Salary 0.05 (the `float64` nearest to it), period Mon 2023-10-02 to Mon 2023-10-09 (six
working days), present on three days, no overtime. -/
def halfCentDB : DB :=
  storeOf (roundToFloat64 (5 / 100)).val (DateUTC 2023 10 2) (DateUTC 2023 10 9)
    [attendanceOn 20 7 1 (DateUTC 2023 10 2), attendanceOn 21 7 1 (DateUTC 2023 10 3),
      attendanceOn 22 7 1 (DateUTC 2023 10 4)] []

/-- Salary 0.02 (the `float64` nearest to it), period Mon 2023-10-02 to Wed 2023-10-04 (three
working days), no attendance, one overtime record of 3 hours at multiplier 2.0 on the Tuesday. -/
def overtimeCentsDB : DB :=
  storeOf (roundToFloat64 (1 / 50)).val (DateUTC 2023 10 2) (DateUTC 2023 10 4) []
    [{ baseOf 30 with EmployeeID := 7, Date := DateUTC 2023 10 3, Hours := 3,
                      SubmittedAt := DateUTC 2023 10 3, RateMultiplier := { val := 2 } }]

/-! ### Properties of the working-day count -/

theorem countLoop_eq (endDate current : Time) (workingDays : Nat) :
    countLoop endDate current workingDays =
      if current.After endDate then workingDays
      else countLoop endDate (current.AddDate 1)
        (if current.Weekday ≠ Saturday ∧ current.Weekday ≠ Sunday then workingDays + 1
          else workingDays) := by
  rw [countLoop]
  split <;> rfl

theorem after_iff_of_midnight (c e : Time) (hc : c.nsec = 0) (he : e.nsec = 0)
    (ho : c.offset = e.offset) : c.After e = true ↔ e.day < c.day := by
  simp only [Time.After, Time.instant, nsPerDay, hc, he, ho, gt_iff_lt, decide_eq_true_eq]
  constructor <;> intro h <;> omega

theorem countLoop_weekdaysFrom (n : Nat) :
    ∀ (endDate current : Time) (acc : Nat), current.nsec = 0 → endDate.nsec = 0 →
      current.offset = endDate.offset → endDate.day + 1 - current.day = (n : Int) →
      countLoop endDate current acc = acc + weekdaysFrom current.day n := by
  induction n with
  | zero =>
    intro e c acc hc he ho hn
    rw [countLoop_eq]
    have : c.After e = true := (after_iff_of_midnight c e hc he ho).2 (by omega)
    simp [this, weekdaysFrom]
  | succ n ih =>
    intro e c acc hc he ho hn
    rw [countLoop_eq]
    have hna : ¬ (c.After e = true) := by
      rw [after_iff_of_midnight c e hc he ho]; omega
    rw [if_neg hna]
    rw [ih e (c.AddDate 1) _ (by simpa [Time.AddDate] using hc) he
      (by simpa [Time.AddDate] using ho) (by simp only [Time.AddDate]; omega)]
    simp only [Time.Weekday, Time.AddDate, weekdaysFrom]
    split <;> omega

theorem Icc_eq_insert (a b : Int) (h : a ≤ b) :
    Finset.Icc a b = insert a (Finset.Icc (a + 1) b) := by
  ext x
  simp only [Finset.mem_Icc, Finset.mem_insert]
  omega

theorem weekdaysFrom_eq_weekdayCount (n : Nat) :
    ∀ a : Int, weekdaysFrom a n = weekdayCount a (a + n - 1) := by
  induction n with
  | zero =>
    intro a
    have : Finset.Icc a (a + ((0 : Nat) : Int) - 1) = ∅ := by
      apply Finset.Icc_eq_empty
      simp
    simp [weekdaysFrom, weekdayCount, this]
  | succ n ih =>
    intro a
    have hI : Finset.Icc a (a + ((n + 1 : Nat) : Int) - 1)
        = insert a (Finset.Icc (a + 1) (a + 1 + (n : Int) - 1)) := by
      rw [Icc_eq_insert a _ (by push_cast; omega)]
      congr 2
      push_cast
      ring
    have hnot : a ∉ Finset.Icc (a + 1) (a + 1 + (n : Int) - 1) := by
      simp
    simp only [weekdaysFrom, weekdayCount, hI, ih (a + 1), Finset.filter_insert, Saturday, Sunday]
    by_cases hw : 1 ≤ (a + 4) % 7 ∧ (a + 4) % 7 ≤ 5
    · have hw2 : (a + 4) % 7 ≠ 6 ∧ (a + 4) % 7 ≠ 0 := by omega
      rw [if_pos hw, if_pos hw2, Finset.card_insert_of_not_mem]
      · omega
      · intro hm
        exact hnot (Finset.mem_of_mem_filter _ hm)
    · have hw2 : ¬ ((a + 4) % 7 ≠ 6 ∧ (a + 4) % 7 ≠ 0) := by omega
      rw [if_neg hw, if_neg hw2]
      omega

theorem weekdaysFrom_add (n m : Nat) :
    ∀ a : Int, weekdaysFrom a (n + m) = weekdaysFrom a n + weekdaysFrom (a + n) m := by
  induction n with
  | zero => intro a; simp [weekdaysFrom]
  | succ n ih =>
    intro a
    have : n + 1 + m = (n + m) + 1 := by omega
    rw [this]
    simp only [weekdaysFrom, ih (a + 1)]
    have : a + 1 + (n : Int) = a + ((n + 1 : Nat) : Int) := by push_cast; ring
    rw [this]
    omega

theorem weekdaysFrom_congr (n : Nat) :
    ∀ a b : Int, a % 7 = b % 7 → weekdaysFrom a n = weekdaysFrom b n := by
  induction n with
  | zero => intro a b _; rfl
  | succ n ih =>
    intro a b h
    have h4 : (a + 4) % 7 = (b + 4) % 7 := by omega
    have h1 : (a + 1) % 7 = (b + 1) % 7 := by omega
    simp only [weekdaysFrom, h4, ih (a + 1) (b + 1) h1]

theorem weekdaysFrom_seven (a : Int) : weekdaysFrom a 7 = 5 := by
  have key : ∀ r : Int, 0 ≤ r → r < 7 → weekdaysFrom r 7 = 5 := by
    intro r h0 h7
    interval_cases r <;> decide
  rw [weekdaysFrom_congr 7 a (a % 7) (by omega)]
  exact key (a % 7) (by omega) (by omega)

theorem weekdaysFrom_weeks (k : Nat) : ∀ a : Int, weekdaysFrom a (7 * k) = 5 * k := by
  induction k with
  | zero => intro a; simp [weekdaysFrom]
  | succ k ih =>
    intro a
    have : 7 * (k + 1) = 7 + 7 * k := by ring
    rw [this, weekdaysFrom_add, weekdaysFrom_seven, ih]
    ring

theorem calculateWorkingDays_eq (start end_ : Time) (ho : start.offset = end_.offset) :
    CalculateWorkingDays start end_ = weekdaysFrom start.day (end_.day + 1 - start.day).toNat := by
  unfold CalculateWorkingDays
  by_cases hlt : end_.day < start.day
  · have hb : end_.startOfDay.Before start.startOfDay = true := by
      simp only [Time.Before, Time.instant, Time.startOfDay, nsPerDay, ho, decide_eq_true_eq]
      omega
    have h0 : (end_.day + 1 - start.day).toNat = 0 := by omega
    simp [hb, h0, weekdaysFrom]
  · have hb : end_.startOfDay.Before start.startOfDay = false := by
      simp only [Time.Before, Time.instant, Time.startOfDay, nsPerDay, ho, decide_eq_false_iff_not]
      omega
    simp only [hb, Bool.false_eq_true, if_false]
    rw [countLoop_weekdaysFrom (end_.day + 1 - start.day).toNat end_.startOfDay start.startOfDay 0
      rfl rfl (by simpa [Time.startOfDay] using ho) (by simp only [Time.startOfDay]; omega)]
    simp [Time.startOfDay]

/-! ### Properties of decimal arithmetic -/

theorem tenPow_eq_zpow (e : Int) : tenPow e = (10 : ℚ) ^ e := by
  unfold tenPow
  split
  · rename_i h
    rw [← zpow_natCast, Int.toNat_of_nonneg h]
  · rename_i h
    have h' : (0 : Int) ≤ -e := by omega
    rw [← zpow_natCast, Int.toNat_of_nonneg h', zpow_neg, one_div, inv_inv]

theorem tenPow_pos (e : Int) : 0 < tenPow e := by
  rw [tenPow_eq_zpow]; positivity

theorem tenPow_add (a b : Int) : tenPow (a + b) = tenPow a * tenPow b := by
  simp only [tenPow_eq_zpow]
  exact zpow_add₀ (by norm_num) a b

theorem tenPow_natCast (n : Nat) : tenPow (n : Int) = (10 : ℚ) ^ n := by
  rw [tenPow_eq_zpow, zpow_natCast]

theorem tenPow_zero : tenPow 0 = 1 := by
  rw [tenPow_eq_zpow, zpow_zero]

namespace Decimal

theorem toRat_NewFromInt (v : Int) : (NewFromInt v).toRat = v := by
  simp [NewFromInt, toRat, tenPow_zero]

theorem toRat_Mul (a b : Decimal) : (a.Mul b).toRat = a.toRat * b.toRat := by
  simp only [Mul, toRat, tenPow_add]
  push_cast
  ring

/-- Rescaling to a smaller exponent keeps the number. -/
theorem toRat_rescale_le (d : Decimal) (exp : Int) (h : exp ≤ d.exp) :
    (d.rescale exp).toRat = d.toRat ∧ (d.rescale exp).exp = exp := by
  unfold rescale
  split
  · rename_i he
    exact ⟨rfl, he⟩
  · rename_i he
    have hlt : ¬ exp > d.exp := by omega
    simp only [hlt, if_false, toRat, and_true]
    have hd : d.exp = exp + ((exp - d.exp).natAbs : Int) := by omega
    conv_rhs => rw [hd, tenPow_add, tenPow_natCast]
    push_cast
    ring

theorem RescalePair_spec (a b : Decimal) :
    (RescalePair a b).1.toRat = a.toRat ∧ (RescalePair a b).2.toRat = b.toRat ∧
      (RescalePair a b).1.exp = (RescalePair a b).2.exp := by
  unfold RescalePair
  split
  · rename_i h
    have := toRat_rescale_le b a.exp (by omega)
    exact ⟨rfl, this.1, this.2.symm⟩
  · split
    · rename_i h1 h2
      have := toRat_rescale_le a b.exp (by omega)
      exact ⟨this.1, rfl, this.2⟩
    · rename_i h1 h2
      refine ⟨rfl, rfl, ?_⟩
      show a.exp = b.exp
      omega

theorem toRat_Add (a b : Decimal) : (a.Add b).toRat = a.toRat + b.toRat := by
  have h := RescalePair_spec a b
  rw [← h.1, ← h.2.1]
  simp only [Add, toRat]
  rw [← h.2.2]
  push_cast
  ring

theorem toRat_Sub (a b : Decimal) : (a.Sub b).toRat = a.toRat - b.toRat := by
  have h := RescalePair_spec a b
  rw [← h.1, ← h.2.1]
  simp only [Sub, toRat]
  rw [← h.2.2]
  push_cast
  ring

end Decimal

theorem roundHalfAway_neg (x : ℚ) : roundHalfAway (-x) = -roundHalfAway x := by
  rcases lt_trichotomy x 0 with h | h | h
  · have h1 : (0 : ℚ) ≤ -x := by linarith
    have h2 : ¬ (0 : ℚ) ≤ x := by linarith
    simp [roundHalfAway, h1, h2]
  · subst h
    decide!
  · have h1 : ¬ (0 : ℚ) ≤ -x := by linarith
    have h2 : (0 : ℚ) ≤ x := by linarith
    simp [roundHalfAway, h1, h2]

theorem roundHalfAway_quot (Q R B : Nat) (hB : 0 < B) (hR : R < B) :
    roundHalfAway (((B * Q + R : Nat) : ℚ) / B) = (Q : Int) + if B ≤ 2 * R then 1 else 0 := by
  have hBq : (0 : ℚ) < B := by exact_mod_cast hB
  have hRq : (R : ℚ) < B := by exact_mod_cast hR
  have hR0 : (0 : ℚ) ≤ (R : ℚ) := by positivity
  have hx : (0 : ℚ) ≤ ((B * Q + R : Nat) : ℚ) / B := by positivity
  have hdiv : ((B * Q + R : Nat) : ℚ) / B = Q + (R : ℚ) / B := by
    push_cast; field_simp; ring
  unfold roundHalfAway
  rw [if_pos hx, hdiv]
  show ⌊(Q : ℚ) + (R : ℚ) / B + 1 / 2⌋ = _
  rw [Int.floor_eq_iff]
  have h2 : (R : ℚ) / B < 1 := by rw [div_lt_one hBq]; exact hRq
  have h0 : (0 : ℚ) ≤ (R : ℚ) / B := by positivity
  split
  · rename_i h
    have h' : (B : ℚ) ≤ 2 * (R : ℚ) := by exact_mod_cast h
    have h1 : (1 : ℚ) / 2 ≤ (R : ℚ) / B := by
      rw [le_div_iff₀ hBq]; linarith
    push_cast
    constructor <;> linarith
  · rename_i h
    have h' : 2 * (R : ℚ) < B := by
      have : 2 * R < B := by omega
      exact_mod_cast this
    have h1 : (R : ℚ) / B < 1 / 2 := by
      rw [div_lt_iff₀ hBq]; linarith
    push_cast
    constructor <;> linarith

theorem roundHalfAway_natDiv (A B : Nat) (hB : 0 < B) :
    roundHalfAway ((A : ℚ) / B) = ((A / B : Nat) : Int) + if B ≤ 2 * (A % B) then 1 else 0 := by
  have h := roundHalfAway_quot (A / B) (A % B) B hB (Nat.mod_lt A hB)
  rw [Nat.div_add_mod] at h
  exact h

/-- The integer rounding step of `DivRound`: the truncated quotient, moved one unit away from
zero when twice the remainder reaches the divisor. -/
theorem tdiv_round_eq (aa bb : Int) (hb : bb ≠ 0) :
    (if 2 * |aa.tmod bb| < |bb| then aa.tdiv bb
      else if aa.sign * bb.sign < 0 then aa.tdiv bb - 1 else aa.tdiv bb + 1)
      = roundHalfAway ((aa : ℚ) / bb) := by
  obtain ⟨A, hA⟩ : ∃ A : Nat, aa = A ∨ (aa = -(A : Int) ∧ 0 < A) := by
    rcases le_or_lt 0 aa with h | h
    · exact ⟨aa.toNat, Or.inl (by omega)⟩
    · exact ⟨(-aa).toNat, Or.inr ⟨by omega, by omega⟩⟩
  obtain ⟨B, hB0, hB⟩ : ∃ B : Nat, 0 < B ∧ (bb = B ∨ bb = -(B : Int)) := by
    rcases lt_or_gt_of_ne hb with h | h
    · exact ⟨(-bb).toNat, by omega, Or.inr (by omega)⟩
    · exact ⟨bb.toNat, by omega, Or.inl (by omega)⟩
  have key := roundHalfAway_natDiv A B hB0
  have hmodlt := Nat.mod_lt A hB0
  have hdm := Nat.div_add_mod A B
  have hsB : ((B : Int)).sign = 1 := Int.sign_eq_one_of_pos (by omega)
  rcases hA with hA | ⟨hA, hApos⟩ <;> rcases hB with hB | hB <;> subst hA <;> subst hB
  · -- aa = A, bb = B
    have hq : ((A : Int)).tdiv (B : Int) = ((A / B : Nat) : Int) := (Int.ofNat_tdiv A B).symm
    have hr : ((A : Int)).tmod (B : Int) = ((A % B : Nat) : Int) := (Int.ofNat_tmod A B).symm
    have hs : 0 ≤ ((A : Int)).sign := by
      rcases Nat.eq_zero_or_pos A with h | h
      · subst h; simp
      · rw [Int.sign_eq_one_of_pos (by omega)]; omega
    rw [hq, hr, hsB]
    push_cast at key ⊢
    rw [key]
    have e1 : |((A % B : Nat) : Int)| = ((A % B : Nat) : Int) := abs_of_nonneg (by omega)
    have e2 : |(B : Int)| = (B : Int) := abs_of_nonneg (by omega)
    push_cast at e1
    rw [e1, e2]
    split_ifs <;> omega
  · -- aa = A, bb = -B
    have hq : ((A : Int)).tdiv (-(B : Int)) = -((A / B : Nat) : Int) := by
      rw [Int.tdiv_neg, ← Int.ofNat_tdiv]
    have hr : ((A : Int)).tmod (-(B : Int)) = ((A % B : Nat) : Int) := by
      rw [Int.tmod_neg, ← Int.ofNat_tmod]
    have hx : ((A : Int) : ℚ) / ((-(B : Int) : Int) : ℚ) = -((A : ℚ) / B) := by
      push_cast; rw [div_neg]
    rw [hq, hr, hx, roundHalfAway_neg, key, Int.sign_neg, hsB]
    have e1 : |((A % B : Nat) : Int)| = ((A % B : Nat) : Int) := abs_of_nonneg (by omega)
    have e2 : |(-(B : Int))| = (B : Int) := by rw [abs_neg]; exact abs_of_nonneg (by omega)
    rw [e1, e2]
    rcases Nat.eq_zero_or_pos A with h | h
    · subst h; simp; omega
    · have hsA : ((A : Int)).sign = 1 := Int.sign_eq_one_of_pos (by omega)
      rw [hsA]
      push_cast
      split_ifs <;> omega
  · -- aa = -A, bb = B
    have hq : (-(A : Int)).tdiv (B : Int) = -((A / B : Nat) : Int) := by
      rw [Int.neg_tdiv, ← Int.ofNat_tdiv]
    have hr : (-(A : Int)).tmod (B : Int) = -((A % B : Nat) : Int) := by
      rw [Int.tmod_def, hq]
      push_cast
      have := hdm
      have h2 : (B : Int) * ((A : Int) / B) + (A : Int) % B = A := by exact_mod_cast this
      linarith
    have hx : ((-(A : Int) : Int) : ℚ) / ((B : Int) : ℚ) = -((A : ℚ) / B) := by
      push_cast; rw [neg_div]
    have hsA : ((A : Int)).sign = 1 := Int.sign_eq_one_of_pos (by omega)
    rw [hq, hr, hx, roundHalfAway_neg, key, Int.sign_neg, hsB, hsA]
    have e1 : |(-((A % B : Nat) : Int))| = ((A % B : Nat) : Int) := by
      rw [abs_neg]; exact abs_of_nonneg (by omega)
    have e2 : |(B : Int)| = (B : Int) := abs_of_nonneg (by omega)
    rw [e1, e2]
    push_cast
    split_ifs <;> omega
  · -- aa = -A, bb = -B
    have hq : (-(A : Int)).tdiv (-(B : Int)) = ((A / B : Nat) : Int) := by
      rw [Int.tdiv_neg, Int.neg_tdiv, neg_neg, ← Int.ofNat_tdiv]
    have hr : (-(A : Int)).tmod (-(B : Int)) = -((A % B : Nat) : Int) := by
      rw [Int.tmod_def, hq]
      push_cast
      have := hdm
      have h2 : (B : Int) * ((A : Int) / B) + (A : Int) % B = A := by exact_mod_cast this
      linarith
    have hx : ((-(A : Int) : Int) : ℚ) / ((-(B : Int) : Int) : ℚ) = (A : ℚ) / B := by
      push_cast; rw [neg_div_neg_eq]
    have hsA : ((A : Int)).sign = 1 := Int.sign_eq_one_of_pos (by omega)
    rw [hq, hr, hx, key, Int.sign_neg, Int.sign_neg, hsB, hsA]
    have e1 : |(-((A % B : Nat) : Int))| = ((A % B : Nat) : Int) := by
      rw [abs_neg]; exact abs_of_nonneg (by omega)
    have e2 : |(-(B : Int))| = (B : Int) := by rw [abs_neg]; exact abs_of_nonneg (by omega)
    rw [e1, e2]
    push_cast
    split_ifs <;> omega

namespace Decimal

theorem Cmp_neg_iff (x y : Decimal) : x.Cmp y < 0 ↔ x.toRat < y.toRat := by
  have h := RescalePair_spec x y
  rw [← h.1, ← h.2.1]
  simp only [Cmp, toRat]
  rw [← h.2.2]
  have hp := tenPow_pos (RescalePair x y).1.exp
  rw [mul_lt_mul_right hp]
  constructor
  · intro hc
    split at hc
    · rename_i hlt; exact_mod_cast hlt
    · split at hc <;> omega
  · intro hlt
    have hlt' : (RescalePair x y).1.value < (RescalePair x y).2.value := by exact_mod_cast hlt
    rw [if_pos hlt']
    omega

theorem Add_same_exp (v w e : Int) : (Decimal.mk v e).Add (Decimal.mk w e) = Decimal.mk (v + w) e := by
  simp [Add, RescalePair]

theorem Sub_same_exp (v w e : Int) : (Decimal.mk v e).Sub (Decimal.mk w e) = Decimal.mk (v - w) e := by
  simp [Sub, RescalePair]

theorem sign_mul_ten_pow (v : Int) (n : Nat) : (v * 10 ^ n).sign = v.sign := by
  have h : (0 : Int) < 10 ^ n := by positivity
  rw [Int.sign_mul, Int.sign_eq_one_of_pos h, mul_one]

theorem QuoRem_spec (a b : Decimal) (hb : b.value ≠ 0) (prec : Int) :
    ∃ aa bb : Int, bb ≠ 0 ∧ (QuoRem a b prec).1 = Decimal.mk (aa.tdiv bb) (-prec) ∧
      (QuoRem a b prec).2.value = aa.tmod bb ∧
      (aa : ℚ) / bb = a.toRat / b.toRat * tenPow prec ∧
      ((|bb| : Int) : ℚ) * tenPow ((QuoRem a b prec).2.exp + prec) = b.Abs.toRat ∧
      aa.sign * bb.sign = a.value.sign * b.value.sign := by
  have hbq : (b.value : ℚ) ≠ 0 := by exact_mod_cast hb
  have hpb := (tenPow_pos b.exp).ne'
  have hpa := (tenPow_pos a.exp).ne'
  have hpp := (tenPow_pos prec).ne'
  by_cases he : a.exp - b.exp - -prec < 0
  · obtain ⟨n, hn⟩ : ∃ n : Nat, (-(a.exp - b.exp - -prec)).toNat = n := ⟨_, rfl⟩
    have hpos : (0 : Int) < 10 ^ n := by positivity
    refine ⟨a.value, b.value * 10 ^ n, ?_, ?_, ?_, ?_, ?_, ?_⟩
    · exact mul_ne_zero hb hpos.ne'
    · simp only [QuoRem, he, if_true, hn]
    · simp only [QuoRem, he, if_true, hn]
    · have hk : tenPow b.exp = tenPow (n : Int) * tenPow a.exp * tenPow prec := by
        rw [← tenPow_add, ← tenPow_add]
        congr 1
        omega
      rw [tenPow_natCast] at hk
      simp only [toRat]
      rw [hk]
      push_cast
      field_simp
      ring
    · have hk : tenPow b.exp = tenPow (n : Int) * tenPow (a.exp + prec) := by
        rw [← tenPow_add]
        congr 1
        omega
      rw [tenPow_natCast] at hk
      simp only [QuoRem, he, if_true, Abs, toRat]
      rw [hk, abs_mul, abs_of_pos hpos]
      push_cast
      ring
    · rw [sign_mul_ten_pow]
  · obtain ⟨n, hn⟩ : ∃ n : Nat, (a.exp - b.exp - -prec).toNat = n := ⟨_, rfl⟩
    refine ⟨a.value * 10 ^ n, b.value, hb, ?_, ?_, ?_, ?_, ?_⟩
    · simp only [QuoRem, he, if_false, hn]
    · simp only [QuoRem, he, if_false, hn]
    · have hk : tenPow a.exp * tenPow prec = tenPow (n : Int) * tenPow b.exp := by
        rw [← tenPow_add, ← tenPow_add]
        congr 1
        omega
      rw [tenPow_natCast] at hk
      simp only [toRat]
      push_cast
      field_simp
      linear_combination (a.value : ℚ) * (b.value : ℚ) * hk.symm
    · simp only [QuoRem, he, if_false, Abs, toRat]
      congr 2
      ring
    · rw [sign_mul_ten_pow]

theorem DivRound_eq (a b : Decimal) (hb : b.value ≠ 0) (prec : Int) :
    a.DivRound b prec
      = Decimal.mk (roundHalfAway (a.toRat / b.toRat * tenPow prec)) (-prec) := by
  obtain ⟨aa, bb, hbb, hq, hr, hquot, habs, hsign⟩ := QuoRem_spec a b hb prec
  have hcmp : (Decimal.mk (|(QuoRem a b prec).2.value| * 2) ((QuoRem a b prec).2.exp + prec)).Cmp b.Abs < 0
      ↔ 2 * |aa.tmod bb| < |bb| := by
    rw [Cmp_neg_iff, ← habs, hr]
    simp only [toRat]
    rw [mul_lt_mul_right (tenPow_pos _), Int.cast_lt]
    constructor <;> intro h <;> omega
  rw [← hquot, ← tdiv_round_eq aa bb hbb]
  unfold DivRound
  simp only [hcmp, hq, ← hsign, New, Add_same_exp, Sub_same_exp]
  split_ifs <;> rfl

theorem toRat_Div (a b : Decimal) (hb : b.value ≠ 0) :
    (a.Div b).toRat = roundPlaces (a.toRat / b.toRat) 16 := by
  unfold Div DivisionPrecision
  rw [DivRound_eq a b hb 16]
  simp only [toRat, roundPlaces]
  have h1 : tenPow 16 = (10 : ℚ) ^ 16 := tenPow_natCast 16
  have h2 : tenPow (-16) = 1 / (10 : ℚ) ^ 16 := by
    rw [tenPow_eq_zpow]; norm_num
  rw [h1, h2]
  ring

end Decimal

/-! ### Claims about `CalculateWorkingDays` -/

/-- C5: for start and end times of one reference calendar (the same location),
`CalculateWorkingDays(start, end)` is the number of calendar dates `d` with
`date(start) ≤ d ≤ date(end)` whose weekday is Monday to Friday. -/
theorem calculateWorkingDays_eq_weekdayCount (start end_ : Time)
    (hloc : start.offset = end_.offset) :
    CalculateWorkingDays start end_ = weekdayCount start.day end_.day := by
  rw [calculateWorkingDays_eq start end_ hloc]
  by_cases h : end_.day + 1 - start.day < 0
  · have h0 : (end_.day + 1 - start.day).toNat = 0 := by omega
    have hI : Finset.Icc start.day end_.day = ∅ := Finset.Icc_eq_empty (by omega)
    simp [h0, weekdaysFrom, weekdayCount, hI]
  · rw [weekdaysFrom_eq_weekdayCount]
    congr 1
    omega

theorem calculateWorkingDays_eq_weekdayCount_witness :
    (DateUTC 2024 2 1).offset = (DateUTC 2024 2 29).offset ∧
      CalculateWorkingDays (DateUTC 2024 2 1) (DateUTC 2024 2 29)
        = weekdayCount (DateUTC 2024 2 1).day (DateUTC 2024 2 29).day :=
  ⟨rfl, calculateWorkingDays_eq_weekdayCount (DateUTC 2024 2 1) (DateUTC 2024 2 29) rfl⟩

/-- C6: when the calendar date of `end` is earlier than the calendar date of `start` (both in
the same location), `CalculateWorkingDays(start, end)` is 0. -/
theorem calculateWorkingDays_end_before_start (start end_ : Time)
    (hloc : start.offset = end_.offset) (hlt : end_.day < start.day) :
    CalculateWorkingDays start end_ = 0 := by
  rw [calculateWorkingDays_eq start end_ hloc]
  have h0 : (end_.day + 1 - start.day).toNat = 0 := by omega
  rw [h0]
  rfl

theorem calculateWorkingDays_end_before_start_witness :
    (DateUTC 2023 10 6).offset = (DateUTC 2023 10 2).offset ∧
      (DateUTC 2023 10 2).day < (DateUTC 2023 10 6).day ∧
      CalculateWorkingDays (DateUTC 2023 10 6) (DateUTC 2023 10 2) = 0 :=
  ⟨rfl, by decide,
    calculateWorkingDays_end_before_start (DateUTC 2023 10 6) (DateUTC 2023 10 2) rfl (by decide)⟩

/-- C7: `CalculateWorkingDays` ignores the time of day: the result for two timestamps is the
result for the midnights of their calendar dates, and two timestamps on the same Monday-to-Friday
date (same location) give 1 whatever their clock times, also when the clock time of `end` is the
earlier one. -/
theorem calculateWorkingDays_ignores_time_of_day (start end_ : Time) :
    CalculateWorkingDays start end_ = CalculateWorkingDays start.startOfDay end_.startOfDay ∧
      (start.offset = end_.offset → start.day = end_.day →
        1 ≤ start.Weekday ∧ start.Weekday ≤ 5 → CalculateWorkingDays start end_ = 1) := by
  refine ⟨rfl, ?_⟩
  intro hloc hday hwd
  rw [calculateWorkingDays_eq start end_ hloc]
  have h1 : (end_.day + 1 - start.day).toNat = 1 := by omega
  rw [h1]
  simp only [weekdaysFrom, Saturday, Sunday]
  simp only [Time.Weekday] at hwd
  have : (start.day + 4) % 7 ≠ 6 ∧ (start.day + 4) % 7 ≠ 0 := by omega
  rw [if_pos this]

theorem calculateWorkingDays_ignores_time_of_day_witness :
    (Time.mk 19632 61200000000000 0).offset = (Time.mk 19632 32400000000000 0).offset ∧
      (Time.mk 19632 61200000000000 0).day = (Time.mk 19632 32400000000000 0).day ∧
      (1 ≤ (Time.mk 19632 61200000000000 0).Weekday ∧
        (Time.mk 19632 61200000000000 0).Weekday ≤ 5) ∧
      (Time.mk 19632 32400000000000 0).nsec < (Time.mk 19632 61200000000000 0).nsec ∧
      CalculateWorkingDays (Time.mk 19632 61200000000000 0) (Time.mk 19632 32400000000000 0) = 1 :=
  ⟨rfl, rfl, by decide, by decide,
    (calculateWorkingDays_ignores_time_of_day (Time.mk 19632 61200000000000 0)
      (Time.mk 19632 32400000000000 0)).2 rfl rfl (by decide)⟩

/-- C8: a range of exactly `7 * k` consecutive calendar days, from any start date, has `5 * k`
working days; in particular Mon 2023-10-02 to Sun 2023-10-08 gives 5, to 2023-10-15 gives 10, and
Wed 2023-02-01 to 2023-02-28 gives 20. -/
theorem calculateWorkingDays_whole_weeks (start : Time) (k : Nat) :
    CalculateWorkingDays start (start.AddDate (7 * (k : Int) - 1)) = 5 * k ∧
      CalculateWorkingDays (DateUTC 2023 10 2) (DateUTC 2023 10 8) = 5 ∧
      CalculateWorkingDays (DateUTC 2023 10 2) (DateUTC 2023 10 15) = 10 ∧
      CalculateWorkingDays (DateUTC 2023 2 1) (DateUTC 2023 2 28) = 20 := by
  refine ⟨?_, by decide!, by decide!, by decide!⟩
  rw [calculateWorkingDays_eq start (start.AddDate (7 * (k : Int) - 1)) rfl]
  have h : ((start.AddDate (7 * (k : Int) - 1)).day + 1 - start.day).toNat = 7 * k := by
    simp only [Time.AddDate]
    omega
  rw [h, weekdaysFrom_weeks]

/-! ### Properties of `RunPayroll` -/

theorem reimbursementLoop_payslips (env : Env) (periodID adminID : UUID) (ip : String) :
    ∀ (rrs : List ReimbursementRequest) (total : Decimal) (tx : Tx),
      (reimbursementLoop env periodID adminID ip rrs total tx).2.1.db.payslips = tx.db.payslips := by
  intro rrs
  induction rrs with
  | nil => intro total tx; rfl
  | cons rr rest ih =>
    intro total tx
    simp only [reimbursementLoop]
    split
    · rfl
    · rw [ih]; rfl

theorem processEmployee_payslips (env : Env) (p : AttendancePeriod) (periodID adminID : UUID)
    (ip : String) (W : Nat) (emp : Employee) (tx : Tx)
    (h : (processEmployee env p periodID adminID ip W emp tx).2 = none) :
    ∃ ps, (processEmployee env p periodID adminID ip W emp tx).1.db.payslips
        = tx.db.payslips ++ [ps] ∧ PayslipComputed W emp ps := by
  unfold processEmployee at h ⊢
  simp only at h ⊢
  split at h
  · simp at h
  · split at h
    · simp at h
    · simp only [Tx.createPayslip, reimbursementLoop_payslips, Tx.next]
      refine ⟨_, rfl, ?_⟩
      split <;> exact ⟨_, _, rfl, rfl, rfl, rfl, rfl, rfl, rfl, rfl⟩

theorem employeesLoop_payslips (env : Env) (p : AttendancePeriod) (periodID adminID : UUID)
    (ip : String) (W : Nat) :
    ∀ (emps : List Employee) (n : Nat) (tx : Tx),
      (employeesLoop env p periodID adminID ip W emps n tx).2.2 = none →
      ∀ ps ∈ (employeesLoop env p periodID adminID ip W emps n tx).2.1.db.payslips,
        ps ∈ tx.db.payslips ∨ ∃ emp ∈ emps, PayslipComputed W emp ps := by
  intro emps
  induction emps with
  | nil =>
    intro n tx _ ps hps
    exact Or.inl hps
  | cons emp rest ih =>
    intro n tx h ps hps
    simp only [employeesLoop] at h hps
    split at h
    · simp at h
    · rename_i hpe
      simp only [hpe] at hps
      obtain ⟨ps0, hps0, hc⟩ := processEmployee_payslips env p periodID adminID ip W emp tx hpe
      rcases ih _ _ h ps hps with hin | ⟨e, he, hce⟩
      · rw [hps0, List.mem_append, List.mem_singleton] at hin
        rcases hin with hin | rfl
        · exact Or.inl hin
        · exact Or.inr ⟨emp, List.mem_cons_self _ _, hc⟩
      · exact Or.inr ⟨e, List.mem_cons_of_mem _ he, hce⟩

theorem CreateAuditLog_payslips (env : Env) (tx : Tx) (params : AuditLogEntryParams) :
    (CreateAuditLog env tx params).db.payslips = tx.db.payslips := rfl

/-- The shape of a run whose transaction function returns `nil`. -/
theorem runPayrollTx_ok (env : Env) (periodID adminID : UUID) (ip requestID : String) (tx : Tx)
    (h : (runPayrollTx env periodID adminID ip requestID tx).2 = none) :
    ∃ p, tx.db.attendance_periods.find? (fun p => decide (p.ID = periodID)) = some p ∧
      p.PayrollRunAt = none ∧ CalculateWorkingDays p.StartDate p.EndDate ≠ 0 ∧
      env.faults tx.step = none ∧ env.faults tx.next.step = none ∧
      (employeesLoop env p periodID adminID ip (CalculateWorkingDays p.StartDate p.EndDate)
        tx.db.employees 0 tx.next.next).2.2 = none ∧
      env.faults (employeesLoop env p periodID adminID ip
        (CalculateWorkingDays p.StartDate p.EndDate) tx.db.employees 0 tx.next.next).2.1.step = none ∧
      (runPayrollTx env periodID adminID ip requestID tx).1
        = CreateAuditLog env
            ((employeesLoop env p periodID adminID ip (CalculateWorkingDays p.StartDate p.EndDate)
              tx.db.employees 0 tx.next.next).2.1.savePeriod
              { p with PayrollRunAt := some env.now, UpdatedBy := some adminID,
                       IPAddress := some ip })
            { UserID := adminID, UserType := "admin", Action := "run_payroll",
              TargetResource := "attendance_period", TargetResourceID := p.ID,
              Changes := AuditChanges.payrollRun
                (employeesLoop env p periodID adminID ip
                  (CalculateWorkingDays p.StartDate p.EndDate) tx.db.employees 0 tx.next.next).1
                p.ID,
              IPAddress := ip, RequestID := requestID, PerformedBy := adminID } := by
  unfold runPayrollTx at h ⊢
  simp only at h ⊢
  split at h
  · simp at h
  · rename_i hf0
    split at h
    · simp at h
    · rename_i p hfind
      split at h
      · simp at h
      · rename_i hrun
        split at h
        · simp at h
        · rename_i hf1
          split at h
          · split at h <;> simp at h
          · rename_i hW
            split at h
            · simp at h
            · rename_i hel
              split at h
              · simp at h
              · rename_i hf2
                refine ⟨p, hfind, ?_, hW, hf0, hf1, hel, hf2, ?_⟩
                · simpa using hrun
                · rw [if_neg hrun, if_neg hW]
                  rfl

/-- A transaction either leaves the persisted state as it was, or its function returned `nil`
and the state is the one the function left. -/
theorem Transaction_cases (env : Env) (db : DB) (fc : Tx → Tx × Option FiberError) :
    ((Transaction env db fc).1 = db ∧ (Transaction env db fc).2 ≠ none) ∨
      ((fc { db := db, step := 1 }).2 = none ∧ (Transaction env db fc).2 = none ∧
        (Transaction env db fc).1 = (fc { db := db, step := 1 }).1.db) := by
  unfold Transaction
  split
  · exact Or.inl ⟨rfl, by simp⟩
  · simp only
    split
    · exact Or.inl ⟨rfl, by simp⟩
    · rename_i hnone
      split
      · exact Or.inl ⟨rfl, by simp⟩
      · exact Or.inr ⟨hnone, rfl, rfl⟩

/-- Either `RunPayroll` leaves the persisted state as it was, or its transaction function
returned `nil` and the state is the one that function left. -/
theorem RunPayroll_cases (env : Env) (c : Ctx) (db : DB) :
    (RunPayroll env c db).1 = db ∨
      ∃ periodID adminID,
        (runPayrollTx env periodID adminID c.ip c.requestID { db := db, step := 1 }).2 = none ∧
        (RunPayroll env c db).1
          = (runPayrollTx env periodID adminID c.ip c.requestID { db := db, step := 1 }).1.db := by
  unfold RunPayroll
  split
  · exact Or.inl rfl
  · split
    · exact Or.inl rfl
    · rename_i periodID _
      split
      · exact Or.inl rfl
      · rename_i adminID _
        simp only
        rcases Transaction_cases env db (runPayrollTx env periodID adminID c.ip c.requestID) with
          ⟨h1, _⟩ | ⟨h1, h2, h3⟩
        · split <;> exact Or.inl h1
        · right
          refine ⟨periodID, adminID, h1, ?_⟩
          rw [h2]
          exact h3

/-- Where the payslips after `RunPayroll` come from: a payslip was there before the request, or
the loop body built it for an employee of the store, in a run on an unprocessed period of the
store with at least one working day. -/
theorem RunPayroll_payslips (env : Env) (c : Ctx) (db : DB) (ps : Payslip)
    (hps : ps ∈ (RunPayroll env c db).1.payslips) :
    ps ∈ db.payslips ∨
      ∃ p ∈ db.attendance_periods, ∃ emp ∈ db.employees,
        p.PayrollRunAt = none ∧ 0 < CalculateWorkingDays p.StartDate p.EndDate ∧
        PayslipComputed (CalculateWorkingDays p.StartDate p.EndDate) emp ps := by
  rcases RunPayroll_cases env c db with h | ⟨periodID, adminID, hok, hdb⟩
  · rw [h] at hps
    exact Or.inl hps
  · obtain ⟨p, hfind, hrun, hW, _, _, hel, _, hfin⟩ :=
      runPayrollTx_ok env periodID adminID c.ip c.requestID _ hok
    rw [hdb, hfin, CreateAuditLog_payslips] at hps
    have hps' : ps ∈ (employeesLoop env p periodID adminID c.ip
        (CalculateWorkingDays p.StartDate p.EndDate) db.employees 0
        (Tx.next (Tx.next { db := db, step := 1 }))).2.1.db.payslips := hps
    rcases employeesLoop_payslips env p periodID adminID c.ip _ _ _ _ hel ps hps' with hin | ⟨e, he, hc⟩
    · exact Or.inl hin
    · exact Or.inr ⟨p, List.mem_of_find?_eq_some hfind, e, he, hrun, Nat.pos_of_ne_zero hW, hc⟩

/-! ### Rounding -/

theorem roundHalfAway_err (y : ℚ) : |(roundHalfAway y : ℚ) - y| ≤ 1 / 2 := by
  unfold roundHalfAway
  split
  · have h1 := Int.floor_le (y + 1 / 2)
    have h2 := Int.lt_floor_add_one (y + 1 / 2)
    show |((⌊y + 1 / 2⌋ : Int) : ℚ) - y| ≤ 1 / 2
    rw [abs_le]
    constructor <;> linarith
  · have h1 := Int.floor_le (-y + 1 / 2)
    have h2 := Int.lt_floor_add_one (-y + 1 / 2)
    show |((-⌊-y + 1 / 2⌋ : Int) : ℚ) - y| ≤ 1 / 2
    rw [abs_le]
    push_cast
    constructor <;> linarith

theorem roundHalfAway_intCast (k : Int) : roundHalfAway (k : ℚ) = k := by
  have h : ∀ m : Int, ⌊(m : ℚ) + 1 / 2⌋ = m := by
    intro m
    rw [Int.floor_eq_iff]
    constructor <;> linarith
  unfold roundHalfAway
  split
  · exact h k
  · show -⌊-(k : ℚ) + 1 / 2⌋ = k
    have := h (-k)
    push_cast at this
    rw [this]
    ring

theorem roundPlaces_err (x : ℚ) (n : Nat) : |roundPlaces x n - x| ≤ 1 / 2 / (10 : ℚ) ^ n := by
  have hp : (0 : ℚ) < (10 : ℚ) ^ n := by positivity
  have h := roundHalfAway_err (x * (10 : ℚ) ^ n)
  unfold roundPlaces
  have e : (roundHalfAway (x * (10 : ℚ) ^ n) : ℚ) / (10 : ℚ) ^ n - x
      = ((roundHalfAway (x * (10 : ℚ) ^ n) : ℚ) - x * (10 : ℚ) ^ n) / (10 : ℚ) ^ n := by
    field_simp
    ring
  rw [e, abs_div, abs_of_pos hp]
  exact div_le_div_of_nonneg_right h hp.le

theorem roundPlaces_exact (x : ℚ) (n : Nat) (k : Int) (h : x * (10 : ℚ) ^ n = k) :
    roundPlaces x n = x := by
  have hp : (0 : ℚ) < (10 : ℚ) ^ n := by positivity
  unfold roundPlaces
  rw [h, roundHalfAway_intCast, ← h]
  field_simp

theorem toRat_NewFromFloat_zero : (Decimal.NewFromFloat { val := 0 }).toRat = 0 := by
  simp [Decimal.NewFromFloat, Decimal.New, Decimal.toRat]

/-- The decimal value of the prorated salary of lines 193-196. -/
theorem toRat_proratedSalaryOf (salary : Float64) (W att : Nat) (hW : 0 < W) :
    (proratedSalaryOf salary W att).toRat
      = roundPlaces ((Decimal.NewFromFloat salary).toRat / W) 16 * att := by
  unfold proratedSalaryOf
  rw [if_pos hW, Decimal.toRat_Mul, Decimal.toRat_Div, Decimal.toRat_NewFromInt,
    Decimal.toRat_NewFromInt]
  · push_cast
    rfl
  · simp only [Decimal.NewFromInt]
    omega

/-! ### Integers that `float64` holds exactly -/

theorem twoPow_eq_zpow (e : Int) : twoPow e = (2 : ℚ) ^ e := by
  unfold twoPow
  split
  · rename_i h
    rw [← zpow_natCast, Int.toNat_of_nonneg h]
  · rename_i h
    have h' : (0 : Int) ≤ -e := by omega
    rw [← zpow_natCast, Int.toNat_of_nonneg h', zpow_neg, one_div, inv_inv]

theorem digitCount_le : ∀ (fuel k n : Nat), n < 2 ^ k → digitCount 2 fuel n ≤ k := by
  intro fuel
  induction fuel with
  | zero => intro k n _; simp [digitCount]
  | succ fuel ih =>
    intro k n h
    simp only [digitCount]
    split
    · omega
    · rename_i hn
      cases k with
      | zero => simp at h; omega
      | succ k =>
        have : n / 2 < 2 ^ k := by
          rw [Nat.div_lt_iff_lt_mul (by decide)]
          rw [pow_succ] at h
          exact h
        have := ih k (n / 2) this
        omega

theorem roundNearestEven_intCast (k : Int) : roundNearestEven (k : ℚ) = k := by
  have hf : Rat.floor (k : ℚ) = k := by
    show ⌊(k : ℚ)⌋ = k
    exact Int.floor_intCast k
  unfold roundNearestEven
  simp only [hf, sub_self]
  norm_num

theorem floorLog2_le (n : Int) (h : |n| < 2 ^ 53) : floorLog2 |(n : ℚ)| ≤ 52 := by
  have hq : |(n : ℚ)| = ((|n| : Int) : ℚ) := by push_cast; rfl
  have hnum : (|(n : ℚ)|).num.natAbs = n.natAbs := by
    rw [hq, Rat.num_intCast, Int.natAbs_abs]
  have hden : (|(n : ℚ)|).den = 1 := by rw [hq, Rat.den_intCast]
  have hN : n.natAbs < 2 ^ 53 := by
    have : ((n.natAbs : Nat) : Int) = |n| := Int.natCast_natAbs n
    omega
  have hd := digitCount_le n.natAbs 53 n.natAbs hN
  have hone : digitCount 2 1 1 = 1 := by decide
  unfold floorLog2
  simp only [hnum, hden, hone]
  split
  · omega
  · split
    · rename_i h2
      have hlt : |(n : ℚ)| < (2 : ℚ) ^ (53 : Int) := by
        rw [hq]
        have : ((|n| : Int) : ℚ) < ((2 ^ 53 : Int) : ℚ) := Int.cast_lt.mpr h
        rw [zpow_ofNat]
        exact_mod_cast this
      rw [twoPow_eq_zpow] at h2
      have := lt_of_le_of_lt h2 hlt
      have := (zpow_lt_zpow_iff_right₀ (by norm_num : (1 : ℚ) < 2)).mp this
      omega
    · omega

/-- An integer below `2 ^ 53` in absolute value is a `float64`. -/
theorem roundToFloat64_intCast (n : Int) (h : |n| < 2 ^ 53) :
    roundToFloat64 (n : ℚ) = { val := n } := by
  unfold roundToFloat64
  split
  · rename_i h0
    rw [h0]
  · have he := floorLog2_le n h
    simp only
    obtain ⟨m, hm⟩ : ∃ m : Nat, max (floorLog2 |(n : ℚ)| - 52) (-1074) = -(m : Int) := by
      refine ⟨(-(max (floorLog2 |(n : ℚ)| - 52) (-1074))).toNat, ?_⟩
      rw [Int.toNat_of_nonneg (by omega)]
      ring
    rw [hm, twoPow_eq_zpow, zpow_neg, zpow_natCast]
    have hint : (n : ℚ) / ((2 : ℚ) ^ m)⁻¹ = ((n * 2 ^ m : Int) : ℚ) := by
      push_cast
      field_simp
    rw [hint, roundNearestEven_intCast]
    congr 1
    push_cast
    field_simp

/-! ### The error of the conversions between `float64` and decimals -/

theorem digitCount_zero (b fuel : Nat) : digitCount b fuel 0 = 0 := by
  cases fuel <;> simp [digitCount]

/-- With enough fuel `digitCount b` is the number of base-`b` digits. -/
theorem digitCount_spec (b : Nat) (hb : 2 ≤ b) :
    ∀ (fuel n : Nat), 0 < n → n ≤ fuel →
      b ^ (digitCount b fuel n - 1) ≤ n ∧ n < b ^ digitCount b fuel n ∧
        0 < digitCount b fuel n := by
  intro fuel
  induction fuel with
  | zero => intro n h1 h2; omega
  | succ fuel ih =>
    intro n hn hle
    simp only [digitCount]
    rw [if_neg (by omega)]
    have hb0 : 0 < b := by omega
    by_cases h0 : n / b = 0
    · rw [h0, digitCount_zero]
      have h := Nat.div_add_mod n b
      rw [h0] at h
      have hm := Nat.mod_lt n hb0
      simp only [Nat.mul_zero, Nat.zero_add] at h
      refine ⟨by simpa using hn, ?_, by omega⟩
      simp only [Nat.zero_add, pow_one]
      omega
    · have hpos : 0 < n / b := Nat.pos_of_ne_zero h0
      have hlt : n / b < n := Nat.div_lt_self hn hb
      obtain ⟨h1, h2, h3⟩ := ih (n / b) hpos (by omega)
      refine ⟨?_, ?_, by omega⟩
      · have e : digitCount b fuel (n / b) + 1 - 1 = (digitCount b fuel (n / b) - 1) + 1 := by
          omega
        rw [e, pow_succ]
        calc b ^ (digitCount b fuel (n / b) - 1) * b ≤ n / b * b :=
              Nat.mul_le_mul_right b h1
          _ ≤ n := Nat.div_mul_le_self n b
      · rw [pow_succ]
        calc n < b * (n / b + 1) := Nat.lt_mul_div_succ n hb0
          _ = (n / b + 1) * b := Nat.mul_comm _ _
          _ ≤ b ^ digitCount b fuel (n / b) * b := Nat.mul_le_mul_right b h2

/-- A positive rational lies strictly between the powers of `b` one below and one above the
difference of the digit counts of its numerator and denominator. -/
theorem digits_between (b : Nat) (hb : 2 ≤ b) (q : ℚ) (hq : 0 < q) :
    ((b : ℚ) ^ ((digitCount b q.num.natAbs q.num.natAbs : Int)
        - (digitCount b q.den q.den : Int) - 1) < q) ∧
      (q < (b : ℚ) ^ ((digitCount b q.num.natAbs q.num.natAbs : Int)
        - (digitCount b q.den q.den : Int) + 1)) := by
  have hnum : 0 < q.num := Rat.num_pos.mpr hq
  have hn : 0 < q.num.natAbs := Int.natAbs_pos.mpr (by omega)
  have hd : 0 < q.den := q.den_pos
  obtain ⟨a1, a2, a3⟩ := digitCount_spec b hb q.num.natAbs q.num.natAbs hn le_rfl
  obtain ⟨c1, c2, c3⟩ := digitCount_spec b hb q.den q.den hd le_rfl
  have hbq : (0 : ℚ) < (b : ℚ) := by
    have : 0 < b := by omega
    exact_mod_cast this
  have hb0 : (b : ℚ) ≠ 0 := ne_of_gt hbq
  have hqe : (q.num.natAbs : ℚ) / (q.den : ℚ) = q := by
    have h2 : ((q.num.natAbs : Nat) : ℚ) = (q.num : ℚ) := by
      rw [Nat.cast_natAbs, abs_of_pos hnum]
    rw [h2]
    exact Rat.num_div_den q
  generalize digitCount b q.num.natAbs q.num.natAbs = A at a1 a2 a3 ⊢
  generalize digitCount b q.den q.den = C at c1 c2 c3 ⊢
  generalize q.num.natAbs = n at hn a1 a2 hqe
  generalize q.den = d at hd c1 c2 hqe
  have hdq : (0 : ℚ) < (d : ℚ) := by exact_mod_cast hd
  have hnq : (0 : ℚ) < (n : ℚ) := by exact_mod_cast hn
  have a1q : (b : ℚ) ^ (A - 1) ≤ (n : ℚ) := by exact_mod_cast a1
  have a2q : (n : ℚ) < (b : ℚ) ^ A := by exact_mod_cast a2
  have c1q : (b : ℚ) ^ (C - 1) ≤ (d : ℚ) := by exact_mod_cast c1
  have c2q : (d : ℚ) < (b : ℚ) ^ C := by exact_mod_cast c2
  have hpC : (0 : ℚ) < (b : ℚ) ^ C := by positivity
  have hpC1 : (0 : ℚ) < (b : ℚ) ^ (C - 1) := by positivity
  constructor
  · have e : ((A : Int) - (C : Int) - 1) = ((A - 1 : Nat) : Int) - ((C : Nat) : Int) := by omega
    rw [e, zpow_sub₀ hb0, zpow_natCast, zpow_natCast, ← hqe, div_lt_div_iff₀ hpC hdq]
    calc (b : ℚ) ^ (A - 1) * (d : ℚ) ≤ (n : ℚ) * (d : ℚ) := mul_le_mul_of_nonneg_right a1q hdq.le
      _ < (n : ℚ) * (b : ℚ) ^ C := mul_lt_mul_of_pos_left c2q hnq
  · have e : ((A : Int) - (C : Int) + 1) = ((A : Nat) : Int) - ((C - 1 : Nat) : Int) := by omega
    rw [e, zpow_sub₀ hb0, zpow_natCast, zpow_natCast, ← hqe, div_lt_div_iff₀ hdq hpC1]
    calc (n : ℚ) * (b : ℚ) ^ (C - 1) ≤ (n : ℚ) * (d : ℚ) := mul_le_mul_of_nonneg_left c1q hnq.le
      _ < (b : ℚ) ^ A * (d : ℚ) := mul_lt_mul_of_pos_right a2q hdq

/-- The exponent that `floorLog2` returns: `2 ^ e ≤ q < 2 ^ (e + 1)`. -/
theorem floorLog2_spec (q : ℚ) (hq : 0 < q) :
    (2 : ℚ) ^ floorLog2 q ≤ q ∧ q < (2 : ℚ) ^ (floorLog2 q + 1) := by
  obtain ⟨h1, h2⟩ := digits_between 2 (by decide) q hq
  simp only [Nat.cast_ofNat] at h1 h2
  unfold floorLog2
  simp only [twoPow_eq_zpow]
  split
  · rename_i h
    refine ⟨h1.le, ?_⟩
    rw [sub_add_cancel]
    exact h
  · rename_i h
    split
    · rename_i h'
      exact absurd h2 (not_lt.mpr h')
    · rename_i h'
      exact ⟨not_lt.mp h, not_le.mp h'⟩

/-- The exponent that `floorLog10` returns: `10 ^ e ≤ q < 10 ^ (e + 1)`. -/
theorem floorLog10_spec (q : ℚ) (hq : 0 < q) :
    (10 : ℚ) ^ floorLog10 q ≤ q ∧ q < (10 : ℚ) ^ (floorLog10 q + 1) := by
  obtain ⟨h1, h2⟩ := digits_between 10 (by decide) q hq
  simp only [Nat.cast_ofNat] at h1 h2
  unfold floorLog10
  simp only [tenPow_eq_zpow]
  split
  · rename_i h
    refine ⟨h1.le, ?_⟩
    rw [sub_add_cancel]
    exact h
  · rename_i h
    split
    · rename_i h'
      exact absurd h2 (not_lt.mpr h')
    · rename_i h'
      exact ⟨not_lt.mp h, not_le.mp h'⟩

theorem roundNearestEven_err (x : ℚ) : |(roundNearestEven x : ℚ) - x| ≤ 1 / 2 := by
  have h1 := Int.floor_le x
  have h2 := Int.lt_floor_add_one x
  unfold roundNearestEven
  simp only
  show |((if x - (⌊x⌋ : ℚ) < 1 / 2 then ⌊x⌋
      else if 1 / 2 < x - (⌊x⌋ : ℚ) then ⌊x⌋ + 1
      else if ⌊x⌋ % 2 = 0 then ⌊x⌋ else ⌊x⌋ + 1 : Int) : ℚ) - x| ≤ 1 / 2
  rw [abs_le]
  split
  · constructor <;> linarith
  · rename_i h
    split
    · push_cast
      constructor <;> linarith
    · rename_i h'
      split
      · constructor <;> linarith
      · push_cast
        constructor <;> linarith

theorem roundNearestEven_floor (x : ℚ) :
    roundNearestEven x = ⌊x⌋ ∨ roundNearestEven x = ⌊x⌋ + 1 := by
  have hfl : Rat.floor x = ⌊x⌋ := rfl
  unfold roundNearestEven
  simp only [hfl]
  split
  · exact Or.inl rfl
  · split
    · exact Or.inr rfl
    · split
      · exact Or.inl rfl
      · exact Or.inr rfl

theorem roundNearestEven_mono (x y : ℚ) (h : x ≤ y) :
    roundNearestEven x ≤ roundNearestEven y := by
  have hf : ⌊x⌋ ≤ ⌊y⌋ := Int.floor_mono h
  rcases lt_or_eq_of_le hf with hlt | heq
  · have hx : roundNearestEven x ≤ ⌊x⌋ + 1 := by
      rcases roundNearestEven_floor x with e | e <;> omega
    have hy : ⌊y⌋ ≤ roundNearestEven y := by
      rcases roundNearestEven_floor y with e | e <;> omega
    omega
  · unfold roundNearestEven
    simp only
    show (if x - (⌊x⌋ : ℚ) < 1 / 2 then ⌊x⌋
        else if 1 / 2 < x - (⌊x⌋ : ℚ) then ⌊x⌋ + 1
        else if ⌊x⌋ % 2 = 0 then ⌊x⌋ else ⌊x⌋ + 1 : Int)
      ≤ (if y - (⌊y⌋ : ℚ) < 1 / 2 then ⌊y⌋
        else if 1 / 2 < y - (⌊y⌋ : ℚ) then ⌊y⌋ + 1
        else if ⌊y⌋ % 2 = 0 then ⌊y⌋ else ⌊y⌋ + 1 : Int)
    rw [← heq]
    by_cases a1 : x - (⌊x⌋ : ℚ) < 1 / 2
    · rw [if_pos a1]
      split
      · exact le_rfl
      · split
        · omega
        · split
          · exact le_rfl
          · omega
    · rw [if_neg a1]
      have b1 : ¬ (y - (⌊x⌋ : ℚ) < 1 / 2) := by
        intro hb
        apply a1
        linarith
      rw [if_neg b1]
      by_cases a2 : 1 / 2 < x - (⌊x⌋ : ℚ)
      · have b2 : 1 / 2 < y - (⌊x⌋ : ℚ) := by linarith
        rw [if_pos a2, if_pos b2]
      · rw [if_neg a2]
        by_cases b2 : 1 / 2 < y - (⌊x⌋ : ℚ)
        · rw [if_pos b2]
          split <;> omega
        · rw [if_neg b2]

/-- The error of the conversion to `float64`: half a unit in the last place, which is at most
`|q| / 2 ^ 53` for a normal number and `2 ^ -1075` for a subnormal one. -/
theorem roundToFloat64_err (q : ℚ) :
    |(roundToFloat64 q).val - q| ≤ |q| / 2 ^ 53 + 1 / 2 ^ 1075 := by
  unfold roundToFloat64
  split
  · rename_i h0
    rw [h0]
    simp
  · rename_i h0
    have hq : 0 < |q| := abs_pos.mpr h0
    obtain ⟨hlo, _⟩ := floorLog2_spec |q| hq
    simp only [twoPow_eq_zpow]
    generalize floorLog2 |q| = e at hlo
    have hu : (0 : ℚ) < (2 : ℚ) ^ (max (e - 52) (-1074)) := by positivity
    have herr := roundNearestEven_err (q / (2 : ℚ) ^ (max (e - 52) (-1074)))
    have e1 : (roundNearestEven (q / (2 : ℚ) ^ (max (e - 52) (-1074))) : ℚ)
          * (2 : ℚ) ^ (max (e - 52) (-1074)) - q
        = ((roundNearestEven (q / (2 : ℚ) ^ (max (e - 52) (-1074))) : ℚ)
            - q / (2 : ℚ) ^ (max (e - 52) (-1074))) * (2 : ℚ) ^ (max (e - 52) (-1074)) := by
      field_simp
    rw [e1, abs_mul, abs_of_pos hu]
    have hb : |(roundNearestEven (q / (2 : ℚ) ^ (max (e - 52) (-1074))) : ℚ)
          - q / (2 : ℚ) ^ (max (e - 52) (-1074))| * (2 : ℚ) ^ (max (e - 52) (-1074))
        ≤ 1 / 2 * (2 : ℚ) ^ (max (e - 52) (-1074)) :=
      mul_le_mul_of_nonneg_right herr hu.le
    refine hb.trans ?_
    have hq2 : (0 : ℚ) ≤ |q| / 2 ^ 53 := by positivity
    have hη : (0 : ℚ) ≤ 1 / 2 ^ 1075 := by positivity
    rcases le_total (e - 52) (-1074) with hm | hm
    · rw [max_eq_right hm]
      have : (1 : ℚ) / 2 * (2 : ℚ) ^ (-1074 : Int) = 1 / 2 ^ 1075 := by
        rw [zpow_neg, ← zpow_natCast]
        norm_num
      rw [this]
      linarith
    · rw [max_eq_left hm]
      have : (1 : ℚ) / 2 * (2 : ℚ) ^ (e - 52) = (2 : ℚ) ^ e / 2 ^ 53 := by
        rw [zpow_sub₀ (by norm_num : (2 : ℚ) ≠ 0), zpow_ofNat]
        field_simp
        norm_num
      rw [this]
      have : (2 : ℚ) ^ e / 2 ^ 53 ≤ |q| / 2 ^ 53 :=
        div_le_div_of_nonneg_right hlo (by positivity)
      linarith

theorem roundToFloat64_zero : roundToFloat64 0 = { val := 0 } := by
  simp [roundToFloat64]

theorem roundToFloat64_nonneg (y : ℚ) (hy : 0 ≤ y) : 0 ≤ (roundToFloat64 y).val := by
  unfold roundToFloat64
  split
  · exact le_rfl
  · simp only [twoPow_eq_zpow]
    refine mul_nonneg ?_ (by positivity)
    have h0 : (0 : ℚ) ≤ y / (2 : ℚ) ^ max (floorLog2 |y| - 52) (-1074) := by positivity
    have h1 := roundNearestEven_mono 0 _ h0
    have z : roundNearestEven (0 : ℚ) = 0 := by
      have := roundNearestEven_intCast 0
      simpa using this
    rw [z] at h1
    exact_mod_cast h1

/-- The value of `roundToFloat64` at a positive number. -/
theorem roundToFloat64_pos (x : ℚ) (hx : 0 < x) :
    (roundToFloat64 x).val
      = (roundNearestEven (x / (2 : ℚ) ^ max (floorLog2 x - 52) (-1074)) : ℚ)
          * (2 : ℚ) ^ max (floorLog2 x - 52) (-1074) := by
  unfold roundToFloat64
  rw [if_neg (ne_of_gt hx)]
  simp only [twoPow_eq_zpow, abs_of_pos hx]

/-- The conversion to `float64` is monotone on the non-negative numbers. -/
theorem roundToFloat64_mono (x y : ℚ) (hx : 0 ≤ x) (h : x ≤ y) :
    (roundToFloat64 x).val ≤ (roundToFloat64 y).val := by
  rcases eq_or_lt_of_le hx with h0 | hpos
  · rw [← h0, roundToFloat64_zero]
    exact roundToFloat64_nonneg y (hx.trans h)
  · have hy : 0 < y := lt_of_lt_of_le hpos h
    obtain ⟨x1, x2⟩ := floorLog2_spec x hpos
    obtain ⟨y1, y2⟩ := floorLog2_spec y hy
    rw [roundToFloat64_pos x hpos, roundToFloat64_pos y hy]
    generalize floorLog2 x = ex at x1 x2
    generalize floorLog2 y = ey at y1 y2
    have h2 : (1 : ℚ) ≤ 2 := by norm_num
    have h20 : (2 : ℚ) ≠ 0 := by norm_num
    have hee : ex ≤ ey := by
      by_contra hc
      have h3 : ey + 1 ≤ ex := by omega
      have h4 := zpow_le_zpow_right₀ h2 h3
      linarith
    obtain ⟨ux, hux⟩ : ∃ ux, ux = max (ex - 52) (-1074) := ⟨_, rfl⟩
    obtain ⟨uy, huy⟩ : ∃ uy, uy = max (ey - 52) (-1074) := ⟨_, rfl⟩
    rw [← hux, ← huy]
    have hux1 : ex - 52 ≤ ux := by rw [hux]; exact le_max_left _ _
    have hux2 : -1074 ≤ ux := by rw [hux]; exact le_max_right _ _
    have hle : ux ≤ uy := by
      rw [hux, huy]
      exact max_le_max (by omega) le_rfl
    have hpx : (0 : ℚ) < (2 : ℚ) ^ ux := by positivity
    have hpy : (0 : ℚ) < (2 : ℚ) ^ uy := by positivity
    rcases lt_or_eq_of_le hle with hlt | heq
    · have huy3 : uy = ey - 52 := by
        rcases max_choice (ey - 52) (-1074) with hc | hc
        · rw [huy, hc]
        · rw [huy, hc] at hlt
          omega
      obtain ⟨M, hM⟩ : ∃ M, M = max (ex + 1) ux := ⟨_, rfl⟩
      have hM1 : ex + 1 ≤ M := by rw [hM]; exact le_max_left _ _
      have hM2 : ux ≤ M := by rw [hM]; exact le_max_right _ _
      have hM3 : M ≤ ey := by
        rw [hM]
        exact max_le (by omega) (by omega)
      obtain ⟨N, hN⟩ : ∃ N : Nat, (N : Int) = M - ux := ⟨(M - ux).toNat, by
        rw [Int.toNat_of_nonneg (by omega)]⟩
      have hxN : x / (2 : ℚ) ^ ux ≤ (((2 : Int) ^ N : Int) : ℚ) := by
        rw [div_le_iff₀ hpx]
        have e : (((2 : Int) ^ N : Int) : ℚ) * (2 : ℚ) ^ ux = (2 : ℚ) ^ M := by
          push_cast
          rw [← zpow_natCast, hN, ← zpow_add₀ h20]
          congr 1
          omega
        rw [e]
        have := zpow_le_zpow_right₀ h2 hM1
        linarith
      have hrx := roundNearestEven_mono _ _ hxN
      rw [roundNearestEven_intCast] at hrx
      have hrxq : (roundNearestEven (x / (2 : ℚ) ^ ux) : ℚ) ≤ (((2 : Int) ^ N : Int) : ℚ) := by
        exact_mod_cast hrx
      have hX : (roundNearestEven (x / (2 : ℚ) ^ ux) : ℚ) * (2 : ℚ) ^ ux ≤ (2 : ℚ) ^ M := by
        have e : (((2 : Int) ^ N : Int) : ℚ) * (2 : ℚ) ^ ux = (2 : ℚ) ^ M := by
          push_cast
          rw [← zpow_natCast, hN, ← zpow_add₀ h20]
          congr 1
          omega
        rw [← e]
        exact mul_le_mul_of_nonneg_right hrxq hpx.le
      have hyN : (((2 : Int) ^ 52 : Int) : ℚ) ≤ y / (2 : ℚ) ^ uy := by
        rw [le_div_iff₀ hpy]
        have e : (((2 : Int) ^ 52 : Int) : ℚ) * (2 : ℚ) ^ uy = (2 : ℚ) ^ ey := by
          rw [huy3, zpow_sub₀ h20, zpow_ofNat]
          push_cast
          field_simp
          norm_num
          ring
        rw [e]
        exact y1
      have hry := roundNearestEven_mono _ _ hyN
      rw [roundNearestEven_intCast] at hry
      have hryq : (((2 : Int) ^ 52 : Int) : ℚ) ≤ (roundNearestEven (y / (2 : ℚ) ^ uy) : ℚ) := by
        exact_mod_cast hry
      have hY : (2 : ℚ) ^ ey ≤ (roundNearestEven (y / (2 : ℚ) ^ uy) : ℚ) * (2 : ℚ) ^ uy := by
        have e : (((2 : Int) ^ 52 : Int) : ℚ) * (2 : ℚ) ^ uy = (2 : ℚ) ^ ey := by
          rw [huy3, zpow_sub₀ h20, zpow_ofNat]
          push_cast
          field_simp
          norm_num
          ring
        rw [← e]
        exact mul_le_mul_of_nonneg_right hryq hpy.le
      have hMe := zpow_le_zpow_right₀ h2 hM3
      linarith
    · rw [← heq]
      have hdiv : x / (2 : ℚ) ^ ux ≤ y / (2 : ℚ) ^ ux := div_le_div_of_nonneg_right h hpx.le
      have hr := roundNearestEven_mono _ _ hdiv
      have hrq : (roundNearestEven (x / (2 : ℚ) ^ ux) : ℚ)
          ≤ (roundNearestEven (y / (2 : ℚ) ^ ux) : ℚ) := by exact_mod_cast hr
      exact mul_le_mul_of_nonneg_right hrq hpx.le

/-- The digits that `shortestDecimal` returns convert back to `a`, or they are the rounding of `a`
at the last digit position tried. -/
theorem shortestDecimal_spec (a : ℚ) (e10 : Int) :
    ∀ (fuel n : Nat),
      (roundToFloat64 (((shortestDecimal a e10 fuel n).1 : ℚ)
          * tenPow (shortestDecimal a e10 fuel n).2)).val = a ∨
      (|((shortestDecimal a e10 fuel n).1 : ℚ) * tenPow (shortestDecimal a e10 fuel n).2 - a|
          ≤ tenPow (shortestDecimal a e10 fuel n).2 / 2 ∧
        (shortestDecimal a e10 fuel n).2 = e10 - ((n + fuel : Nat) : Int) + 1) := by
  intro fuel
  induction fuel with
  | zero =>
    intro n
    right
    simp only [shortestDecimal, Nat.add_zero, and_true]
    have hT := tenPow_pos (e10 - (n : Int) + 1)
    have herr := roundNearestEven_err (a / tenPow (e10 - (n : Int) + 1))
    have e : (roundNearestEven (a / tenPow (e10 - (n : Int) + 1)) : ℚ)
          * tenPow (e10 - (n : Int) + 1) - a
        = ((roundNearestEven (a / tenPow (e10 - (n : Int) + 1)) : ℚ)
            - a / tenPow (e10 - (n : Int) + 1)) * tenPow (e10 - (n : Int) + 1) := by
      field_simp
    rw [e, abs_mul, abs_of_pos hT]
    calc _ ≤ 1 / 2 * tenPow (e10 - (n : Int) + 1) := mul_le_mul_of_nonneg_right herr hT.le
      _ = tenPow (e10 - (n : Int) + 1) / 2 := by ring
  | succ fuel ih =>
    intro n
    simp only [shortestDecimal]
    split
    · rename_i h
      simp only [Bool.and_eq_true, decide_eq_true_eq] at h
      left
      rcases roundNearestEven_floor (a / tenPow (e10 - (n : Int) + 1)) with e | e
      · rw [e]; exact h.1
      · rw [e]; exact h.2
    · split
      · rename_i h
        simp only [decide_eq_true_eq] at h
        left
        exact h
      · split
        · rename_i h
          simp only [decide_eq_true_eq] at h
          left
          exact h
        · rcases ih (n + 1) with h | ⟨h1, h2⟩
          · left; exact h
          · right
            refine ⟨h1, ?_⟩
            rw [h2]
            push_cast
            ring

/-- A number that converts to the `float64` `a` is close to `a`. -/
theorem near_of_roundToFloat64_eq (R a : ℚ) (ha : 0 ≤ a) (h : (roundToFloat64 R).val = a) :
    |R - a| ≤ a / 2 ^ 52 + 1 / 2 ^ 1074 := by
  have herr := roundToFloat64_err R
  rw [h, abs_sub_comm] at herr
  have htri : |R| ≤ a + |R - a| := by
    have := abs_sub_abs_le_abs_sub R a
    rw [abs_of_nonneg ha] at this
    linarith
  have hx0 : 0 ≤ |R - a| := abs_nonneg _
  have hdiv : |R| / 2 ^ 53 ≤ (a + |R - a|) / 2 ^ 53 :=
    div_le_div_of_nonneg_right htri (by positivity)
  have hhalf : |R - a| / 2 ^ 53 ≤ |R - a| / 2 := by
    apply div_le_div_of_nonneg_left hx0 (by norm_num) (by norm_num)
  have e1 : (a + |R - a|) / 2 ^ 53 = a / 2 ^ 53 + |R - a| / 2 ^ 53 := by ring
  have e2 : a / 2 ^ 52 = 2 * (a / 2 ^ 53) := by ring
  have e3 : (1 : ℚ) / 2 ^ 1074 = 2 * (1 / 2 ^ 1075) := by norm_num
  rw [e2, e3]
  linarith

/-- The error of `decimal.NewFromFloat`: the decimal converts back to the `float64`, or it is the
`float64` rounded to 17 significant digits. -/
theorem NewFromFloat_err (f : Float64) :
    |(Decimal.NewFromFloat f).toRat - f.val| ≤ |f.val| / 2 ^ 52 + 1 / 2 ^ 1074 := by
  unfold Decimal.NewFromFloat
  split
  · rename_i h0
    rw [h0]
    simp [Decimal.New, Decimal.toRat]
  · rename_i h0
    have ha : 0 < |f.val| := abs_pos.mpr h0
    obtain ⟨hlog, _⟩ := floorLog10_spec |f.val| ha
    have hspec := shortestDecimal_spec |f.val| (floorLog10 |f.val|) 16 1
    simp only [Decimal.toRat]
    generalize shortestDecimal |f.val| (floorLog10 |f.val|) 16 1 = r at hspec
    have hcases : f.val = |f.val| ∨ f.val = - |f.val| := by
      rcases le_total 0 f.val with h | h
      · left; rw [abs_of_nonneg h]
      · right; rw [abs_of_nonpos h]; ring
    have hsign : f.val < 0 → f.val = - |f.val| := by
      intro h; rw [abs_of_neg h]; ring
    have hsign2 : ¬ f.val < 0 → f.val = |f.val| := by
      intro h; rw [abs_of_nonneg (not_lt.mp h)]
    generalize |f.val| = a at ha hlog hspec hsign hsign2
    have key : |(r.1 : ℚ) * tenPow r.2 - a| ≤ a / 2 ^ 52 + 1 / 2 ^ 1074 := by
      rcases hspec with hrt | ⟨hb, hexp⟩
      · exact near_of_roundToFloat64_eq _ _ ha.le hrt
      · rw [hexp, tenPow_eq_zpow] at hb
        have h16 : (10 : ℚ) ^ (floorLog10 a - ((1 + 16 : Nat) : Int) + 1)
            = (10 : ℚ) ^ floorLog10 a / 10 ^ 16 := by
          have : floorLog10 a - ((1 + 16 : Nat) : Int) + 1 = floorLog10 a - 16 := by
            push_cast; ring
          rw [this, zpow_sub₀ (by norm_num : (10 : ℚ) ≠ 0), zpow_ofNat]
        rw [h16] at hb
        rw [hexp, tenPow_eq_zpow, h16]
        have h1 : (10 : ℚ) ^ floorLog10 a / 10 ^ 16 / 2 ≤ a / 10 ^ 16 / 2 := by
          apply div_le_div_of_nonneg_right _ (by norm_num)
          exact div_le_div_of_nonneg_right hlog (by positivity)
        have h2 : a / 10 ^ 16 / 2 ≤ a / 2 ^ 52 := by
          rw [div_div]
          apply div_le_div_of_nonneg_left ha.le (by norm_num) (by norm_num)
        have hη : (0 : ℚ) ≤ 1 / 2 ^ 1074 := by positivity
        linarith
    split
    · rename_i hneg
      have e : ((-r.1 : Int) : ℚ) * tenPow r.2 - f.val = -((r.1 : ℚ) * tenPow r.2 - a) := by
        rw [hsign hneg]
        push_cast
        ring
      rw [e, abs_neg]
      exact key
    · rename_i hneg
      rw [hsign2 hneg]
      exact key

/-! ### What a `decimal(10,2)` column keeps -/

theorem roundHalfAway_eq_of_near (y : ℚ) (k : Int) (h : |y - k| < 1 / 2) :
    roundHalfAway y = k := by
  rw [abs_lt] at h
  unfold roundHalfAway
  split
  · show ⌊y + 1 / 2⌋ = k
    rw [Int.floor_eq_iff]
    constructor <;> linarith [h.1, h.2]
  · show -⌊-y + 1 / 2⌋ = k
    have : ⌊-y + 1 / 2⌋ = -k := by
      rw [Int.floor_eq_iff]
      push_cast
      constructor <;> linarith [h.1, h.2]
    rw [this]
    ring

theorem roundHalfAway_le_of_lt (y : ℚ) (k : Int) (h : y < k + 1 / 2) : roundHalfAway y ≤ k := by
  unfold roundHalfAway
  split
  · show ⌊y + 1 / 2⌋ ≤ k
    have : ⌊y + 1 / 2⌋ < k + 1 := by
      rw [Int.floor_lt]
      push_cast
      linarith
    omega
  · show -⌊-y + 1 / 2⌋ ≤ k
    have : -k ≤ ⌊-y + 1 / 2⌋ := by
      rw [Int.le_floor]
      push_cast
      linarith
    omega

theorem roundHalfAway_nonneg (y : ℚ) (h : -(1 / 2) < y) : 0 ≤ roundHalfAway y := by
  unfold roundHalfAway
  split
  · show 0 ≤ ⌊y + 1 / 2⌋
    rw [Int.le_floor]
    push_cast
    linarith
  · show 0 ≤ -⌊-y + 1 / 2⌋
    have : ⌊-y + 1 / 2⌋ < 1 := by
      rw [Int.floor_lt]
      push_cast
      linarith
    omega

theorem roundPlaces_eq_of_near (x : ℚ) (k : Int) (h : |x - k / 100| < 1 / 200) :
    roundPlaces x 2 = k / 100 := by
  unfold roundPlaces
  have h1 : |x * (10 : ℚ) ^ 2 - k| < 1 / 2 := by
    rw [abs_lt] at h ⊢
    constructor <;> linarith [h.1, h.2]
  rw [roundHalfAway_eq_of_near _ k h1]
  norm_num

theorem roundPlaces_le_of_lt (x : ℚ) (k : Int) (h : x < k / 100 + 1 / 200) :
    roundPlaces x 2 ≤ k / 100 := by
  unfold roundPlaces
  have h1 : x * (10 : ℚ) ^ 2 < k + 1 / 2 := by linarith
  have h2 := roundHalfAway_le_of_lt _ k h1
  have h3 : (roundHalfAway (x * (10 : ℚ) ^ 2) : ℚ) ≤ (k : ℚ) := by exact_mod_cast h2
  have : ((10 : ℚ) ^ 2) = 100 := by norm_num
  rw [this]
  exact div_le_div_of_nonneg_right h3 (by norm_num)

theorem roundPlaces_nonneg (x : ℚ) (n : Nat) (h : 0 ≤ x) : 0 ≤ roundPlaces x n := by
  unfold roundPlaces
  have h1 : -(1 / 2) < x * (10 : ℚ) ^ n := by
    have : 0 ≤ x * (10 : ℚ) ^ n := by positivity
    linarith
  have h2 := roundHalfAway_nonneg _ h1
  have h3 : (0 : ℚ) ≤ (roundHalfAway (x * (10 : ℚ) ^ n) : ℚ) := by exact_mod_cast h2
  positivity

theorem roundPlaces_two_nonneg (x : ℚ) (h : -(1 / 200) < x) : 0 ≤ roundPlaces x 2 := by
  unfold roundPlaces
  have h1 : -(1 / 2) < x * (10 : ℚ) ^ 2 := by linarith
  have h2 := roundHalfAway_nonneg _ h1
  have h3 : (0 : ℚ) ≤ (roundHalfAway (x * (10 : ℚ) ^ 2) : ℚ) := by exact_mod_cast h2
  positivity

/-- Converting an amount of at most `10 ^ 8 + 1` to `float64` and reading the `float64` back as a
decimal moves it by at most `2 * 10⁻⁷`. -/
theorem NewFromFloat_roundToFloat64_near (x : ℚ) (hx : |x| ≤ 10 ^ 8 + 1) :
    |(Decimal.NewFromFloat (roundToFloat64 x)).toRat - x| ≤ 2 / 10 ^ 7 ∧
      |(roundToFloat64 x).val - x| ≤ 1 / 10 ^ 7 := by
  have h1 := roundToFloat64_err x
  have h2 := NewFromFloat_err (roundToFloat64 x)
  have c1 : |x| / 2 ^ 53 ≤ (10 ^ 8 + 1) / 2 ^ 53 :=
    div_le_div_of_nonneg_right hx (by positivity)
  have c2 : ((10 : ℚ) ^ 8 + 1) / 2 ^ 53 + 1 / 2 ^ 1075 ≤ 1 / 10 ^ 7 / 2 := by norm_num
  have g1 : |(roundToFloat64 x).val - x| ≤ 1 / 10 ^ 7 / 2 := by linarith
  have g2 : |(roundToFloat64 x).val| ≤ 10 ^ 8 + 2 := by
    have := abs_sub_abs_le_abs_sub (roundToFloat64 x).val x
    have c3 : (1 : ℚ) / 10 ^ 7 / 2 ≤ 1 := by norm_num
    linarith
  have c4 : |(roundToFloat64 x).val| / 2 ^ 52 ≤ (10 ^ 8 + 2) / 2 ^ 52 :=
    div_le_div_of_nonneg_right g2 (by positivity)
  have c5 : ((10 : ℚ) ^ 8 + 2) / 2 ^ 52 + 1 / 2 ^ 1074 ≤ 1 / 10 ^ 7 := by norm_num
  have g3 : |(Decimal.NewFromFloat (roundToFloat64 x)).toRat - (roundToFloat64 x).val|
      ≤ 1 / 10 ^ 7 := by linarith
  constructor
  · have e : (Decimal.NewFromFloat (roundToFloat64 x)).toRat - x
        = ((Decimal.NewFromFloat (roundToFloat64 x)).toRat - (roundToFloat64 x).val)
          + ((roundToFloat64 x).val - x) := by ring
    rw [e]
    have := abs_add ((Decimal.NewFromFloat (roundToFloat64 x)).toRat - (roundToFloat64 x).val)
      ((roundToFloat64 x).val - x)
    have c6 : (1 : ℚ) / 10 ^ 7 + 1 / 10 ^ 7 / 2 ≤ 2 / 10 ^ 7 := by norm_num
    linarith
  · have c7 : (1 : ℚ) / 10 ^ 7 / 2 ≤ 1 / 10 ^ 7 := by norm_num
    linarith

/-- An amount within a thousandth of `k` cents is stored in a `decimal(10,2)` column as `k`
cents. -/
theorem numeric2_eq_of_near (x : ℚ) (k : Int) (hk : |k| < 10 ^ 10)
    (hx : |x - (k : ℚ) / 100| ≤ 1 / 1000) :
    numeric2 (roundToFloat64 x) = roundToFloat64 ((k : ℚ) / 100) := by
  have hkq : |(k : ℚ)| < 10 ^ 10 := by
    have : ((|k| : Int) : ℚ) < ((10 ^ 10 : Int) : ℚ) := Int.cast_lt.mpr hk
    push_cast at this
    exact this
  rw [abs_lt] at hkq
  have hxa : |x| ≤ 10 ^ 8 + 1 := by
    rw [abs_le] at hx ⊢
    constructor <;> linarith [hx.1, hx.2, hkq.1, hkq.2]
  obtain ⟨h1, _⟩ := NewFromFloat_roundToFloat64_near x hxa
  unfold numeric2
  congr 1
  have e : (Decimal.NewFromFloat (roundToFloat64 x)).toRat - (k : ℚ) / 100
      = ((Decimal.NewFromFloat (roundToFloat64 x)).toRat - x) + (x - (k : ℚ) / 100) := by
    ring
  exact roundPlaces_eq_of_near (Decimal.NewFromFloat (roundToFloat64 x)).toRat k (by
    rw [e]
    have := abs_add ((Decimal.NewFromFloat (roundToFloat64 x)).toRat - x) (x - (k : ℚ) / 100)
    have c : (2 : ℚ) / 10 ^ 7 + 1 / 1000 < 1 / 200 := by norm_num
    linarith)

/-- A non-negative amount that exceeds `k` cents by at most a thousandth is stored in a
`decimal(10,2)` column as at most `k` cents. -/
theorem numeric2_le_of_le (x : ℚ) (k : Int) (hk : k < 10 ^ 10) (hx0 : 0 ≤ x)
    (hx : x ≤ (k : ℚ) / 100 + 1 / 1000) :
    (numeric2 (roundToFloat64 x)).val ≤ (roundToFloat64 ((k : ℚ) / 100)).val := by
  have hkq : (k : ℚ) < 10 ^ 10 := by
    have : ((k : Int) : ℚ) < ((10 ^ 10 : Int) : ℚ) := Int.cast_lt.mpr hk
    push_cast at this
    exact this
  have hxa : |x| ≤ 10 ^ 8 + 1 := by
    rw [abs_of_nonneg hx0]
    linarith
  obtain ⟨h1, _⟩ := NewFromFloat_roundToFloat64_near x hxa
  rw [abs_le] at h1
  unfold numeric2
  apply roundToFloat64_mono
  · apply roundPlaces_two_nonneg
    have c : -(1 / 200 : ℚ) < -(2 / 10 ^ 7) := by norm_num
    linarith [h1.1]
  · apply roundPlaces_le_of_lt (Decimal.NewFromFloat (roundToFloat64 x)).toRat k
    have c : (2 : ℚ) / 10 ^ 7 + 1 / 1000 < 1 / 200 := by norm_num
    linarith [h1.2]

/-! ### Amounts in cents -/

/-- A salary or amount read from a `decimal(10,2)` column is stored again as it is. -/
theorem numeric2_of_isAmount (f : Float64) (h : IsAmount f) : numeric2 f = f := by
  obtain ⟨k, hk, rfl⟩ := h
  apply numeric2_eq_of_near _ k hk
  rw [sub_self, abs_zero]
  norm_num

/-- A non-negative integer below `10 ^ 8` is stored in a `decimal(p,2)` column as it is. -/
theorem numeric2_intCast (n : Int) (h0 : 0 ≤ n) (h : n < 10 ^ 8) :
    numeric2 (roundToFloat64 (n : ℚ)) = { val := n } := by
  have hk : |100 * n| < 10 ^ 10 := by
    rw [abs_of_nonneg (by omega)]
    omega
  have hq : ((100 * n : Int) : ℚ) / 100 = (n : ℚ) := by
    push_cast
    ring
  have hnear := numeric2_eq_of_near (n : ℚ) (100 * n) hk (by
    rw [hq, sub_self, abs_zero]
    norm_num)
  rw [hnear, hq]
  apply roundToFloat64_intCast
  rw [abs_of_nonneg h0]
  omega

/-- The decimal a salary in cents is read as is within `2 * 10⁻⁷` of the number of cents. -/
theorem NewFromFloat_cents (k : Int) (hk : |k| < 10 ^ 10) :
    |(Decimal.NewFromFloat (roundToFloat64 ((k : ℚ) / 100))).toRat - (k : ℚ) / 100|
      ≤ 2 / 10 ^ 7 := by
  have hkq : |(k : ℚ)| < 10 ^ 10 := by
    have : ((|k| : Int) : ℚ) < ((10 ^ 10 : Int) : ℚ) := Int.cast_lt.mpr hk
    push_cast at this
    exact this
  apply (NewFromFloat_roundToFloat64_near _ _).1
  rw [abs_div]
  have : |(100 : ℚ)| = 100 := by norm_num
  rw [this]
  have : |(k : ℚ)| / 100 ≤ 10 ^ 10 / 100 := div_le_div_of_nonneg_right hkq.le (by norm_num)
  have c : (10 : ℚ) ^ 10 / 100 ≤ 10 ^ 8 + 1 := by norm_num
  linarith

theorem NewFromFloat_cents_nonneg (k : Int) (hk : |k| < 10 ^ 10) (h0 : 0 ≤ k) :
    0 ≤ (Decimal.NewFromFloat (roundToFloat64 ((k : ℚ) / 100))).toRat := by
  rcases eq_or_lt_of_le h0 with hz | hpos
  · rw [← hz]
    simp only [Int.cast_zero, zero_div]
    rw [roundToFloat64_zero, toRat_NewFromFloat_zero]
  · have h := NewFromFloat_cents k hk
    rw [abs_le] at h
    have hk1 : (1 : ℚ) ≤ (k : ℚ) := by exact_mod_cast hpos
    have c : (2 : ℚ) / 10 ^ 7 ≤ 1 / 100 := by norm_num
    linarith [h.1]

/-- A salary in cents that is not negative as a `float64` is a non-negative number of cents. -/
theorem cents_nonneg (k : Int) (hk : |k| < 10 ^ 10)
    (h : 0 ≤ (roundToFloat64 ((k : ℚ) / 100)).val) : 0 ≤ k := by
  by_contra hneg
  have hk1 : (k : ℚ) ≤ -1 := by
    have : k ≤ -1 := by omega
    exact_mod_cast this
  have hkq : |(k : ℚ)| < 10 ^ 10 := by
    have : ((|k| : Int) : ℚ) < ((10 ^ 10 : Int) : ℚ) := Int.cast_lt.mpr hk
    push_cast at this
    exact this
  have hxa : |(k : ℚ) / 100| ≤ 10 ^ 8 + 1 := by
    rw [abs_div]
    have : |(100 : ℚ)| = 100 := by norm_num
    rw [this]
    have : |(k : ℚ)| / 100 ≤ 10 ^ 10 / 100 := div_le_div_of_nonneg_right hkq.le (by norm_num)
    have c : (10 : ℚ) ^ 10 / 100 ≤ 10 ^ 8 + 1 := by norm_num
    linarith
  obtain ⟨_, h2⟩ := NewFromFloat_roundToFloat64_near ((k : ℚ) / 100) hxa
  rw [abs_le] at h2
  have c : (1 : ℚ) / 10 ^ 7 < 1 / 100 := by norm_num
  linarith [h2.2]

/-- With full attendance the decimal prorated salary is within `W * 0.5 * 10⁻¹⁶` of the salary. -/
theorem toRat_proratedSalaryOf_full (salary : Float64) (W : Nat) (hW : 0 < W) :
    |(proratedSalaryOf salary W W).toRat - (Decimal.NewFromFloat salary).toRat|
      ≤ W * (1 / 2 / (10 : ℚ) ^ 16) := by
  have hWq : (0 : ℚ) < W := by exact_mod_cast hW
  rw [toRat_proratedSalaryOf salary W W hW]
  have h := roundPlaces_err ((Decimal.NewFromFloat salary).toRat / W) 16
  have e : roundPlaces ((Decimal.NewFromFloat salary).toRat / W) 16 * W
        - (Decimal.NewFromFloat salary).toRat
      = (roundPlaces ((Decimal.NewFromFloat salary).toRat / W) 16
          - (Decimal.NewFromFloat salary).toRat / W) * W := by
    field_simp
  rw [e, abs_mul, abs_of_pos hWq, mul_comm]
  exact mul_le_mul_of_nonneg_left h hWq.le

theorem toRat_proratedSalaryOf_le (salary : Float64) (W att : Nat) (hW : 0 < W) (hle : att ≤ W)
    (h0 : 0 ≤ (Decimal.NewFromFloat salary).toRat) :
    (proratedSalaryOf salary W att).toRat
      ≤ (Decimal.NewFromFloat salary).toRat + W * (1 / 2 / (10 : ℚ) ^ 16) := by
  rw [toRat_proratedSalaryOf salary W att hW]
  have herr := roundPlaces_err ((Decimal.NewFromFloat salary).toRat / W) 16
  have hWq : (0 : ℚ) < W := by exact_mod_cast hW
  have hx : 0 ≤ (Decimal.NewFromFloat salary).toRat / W := div_nonneg h0 hWq.le
  have hup : roundPlaces ((Decimal.NewFromFloat salary).toRat / W) 16
      ≤ (Decimal.NewFromFloat salary).toRat / W + 1 / 2 / (10 : ℚ) ^ 16 := by
    have := (abs_le.mp herr).2
    linarith
  have hε : (0 : ℚ) ≤ 1 / 2 / (10 : ℚ) ^ 16 := by positivity
  have hatt : (att : ℚ) ≤ W := by exact_mod_cast hle
  have hatt0 : (0 : ℚ) ≤ att := by exact_mod_cast (Nat.zero_le att)
  calc roundPlaces ((Decimal.NewFromFloat salary).toRat / W) 16 * att
      ≤ ((Decimal.NewFromFloat salary).toRat / W + 1 / 2 / (10 : ℚ) ^ 16) * att :=
        mul_le_mul_of_nonneg_right hup hatt0
    _ ≤ ((Decimal.NewFromFloat salary).toRat / W + 1 / 2 / (10 : ℚ) ^ 16) * W :=
        mul_le_mul_of_nonneg_left hatt (by linarith)
    _ = (Decimal.NewFromFloat salary).toRat + W * (1 / 2 / (10 : ℚ) ^ 16) := by
        field_simp
        ring

/-- The rounding error of the quotient, summed over fewer than `2 ^ 31` working days, stays
below `2 * 10⁻⁷`. -/
theorem workingDays_err (W : Nat) (hW : W < 2 ^ 31) :
    (W : ℚ) * (1 / 2 / (10 : ℚ) ^ 16) ≤ 2 / 10 ^ 7 := by
  have hWq : (W : ℚ) ≤ 2 ^ 31 := by exact_mod_cast hW.le
  have c : ((2 : ℚ) ^ 31) * (1 / 2 / (10 : ℚ) ^ 16) ≤ 2 / 10 ^ 7 := by norm_num
  have : (W : ℚ) * (1 / 2 / (10 : ℚ) ^ 16) ≤ ((2 : ℚ) ^ 31) * (1 / 2 / (10 : ℚ) ^ 16) :=
    mul_le_mul_of_nonneg_right hWq (by positivity)
  linarith

/-- Full attendance: the prorated salary of a salary in cents is stored as the salary. -/
theorem numeric2_prorated_full (salary : Float64) (hs : IsAmount salary) (W : Nat) (hW : 0 < W)
    (hW2 : W < 2 ^ 31) :
    numeric2 (proratedSalaryOf salary W W).InexactFloat64 = salary := by
  obtain ⟨k, hk, rfl⟩ := hs
  have h1 := NewFromFloat_cents k hk
  have h2 := toRat_proratedSalaryOf_full (roundToFloat64 ((k : ℚ) / 100)) W hW
  have h3 := workingDays_err W hW2
  unfold Decimal.InexactFloat64
  apply numeric2_eq_of_near _ k hk
  have e : (proratedSalaryOf (roundToFloat64 ((k : ℚ) / 100)) W W).toRat - (k : ℚ) / 100
      = ((proratedSalaryOf (roundToFloat64 ((k : ℚ) / 100)) W W).toRat
          - (Decimal.NewFromFloat (roundToFloat64 ((k : ℚ) / 100))).toRat)
        + ((Decimal.NewFromFloat (roundToFloat64 ((k : ℚ) / 100))).toRat - (k : ℚ) / 100) := by
    ring
  rw [e]
  have := abs_add ((proratedSalaryOf (roundToFloat64 ((k : ℚ) / 100)) W W).toRat
      - (Decimal.NewFromFloat (roundToFloat64 ((k : ℚ) / 100))).toRat)
    ((Decimal.NewFromFloat (roundToFloat64 ((k : ℚ) / 100))).toRat - (k : ℚ) / 100)
  have c : (2 : ℚ) / 10 ^ 7 + 2 / 10 ^ 7 ≤ 1 / 1000 := by norm_num
  linarith

/-- Attendance of at most `W` days: the prorated salary of a non-negative salary in cents is
stored as at most the salary. -/
theorem numeric2_prorated_le (salary : Float64) (hs : IsAmount salary) (hs0 : 0 ≤ salary.val)
    (W att : Nat) (hW : 0 < W) (hW2 : W < 2 ^ 31) (hle : att ≤ W) :
    (numeric2 (proratedSalaryOf salary W att).InexactFloat64).val ≤ salary.val := by
  obtain ⟨k, hk, rfl⟩ := hs
  have hk0 := cents_nonneg k hk hs0
  have h1 := NewFromFloat_cents k hk
  have h0 := NewFromFloat_cents_nonneg k hk hk0
  have h2 := toRat_proratedSalaryOf_le (roundToFloat64 ((k : ℚ) / 100)) W att hW hle h0
  have h3 := workingDays_err W hW2
  have hWq : (0 : ℚ) < W := by exact_mod_cast hW
  have hd0 : 0 ≤ (proratedSalaryOf (roundToFloat64 ((k : ℚ) / 100)) W att).toRat := by
    rw [toRat_proratedSalaryOf _ W att hW]
    exact mul_nonneg (roundPlaces_nonneg _ 16 (div_nonneg h0 hWq.le)) (by positivity)
  have hk' : k < 10 ^ 10 := lt_of_le_of_lt (le_abs_self k) hk
  unfold Decimal.InexactFloat64
  apply numeric2_le_of_le _ k hk' hd0
  rw [abs_le] at h1
  have c : (2 : ℚ) / 10 ^ 7 + 2 / 10 ^ 7 ≤ 1 / 1000 := by norm_num
  linarith [h1.2]

/-! ### Claims about the amounts of a payslip -/

/-- C2: the prorated salary of every payslip produced by `RunPayroll` is `salary / W *
attendance_count` evaluated with the decimal library: the run has `W > 0`, the value computed is
`NewFromFloat(salary).Div(NewFromInt(W)).Mul(NewFromInt(attendanceCount))`, whose value is the
quotient `salary / W` at the 16 decimal places of the library's division, times the attendance
count, and the payslip holds what its column keeps of the `float64` conversion of that decimal;
with `W = 0` the prorated salary is 0. -/
theorem prorated_salary_decimal (env : Env) (c : Ctx) (db : DB) (ps : Payslip)
    (hps : ps ∈ (RunPayroll env c db).1.payslips) (hnew : ps ∉ db.payslips) :
    (∃ p ∈ db.attendance_periods, ∃ emp ∈ db.employees,
      0 < CalculateWorkingDays p.StartDate p.EndDate ∧
      ps.TotalWorkingDays = CalculateWorkingDays p.StartDate p.EndDate ∧
      ps.EmployeeID = emp.ID ∧
      ps.ProratedSalary
        = numeric2 (((Decimal.NewFromFloat emp.Salary).Div
              (Decimal.NewFromInt (ps.TotalWorkingDays : Int))).Mul
            (Decimal.NewFromInt (ps.AttendanceCount : Int))).InexactFloat64 ∧
      (((Decimal.NewFromFloat emp.Salary).Div
            (Decimal.NewFromInt (ps.TotalWorkingDays : Int))).Mul
          (Decimal.NewFromInt (ps.AttendanceCount : Int))).toRat
        = roundPlaces ((Decimal.NewFromFloat emp.Salary).toRat / ps.TotalWorkingDays) 16
            * ps.AttendanceCount) ∧
    (∀ (salary : Float64) (attendanceCount : Nat),
      (proratedSalaryOf salary 0 attendanceCount).toRat = 0) := by
  constructor
  · rcases RunPayroll_payslips env c db ps hps with h | ⟨p, hp, emp, hemp, _, hpos, hc⟩
    · exact absurd h hnew
    · obtain ⟨ots, total, hid, _, hW, hpro, _, _, _, _⟩ := hc
      have hpos' : 0 < ps.TotalWorkingDays := by rw [hW]; exact hpos
      have hdef : proratedSalaryOf emp.Salary ps.TotalWorkingDays ps.AttendanceCount
          = ((Decimal.NewFromFloat emp.Salary).Div
                (Decimal.NewFromInt (ps.TotalWorkingDays : Int))).Mul
              (Decimal.NewFromInt (ps.AttendanceCount : Int)) := by
        unfold proratedSalaryOf
        rw [if_pos hpos']
      refine ⟨p, hp, emp, hemp, hpos, hW, hid, ?_, ?_⟩
      · rw [← hdef, hW]; exact hpro
      · rw [← hdef]
        exact toRat_proratedSalaryOf emp.Salary ps.TotalWorkingDays ps.AttendanceCount hpos'
  · intro salary att
    unfold proratedSalaryOf
    rw [if_neg (by omega)]
    exact toRat_NewFromFloat_zero

theorem prorated_salary_decimal_witness :
    thirdsPayslip ∈ (RunPayroll quietEnv adminRequest thirdsDB).1.payslips ∧
      thirdsPayslip ∉ thirdsDB.payslips ∧
      ∃ p ∈ thirdsDB.attendance_periods, ∃ emp ∈ thirdsDB.employees,
        0 < CalculateWorkingDays p.StartDate p.EndDate ∧
        thirdsPayslip.TotalWorkingDays = CalculateWorkingDays p.StartDate p.EndDate ∧
        thirdsPayslip.EmployeeID = emp.ID ∧
        thirdsPayslip.ProratedSalary
          = numeric2 (((Decimal.NewFromFloat emp.Salary).Div
                (Decimal.NewFromInt (thirdsPayslip.TotalWorkingDays : Int))).Mul
              (Decimal.NewFromInt (thirdsPayslip.AttendanceCount : Int))).InexactFloat64 ∧
        (((Decimal.NewFromFloat emp.Salary).Div
              (Decimal.NewFromInt (thirdsPayslip.TotalWorkingDays : Int))).Mul
            (Decimal.NewFromInt (thirdsPayslip.AttendanceCount : Int))).toRat
          = roundPlaces
              ((Decimal.NewFromFloat emp.Salary).toRat / thirdsPayslip.TotalWorkingDays) 16
              * thirdsPayslip.AttendanceCount :=
  ⟨by decide!, by decide!,
    (prorated_salary_decimal quietEnv adminRequest thirdsDB thirdsPayslip
      (by decide!) (by decide!)).1⟩

/-- C4, as stated, fails: in the run on `halfCentDB` (salary 0.05, `W = 6`, attendance 3) the
decimal value `salary / W * attendance_count` is 0.025, which rounded to two decimal places is
0.03, but the prorated salary stored is 0.02: the quotient was rounded to 0.0083333333333333
before the multiplication, and 0.0249999999999999 was rounded then. -/
theorem stored_prorated_salary_rounded_twice :
    (Decimal.NewFromFloat (roundToFloat64 (5 / 100))).toRat = 5 / 100 ∧
    roundPlaces ((5 : ℚ) / 100 / 6 * 3) 2 = 3 / 100 ∧
    (proratedSalaryOf (roundToFloat64 (5 / 100)) 6 3).toRat
      = 249999999999999 / 10000000000000000 ∧
    ∃ ps ∈ (RunPayroll quietEnv adminRequest halfCentDB).1.payslips,
      ps ∉ halfCentDB.payslips ∧ ps.BaseSalary = roundToFloat64 (5 / 100) ∧
      ps.TotalWorkingDays = 6 ∧ ps.AttendanceCount = 3 ∧
      ps.ProratedSalary = roundToFloat64 (2 / 100) ∧
      ps.ProratedSalary ≠ roundToFloat64 (roundPlaces ((5 : ℚ) / 100 / 6 * 3) 2) := by
  decide!

/-- C4, amended: the prorated salary stored in a payslip produced by `RunPayroll` is what the
`decimal(10,2)` column keeps, two decimal places, of the `float64` nearest to
`round16(salary / W) * attendance_count`, where the quotient is rounded to 16 decimal places
before the multiplication; this decimal is within `attendance_count * 0.5 * 10⁻¹⁶` of
`salary / W * attendance_count`. -/
theorem stored_prorated_salary (env : Env) (c : Ctx) (db : DB) (ps : Payslip)
    (hps : ps ∈ (RunPayroll env c db).1.payslips) (hnew : ps ∉ db.payslips) :
    ∃ emp ∈ db.employees, ps.EmployeeID = emp.ID ∧ ps.BaseSalary = numeric2 emp.Salary ∧
      0 < ps.TotalWorkingDays ∧
      ps.ProratedSalary
        = numeric2 (roundToFloat64
            (roundPlaces ((Decimal.NewFromFloat emp.Salary).toRat / ps.TotalWorkingDays) 16
              * ps.AttendanceCount)) ∧
      ps.ProratedSalary
        = roundToFloat64 (roundPlaces (Decimal.NewFromFloat (roundToFloat64
            (roundPlaces ((Decimal.NewFromFloat emp.Salary).toRat / ps.TotalWorkingDays) 16
              * ps.AttendanceCount))).toRat 2) ∧
      |roundPlaces ((Decimal.NewFromFloat emp.Salary).toRat / ps.TotalWorkingDays) 16
            * ps.AttendanceCount
          - (Decimal.NewFromFloat emp.Salary).toRat / ps.TotalWorkingDays * ps.AttendanceCount|
        ≤ ps.AttendanceCount * (1 / 2 / (10 : ℚ) ^ 16) := by
  rcases RunPayroll_payslips env c db ps hps with h | ⟨p, _, emp, hemp, _, hpos, hc⟩
  · exact absurd h hnew
  · obtain ⟨ots, total, hid, hbase, hW, hpro, _, _, _, _⟩ := hc
    have hpos' : 0 < ps.TotalWorkingDays := by rw [hW]; exact hpos
    have hval : ps.ProratedSalary
        = numeric2 (roundToFloat64
            (roundPlaces ((Decimal.NewFromFloat emp.Salary).toRat / ps.TotalWorkingDays) 16
              * ps.AttendanceCount)) := by
      rw [hpro, ← hW, Decimal.InexactFloat64, toRat_proratedSalaryOf _ _ _ hpos']
    refine ⟨emp, hemp, hid, hbase, hpos', hval, ?_, ?_⟩
    · rw [hval]
      rfl
    · have h := roundPlaces_err ((Decimal.NewFromFloat emp.Salary).toRat / ps.TotalWorkingDays) 16
      have ha : (0 : ℚ) ≤ (ps.AttendanceCount : ℚ) := by positivity
      rw [← sub_mul, abs_mul, abs_of_nonneg ha, mul_comm]
      exact mul_le_mul_of_nonneg_left h ha

theorem stored_prorated_salary_witness :
    thirdsPayslip ∈ (RunPayroll quietEnv adminRequest thirdsDB).1.payslips ∧
      thirdsPayslip ∉ thirdsDB.payslips ∧
      thirdsPayslip.ProratedSalary = roundToFloat64 (3333 / 100) ∧
      ∃ emp ∈ thirdsDB.employees, thirdsPayslip.EmployeeID = emp.ID ∧
        thirdsPayslip.BaseSalary = numeric2 emp.Salary ∧
        0 < thirdsPayslip.TotalWorkingDays ∧
        thirdsPayslip.ProratedSalary
          = numeric2 (roundToFloat64
              (roundPlaces
                  ((Decimal.NewFromFloat emp.Salary).toRat / thirdsPayslip.TotalWorkingDays) 16
                * thirdsPayslip.AttendanceCount)) ∧
        thirdsPayslip.ProratedSalary
          = roundToFloat64 (roundPlaces (Decimal.NewFromFloat (roundToFloat64
              (roundPlaces
                  ((Decimal.NewFromFloat emp.Salary).toRat / thirdsPayslip.TotalWorkingDays) 16
                * thirdsPayslip.AttendanceCount))).toRat 2) ∧
        |roundPlaces ((Decimal.NewFromFloat emp.Salary).toRat / thirdsPayslip.TotalWorkingDays) 16
              * thirdsPayslip.AttendanceCount
            - (Decimal.NewFromFloat emp.Salary).toRat / thirdsPayslip.TotalWorkingDays
                * thirdsPayslip.AttendanceCount|
          ≤ thirdsPayslip.AttendanceCount * (1 / 2 / (10 : ℚ) ^ 16) :=
  ⟨by decide!, by decide!, rfl,
    stored_prorated_salary quietEnv adminRequest thirdsDB thirdsPayslip (by decide!) (by decide!)⟩

/-! ### Claims about rejected runs -/

/-- A request that is not answered with 200 leaves the persisted state as it was. -/
theorem RunPayroll_state_or_ok (env : Env) (c : Ctx) (db : DB) :
    (RunPayroll env c db).1 = db ∨ (RunPayroll env c db).2.code = 200 := by
  unfold RunPayroll
  split
  · exact Or.inl rfl
  · split
    · exact Or.inl rfl
    · rename_i periodID _
      split
      · exact Or.inl rfl
      · rename_i adminID _
        simp only
        rcases Transaction_cases env db (runPayrollTx env periodID adminID c.ip c.requestID) with
          ⟨h1, _⟩ | ⟨_, h2, _⟩
        · split <;> exact Or.inl h1
        · right
          rw [h2]

/-- C9, evaluated on the code: for the unprocessed period Sat 2023-10-07 to Sun 2023-10-08 (no
working day) the transaction function saves the period as processed on its handle and then
returns the error, so the transaction is rolled back: the caller receives 400 "zero total
working days", no payslip exists, and the persisted period is still unprocessed. -/
theorem zero_working_days_run_is_rolled_back :
    CalculateWorkingDays (DateUTC 2023 10 7) (DateUTC 2023 10 8) = 0 ∧
      ((runPayrollTx quietEnv 1 99 "127.0.0.1" "req-1"
          { db := weekendDB, step := 1 }).1.db.attendance_periods.map
        (fun p => p.PayrollRunAt)) = [some quietEnv.now] ∧
      (RunPayroll quietEnv adminRequest weekendDB).2
        = { code := 400, status := "fail",
            message := "Payroll cannot be run for a period with zero total working days." } ∧
      (RunPayroll quietEnv adminRequest weekendDB).1 = weekendDB ∧
      (RunPayroll quietEnv adminRequest weekendDB).1.payslips = [] ∧
      (RunPayroll quietEnv adminRequest weekendDB).1.attendance_periods.map
        (fun p => p.PayrollRunAt) = [none] := by
  decide!

/-- C10: `RunPayroll` on a period whose `PayrollRunAt` is already set leaves the whole persisted
state (payslips, reimbursement requests, periods, audit log) unchanged, and, when the store
answers the reads, responds 400 "Payroll already run for this period.". -/
theorem already_run_rejected (env : Env) (c : Ctx) (db : DB) (id : String)
    (periodID adminID : UUID) (p : AttendancePeriod) (t : Time)
    (hbody : c.body = Except.ok id) (hparse : env.uuidParse id = some periodID)
    (huser : c.userID = some adminID)
    (hfind : db.attendance_periods.find? (fun q => decide (q.ID = periodID)) = some p)
    (hrun : p.PayrollRunAt = some t) :
    (RunPayroll env c db).1 = db ∧
      (env.faults 0 = none → env.faults 1 = none →
        (RunPayroll env c db).2
          = { code := 400, status := "fail", message := "Payroll already run for this period." }) := by
  have hne : p.PayrollRunAt ≠ none := by rw [hrun]; simp
  have htx : env.faults 1 = none →
      runPayrollTx env periodID adminID c.ip c.requestID { db := db, step := 1 }
        = (Tx.next { db := db, step := 1 },
            some { Code := 400, Message := "Payroll already run for this period." }) := by
    intro h1
    unfold runPayrollTx
    simp only [h1, hfind, if_pos hne]
  constructor
  · unfold RunPayroll
    simp only [hbody, hparse, huser]
    rcases Transaction_cases env db (runPayrollTx env periodID adminID c.ip c.requestID) with
      ⟨h1, _⟩ | ⟨hok, _, _⟩
    · split <;> exact h1
    · exfalso
      obtain ⟨q, hq, hqrun, _⟩ := runPayrollTx_ok env periodID adminID c.ip c.requestID _ hok
      have hqp : q = p := by
        have : some q = some p := hq.symm.trans hfind
        exact Option.some.inj this
      rw [hqp] at hqrun
      exact hne hqrun
  · intro h0 h1
    unfold RunPayroll
    simp only [hbody, hparse, huser, Transaction, h0, htx h1]

theorem already_run_rejected_witness :
    adminRequest.body = Except.ok "1" ∧ quietEnv.uuidParse "1" = some 1 ∧
      adminRequest.userID = some 99 ∧
      processedDB.attendance_periods.find? (fun q => decide (q.ID = 1)) = some processedPeriod ∧
      processedPeriod.PayrollRunAt = some (DateUTC 2023 10 5) ∧
      (RunPayroll quietEnv adminRequest processedDB).1 = processedDB ∧
      (quietEnv.faults 0 = none → quietEnv.faults 1 = none →
        (RunPayroll quietEnv adminRequest processedDB).2
          = { code := 400, status := "fail", message := "Payroll already run for this period." }) :=
  ⟨rfl, by decide, rfl, by decide!, rfl,
    already_run_rejected quietEnv adminRequest processedDB "1" 1 99 processedPeriod
      (DateUTC 2023 10 5) rfl (by decide) rfl (by decide!) rfl⟩


/-! ### Claims about store failures and unknown periods -/

/-- C14, evaluated on the code: when the three reads of an employee's attendance, overtime and
reimbursement records fail, `RunPayroll` still answers 200 and commits a payslip with attendance
count 0 and all amounts 0 (the store `reimbursementDB` holds one attendance day, one overtime
hour and an approved request of 150 for that employee), and the period is marked processed. -/
theorem failed_reads_are_ignored :
    readsFailEnv.faults 3 = some "connection reset" ∧
      readsFailEnv.faults 4 = some "connection reset" ∧
      readsFailEnv.faults 5 = some "connection reset" ∧
      (RunPayroll readsFailEnv adminRequest reimbursementDB).2.code = 200 ∧
      (RunPayroll readsFailEnv adminRequest reimbursementDB).1.payslips = [emptyPayslip] ∧
      (RunPayroll readsFailEnv adminRequest reimbursementDB).1.reimbursement_requests
        = reimbursementDB.reimbursement_requests ∧
      (RunPayroll readsFailEnv adminRequest reimbursementDB).1.attendance_periods.map
          (fun p => p.PayrollRunAt) = [some readsFailEnv.now] := by
  decide!

/-- C15: `RunPayroll` for a period id that no period of the store has leaves the whole persisted
state unchanged and, when the store answers the read, responds 404 "Attendance period not
found.". -/
theorem unknown_period_rejected (env : Env) (c : Ctx) (db : DB) (id : String)
    (periodID adminID : UUID)
    (hbody : c.body = Except.ok id) (hparse : env.uuidParse id = some periodID)
    (huser : c.userID = some adminID)
    (hnone : ∀ p ∈ db.attendance_periods, p.ID ≠ periodID) :
    (RunPayroll env c db).1 = db ∧
      (env.faults 0 = none → env.faults 1 = none →
        (RunPayroll env c db).2
          = { code := 404, status := "fail", message := "Attendance period not found." }) := by
  have hfind : db.attendance_periods.find? (fun q => decide (q.ID = periodID)) = none := by
    rw [List.find?_eq_none]
    intro p hp
    simpa using hnone p hp
  constructor
  · unfold RunPayroll
    simp only [hbody, hparse, huser]
    rcases Transaction_cases env db (runPayrollTx env periodID adminID c.ip c.requestID) with
      ⟨h1, _⟩ | ⟨hok, _, _⟩
    · split <;> exact h1
    · exfalso
      obtain ⟨q, hq, _⟩ := runPayrollTx_ok env periodID adminID c.ip c.requestID _ hok
      have hq' : db.attendance_periods.find? (fun q => decide (q.ID = periodID)) = some q := hq
      rw [hfind] at hq'
      exact Option.noConfusion hq'
  · intro h0 h1
    have htx : runPayrollTx env periodID adminID c.ip c.requestID { db := db, step := 1 }
        = (Tx.next { db := db, step := 1 },
            some { Code := 404, Message := "Attendance period not found." }) := by
      unfold runPayrollTx
      simp only [h1, hfind]
    unfold RunPayroll
    simp only [hbody, hparse, huser, Transaction, h0, htx]

theorem unknown_period_rejected_witness :
    adminRequest.body = Except.ok "1" ∧ quietEnv.uuidParse "1" = some 1 ∧
      adminRequest.userID = some 99 ∧
      (∀ p ∈ noPeriodDB.attendance_periods, p.ID ≠ 1) ∧
      (RunPayroll quietEnv adminRequest noPeriodDB).1 = noPeriodDB ∧
      (quietEnv.faults 0 = none → quietEnv.faults 1 = none →
        (RunPayroll quietEnv adminRequest noPeriodDB).2
          = { code := 404, status := "fail", message := "Attendance period not found." }) :=
  ⟨rfl, by decide, rfl, by decide,
    unknown_period_rejected quietEnv adminRequest noPeriodDB "1" 1 99 rfl (by decide) rfl
      (by decide)⟩


/-! ### The structure of a successful run -/

theorem SameRecords.refl (db : DB) : SameRecords db db := ⟨rfl, rfl, rfl⟩

theorem SameRecords.trans {a b c : DB} (h1 : SameRecords a b) (h2 : SameRecords b c) :
    SameRecords a c :=
  ⟨h2.1.trans h1.1, h2.2.1.trans h1.2.1, h2.2.2.trans h1.2.2⟩

theorem reimbursementLoop_frame (env : Env) (periodID adminID : UUID) (ip : String) :
    ∀ (rrs : List ReimbursementRequest) (total : Decimal) (tx : Tx),
      SameRecords tx.db (reimbursementLoop env periodID adminID ip rrs total tx).2.1.db ∧
      (reimbursementLoop env periodID adminID ip rrs total tx).2.1.db.attendance_periods
        = tx.db.attendance_periods ∧
      (reimbursementLoop env periodID adminID ip rrs total tx).2.1.db.audit_logs
        = tx.db.audit_logs := by
  intro rrs
  induction rrs with
  | nil => intro total tx; exact ⟨SameRecords.refl _, rfl, rfl⟩
  | cons rr rest ih =>
    intro total tx
    simp only [reimbursementLoop]
    split
    · exact ⟨SameRecords.refl _, rfl, rfl⟩
    · obtain ⟨h1, h2, h3⟩ := ih (total.Add (Decimal.NewFromFloat rr.Amount))
        (tx.saveReimbursement
          { rr with AttendancePeriodID := some periodID, Status := "paid",
                    UpdatedBy := some adminID, IPAddress := some ip })
      exact ⟨⟨h1.1, h1.2.1, h1.2.2⟩, h2, h3⟩

theorem processEmployee_frame (env : Env) (p : AttendancePeriod) (periodID adminID : UUID)
    (ip : String) (W : Nat) (emp : Employee) (tx : Tx) :
    SameRecords tx.db (processEmployee env p periodID adminID ip W emp tx).1.db ∧
      (processEmployee env p periodID adminID ip W emp tx).1.db.attendance_periods
        = tx.db.attendance_periods ∧
      (processEmployee env p periodID adminID ip W emp tx).1.db.audit_logs
        = tx.db.audit_logs := by
  have h := reimbursementLoop_frame env periodID adminID ip
    (tx.next.next.findReimbursements env emp.ID periodID) (Decimal.NewFromFloat { val := 0 })
    tx.next.next.next
  unfold processEmployee
  simp only
  split
  · exact h
  · split
    · exact h
    · exact h

theorem processEmployee_built (env : Env) (p : AttendancePeriod) (periodID adminID : UUID)
    (ip : String) (W : Nat) (emp : Employee) (tx : Tx)
    (h : (processEmployee env p periodID adminID ip W emp tx).2 = none) :
    ∃ ps, (processEmployee env p periodID adminID ip W emp tx).1.db.payslips
        = tx.db.payslips ++ [ps] ∧ PayslipBuilt env p periodID adminID ip W emp tx ps := by
  unfold processEmployee at h ⊢
  simp only at h ⊢
  split at h
  · simp at h
  · split at h
    · simp at h
    · simp only [Tx.createPayslip, reimbursementLoop_payslips, Tx.next]
      refine ⟨_, rfl, ?_⟩
      split <;> exact ⟨rfl, rfl, rfl, rfl, rfl, rfl, rfl, rfl, rfl, rfl⟩

/-- A loop over the employees that ends without error has added one payslip per employee, in
order, each built by the loop body from a handle with the same read-only tables. -/
theorem employeesLoop_built (env : Env) (p : AttendancePeriod) (periodID adminID : UUID)
    (ip : String) (W : Nat) :
    ∀ (emps : List Employee) (n : Nat) (tx : Tx),
      (employeesLoop env p periodID adminID ip W emps n tx).2.2 = none →
      ∃ news, (employeesLoop env p periodID adminID ip W emps n tx).2.1.db.payslips
          = tx.db.payslips ++ news ∧
        (employeesLoop env p periodID adminID ip W emps n tx).1 = n + emps.length ∧
        List.Forall₂ (fun emp ps => ∃ tx', SameRecords tx.db tx'.db ∧
          PayslipBuilt env p periodID adminID ip W emp tx' ps) emps news := by
  intro emps
  induction emps with
  | nil =>
    intro n tx _
    exact ⟨[], by simp [employeesLoop], by simp [employeesLoop], List.Forall₂.nil⟩
  | cons emp rest ih =>
    intro n tx h
    simp only [employeesLoop] at h ⊢
    split at h
    · simp at h
    · rename_i hpe
      obtain ⟨ps0, hps0, hb⟩ := processEmployee_built env p periodID adminID ip W emp tx hpe
      obtain ⟨news, hnews, hcount, hall⟩ := ih _ _ h
      have hfr := (processEmployee_frame env p periodID adminID ip W emp tx).1
      refine ⟨ps0 :: news, ?_, ?_, ?_⟩
      · rw [hnews, hps0]; simp
      · rw [hcount]; simp only [List.length_cons]; omega
      · refine List.Forall₂.cons ⟨tx, SameRecords.refl _, hb⟩ ?_
        refine List.Forall₂.imp ?_ hall
        intro e q ⟨tx', hs, hq⟩
        exact ⟨tx', SameRecords.trans hfr hs, hq⟩

theorem employeesLoop_frame (env : Env) (p : AttendancePeriod) (periodID adminID : UUID)
    (ip : String) (W : Nat) :
    ∀ (emps : List Employee) (n : Nat) (tx : Tx),
      SameRecords tx.db (employeesLoop env p periodID adminID ip W emps n tx).2.1.db ∧
      (employeesLoop env p periodID adminID ip W emps n tx).2.1.db.attendance_periods
        = tx.db.attendance_periods ∧
      (employeesLoop env p periodID adminID ip W emps n tx).2.1.db.audit_logs
        = tx.db.audit_logs := by
  intro emps
  induction emps with
  | nil => intro n tx; exact ⟨SameRecords.refl _, rfl, rfl⟩
  | cons emp rest ih =>
    intro n tx
    have hfr := processEmployee_frame env p periodID adminID ip W emp tx
    simp only [employeesLoop]
    split
    · exact hfr
    · obtain ⟨h1, h2, h3⟩ := ih (n + 1) (processEmployee env p periodID adminID ip W emp tx).1
      exact ⟨SameRecords.trans hfr.1 h1, h2.trans hfr.2.1, h3.trans hfr.2.2⟩


/-! ### Error codes and the shape of a request answered with 200 -/

theorem reimbursementLoop_code (env : Env) (periodID adminID : UUID) (ip : String) :
    ∀ (rrs : List ReimbursementRequest) (total : Decimal) (tx : Tx) (e : FiberError),
      (reimbursementLoop env periodID adminID ip rrs total tx).2.2 = some e → e.Code = 500 := by
  intro rrs
  induction rrs with
  | nil => intro total tx e h; simp [reimbursementLoop] at h
  | cons rr rest ih =>
    intro total tx e h
    simp only [reimbursementLoop] at h
    split at h
    · simp only [Option.some.injEq] at h
      rw [← h]
    · exact ih _ _ e h

theorem processEmployee_code (env : Env) (p : AttendancePeriod) (periodID adminID : UUID)
    (ip : String) (W : Nat) (emp : Employee) (tx : Tx) (e : FiberError)
    (h : (processEmployee env p periodID adminID ip W emp tx).2 = some e) : e.Code = 500 := by
  unfold processEmployee at h
  simp only at h
  split at h
  · rename_i e1 h1
    simp only [Option.some.injEq] at h
    rw [← h]
    exact reimbursementLoop_code env periodID adminID ip _ _ _ e1 h1
  · split at h
    · simp only [Option.some.injEq] at h
      rw [← h]
    · simp at h

theorem employeesLoop_code (env : Env) (p : AttendancePeriod) (periodID adminID : UUID)
    (ip : String) (W : Nat) :
    ∀ (emps : List Employee) (n : Nat) (tx : Tx) (e : FiberError),
      (employeesLoop env p periodID adminID ip W emps n tx).2.2 = some e → e.Code = 500 := by
  intro emps
  induction emps with
  | nil => intro n tx e h; simp [employeesLoop] at h
  | cons emp rest ih =>
    intro n tx e h
    simp only [employeesLoop] at h
    split at h
    · rename_i e1 h1
      simp only [Option.some.injEq] at h
      rw [← h]
      exact processEmployee_code env p periodID adminID ip W emp tx e1 h1
    · exact ih _ _ e h

theorem runPayrollTx_code (env : Env) (periodID adminID : UUID) (ip requestID : String) (tx : Tx)
    (e : FiberError) (h : (runPayrollTx env periodID adminID ip requestID tx).2 = some e) :
    e.Code ≠ 200 := by
  unfold runPayrollTx at h
  simp only at h
  split at h
  · simp only [Option.some.injEq] at h; rw [← h]; simp
  · split at h
    · simp only [Option.some.injEq] at h; rw [← h]; simp
    · split at h
      · simp only [Option.some.injEq] at h; rw [← h]; simp
      · split at h
        · simp only [Option.some.injEq] at h; rw [← h]; simp
        · split at h
          · split at h <;> (simp only [Option.some.injEq] at h; rw [← h]; simp)
          · split at h
            · rename_i e1 h1
              simp only [Option.some.injEq] at h
              rw [← h, employeesLoop_code env _ periodID adminID ip _ _ _ _ e1 h1]
              decide
            · split at h
              · simp only [Option.some.injEq] at h; rw [← h]; simp
              · simp at h

/-- What a transaction that returns `nil` has done. -/
theorem Transaction_ok (env : Env) (db : DB) (fc : Tx → Tx × Option FiberError)
    (h : (Transaction env db fc).2 = none) :
    env.faults 0 = none ∧ (fc { db := db, step := 1 }).2 = none ∧
      env.faults (fc { db := db, step := 1 }).1.step = none ∧
      (Transaction env db fc).1 = (fc { db := db, step := 1 }).1.db := by
  unfold Transaction at h ⊢
  split at h
  · simp at h
  · rename_i h0
    simp only at h ⊢
    split at h
    · simp at h
    · rename_i hnone
      split at h
      · simp at h
      · rename_i hc
        refine ⟨h0, hnone, hc, ?_⟩
        simp only [hnone, hc]

/-- A transaction returns a fiber error only when its function returned it. -/
theorem Transaction_fiber (env : Env) (db : DB) (fc : Tx → Tx × Option FiberError)
    (fe : FiberError) (h : (Transaction env db fc).2 = some (GoError.fiber fe)) :
    (fc { db := db, step := 1 }).2 = some fe := by
  unfold Transaction at h
  split at h
  · simp at h
  · simp only at h
    split at h
    · rename_i fe1 h1
      simp only [Option.some.injEq, GoError.fiber.injEq] at h
      rw [h1, h]
    · split at h <;> simp at h

/-- The shape of a request that `RunPayroll` answers with 200. -/
theorem RunPayroll_ok (env : Env) (c : Ctx) (db : DB)
    (h : (RunPayroll env c db).2.code = 200) :
    ∃ id periodID adminID,
      c.body = Except.ok id ∧ env.uuidParse id = some periodID ∧ c.userID = some adminID ∧
      env.faults 0 = none ∧
      (runPayrollTx env periodID adminID c.ip c.requestID { db := db, step := 1 }).2 = none ∧
      (RunPayroll env c db).1
        = (runPayrollTx env periodID adminID c.ip c.requestID { db := db, step := 1 }).1.db := by
  unfold RunPayroll at h ⊢
  split at h
  · simp at h
  · rename_i id hbody
    split at h
    · simp at h
    · rename_i periodID hparse
      split at h
      · simp at h
      · rename_i adminID huser
        simp only at h ⊢
        split at h
        · rename_i fe hfe
          exfalso
          exact runPayrollTx_code env periodID adminID c.ip c.requestID _ fe
            (Transaction_fiber env db _ fe hfe) h
        · simp at h
        · rename_i hnone
          obtain ⟨h0, hok, _, hdb⟩ := Transaction_ok env db _ hnone
          refine ⟨id, periodID, adminID, hbody, hparse, huser, h0, hok, ?_⟩
          simp only [hnone]
          exact hdb


theorem CreateAuditLog_frame (env : Env) (tx : Tx) (params : AuditLogEntryParams) :
    (CreateAuditLog env tx params).db.employees = tx.db.employees ∧
      (CreateAuditLog env tx params).db.attendance_periods = tx.db.attendance_periods ∧
      (CreateAuditLog env tx params).db.attendance_records = tx.db.attendance_records ∧
      (CreateAuditLog env tx params).db.overtime_records = tx.db.overtime_records ∧
      (CreateAuditLog env tx params).db.reimbursement_requests = tx.db.reimbursement_requests := by
  exact ⟨rfl, rfl, rfl, rfl, rfl⟩

theorem find?_ID (periods : List AttendancePeriod) (periodID : UUID) (p : AttendancePeriod)
    (h : periods.find? (fun q => decide (q.ID = periodID)) = some p) :
    p.ID = periodID ∧ p ∈ periods := by
  refine ⟨?_, List.mem_of_find?_eq_some h⟩
  have := List.find?_some h
  simpa using this

/-- The tables after a request that `RunPayroll` answers with 200: the payslips and
reimbursement requests are those the loop over the employees left, the row of the period is
replaced by the processed period, the other tables are as before. -/
theorem RunPayroll_ok_tables (env : Env) (c : Ctx) (db : DB)
    (h : (RunPayroll env c db).2.code = 200) :
    ∃ id periodID adminID p,
      c.body = Except.ok id ∧ env.uuidParse id = some periodID ∧ c.userID = some adminID ∧
      db.attendance_periods.find? (fun q => decide (q.ID = periodID)) = some p ∧
      p.PayrollRunAt = none ∧ CalculateWorkingDays p.StartDate p.EndDate ≠ 0 ∧
      env.faults 0 = none ∧ env.faults 1 = none ∧ env.faults 2 = none ∧
      (employeesLoop env p periodID adminID c.ip (CalculateWorkingDays p.StartDate p.EndDate)
        db.employees 0 { db := db, step := 3 }).2.2 = none ∧
      env.faults (employeesLoop env p periodID adminID c.ip
        (CalculateWorkingDays p.StartDate p.EndDate) db.employees 0
        { db := db, step := 3 }).2.1.step = none ∧
      (RunPayroll env c db).1.payslips
        = (employeesLoop env p periodID adminID c.ip (CalculateWorkingDays p.StartDate p.EndDate)
            db.employees 0 { db := db, step := 3 }).2.1.db.payslips ∧
      (RunPayroll env c db).1.reimbursement_requests
        = (employeesLoop env p periodID adminID c.ip (CalculateWorkingDays p.StartDate p.EndDate)
            db.employees 0 { db := db, step := 3 }).2.1.db.reimbursement_requests ∧
      (RunPayroll env c db).1.attendance_periods
        = db.attendance_periods.map (fun r => if r.ID = periodID then
            { p with PayrollRunAt := some env.now, UpdatedBy := some adminID,
                     IPAddress := some c.ip } else r) ∧
      SameRecords db (RunPayroll env c db).1 := by
  obtain ⟨id, periodID, adminID, hbody, hparse, huser, h0, hok, hdb⟩ := RunPayroll_ok env c db h
  obtain ⟨p, hfind, hrun, hW, h1, h2, hel, hf, hfin⟩ :=
    runPayrollTx_ok env periodID adminID c.ip c.requestID _ hok
  obtain ⟨hpid, hpmem⟩ := find?_ID _ _ _ hfind
  have hfr := employeesLoop_frame env p periodID adminID c.ip
    (CalculateWorkingDays p.StartDate p.EndDate) db.employees 0 { db := db, step := 3 }
  refine ⟨id, periodID, adminID, p, hbody, hparse, huser, hfind, hrun, hW, h0, h1, h2, hel, hf,
    ?_, ?_, ?_, ?_⟩
  · rw [hdb, hfin, CreateAuditLog_payslips]; rfl
  · rw [hdb, hfin, (CreateAuditLog_frame env _ _).2.2.2.2]; rfl
  · rw [hdb, hfin, (CreateAuditLog_frame env _ _).2.1]
    have hany : db.attendance_periods.any (fun r => decide (r.ID = p.ID)) = true := by
      rw [List.any_eq_true]
      exact ⟨p, hpmem, by simp⟩
    have hper : (employeesLoop env p periodID adminID c.ip
        (CalculateWorkingDays p.StartDate p.EndDate) db.employees 0
        (Tx.next (Tx.next { db := db, step := 1 }))).2.1.db.attendance_periods
          = db.attendance_periods := hfr.2.1
    simp only [Tx.savePeriod]
    rw [hper, if_pos hany, hpid]
  · rw [hdb, hfin]
    obtain ⟨a1, _, a3, a4, _⟩ := CreateAuditLog_frame env
      ((employeesLoop env p periodID adminID c.ip (CalculateWorkingDays p.StartDate p.EndDate)
        db.employees 0 { db := db, step := 3 }).2.1.savePeriod
        { p with PayrollRunAt := some env.now, UpdatedBy := some adminID,
                 IPAddress := some c.ip })
      { UserID := adminID, UserType := "admin", Action := "run_payroll",
        TargetResource := "attendance_period", TargetResourceID := p.ID,
        Changes := AuditChanges.payrollRun
          (employeesLoop env p periodID adminID c.ip
            (CalculateWorkingDays p.StartDate p.EndDate) db.employees 0
            { db := db, step := 3 }).1 p.ID,
        IPAddress := c.ip, RequestID := c.requestID, PerformedBy := adminID }
    exact ⟨a1.trans hfr.1.1, a3.trans hfr.1.2.1, a4.trans hfr.1.2.2⟩


/-! ### Runs on a store that answers every operation -/

theorem reimbursementLoop_quiet (env : Env) (periodID adminID : UUID) (ip : String)
    (hq : ∀ n, env.faults n = none) :
    ∀ (rrs : List ReimbursementRequest) (total : Decimal) (tx : Tx),
      (reimbursementLoop env periodID adminID ip rrs total tx).2.2 = none := by
  intro rrs
  induction rrs with
  | nil => intro total tx; rfl
  | cons rr rest ih =>
    intro total tx
    simp only [reimbursementLoop, hq]
    exact ih _ _

theorem processEmployee_quiet (env : Env) (p : AttendancePeriod) (periodID adminID : UUID)
    (ip : String) (W : Nat) (emp : Employee) (tx : Tx) (hq : ∀ n, env.faults n = none) :
    (processEmployee env p periodID adminID ip W emp tx).2 = none := by
  unfold processEmployee
  simp only [reimbursementLoop_quiet env periodID adminID ip hq, hq]

theorem employeesLoop_quiet (env : Env) (p : AttendancePeriod) (periodID adminID : UUID)
    (ip : String) (W : Nat) (hq : ∀ n, env.faults n = none) :
    ∀ (emps : List Employee) (n : Nat) (tx : Tx),
      (employeesLoop env p periodID adminID ip W emps n tx).2.2 = none := by
  intro emps
  induction emps with
  | nil => intro n tx; rfl
  | cons emp rest ih =>
    intro n tx
    simp only [employeesLoop, processEmployee_quiet env p periodID adminID ip W emp tx hq]
    exact ih _ _

/-- On a store that answers every operation, a well-formed request for an unprocessed period
with at least one working day is answered with 200. -/
theorem RunPayroll_quiet (env : Env) (c : Ctx) (db : DB) (id : String)
    (periodID adminID : UUID) (p : AttendancePeriod) (hq : ∀ n, env.faults n = none)
    (hbody : c.body = Except.ok id) (hparse : env.uuidParse id = some periodID)
    (huser : c.userID = some adminID)
    (hfind : db.attendance_periods.find? (fun q => decide (q.ID = periodID)) = some p)
    (hrun : p.PayrollRunAt = none) (hW : CalculateWorkingDays p.StartDate p.EndDate ≠ 0) :
    (RunPayroll env c db).2.code = 200 := by
  have htx : (runPayrollTx env periodID adminID c.ip c.requestID { db := db, step := 1 }).2
      = none := by
    unfold runPayrollTx
    simp only [hq, hfind, hrun, ne_eq, not_true_eq_false, if_false, hW,
      employeesLoop_quiet env p periodID adminID c.ip _ hq]
  unfold RunPayroll
  simp only [hbody, hparse, huser, Transaction, hq, htx]

/-- The answer to a well-formed request for a period that is already processed. -/
theorem RunPayroll_processed (env : Env) (c : Ctx) (db : DB) (id : String)
    (periodID adminID : UUID) (p : AttendancePeriod)
    (hbody : c.body = Except.ok id) (hparse : env.uuidParse id = some periodID)
    (huser : c.userID = some adminID)
    (hfind : db.attendance_periods.find? (fun q => decide (q.ID = periodID)) = some p)
    (hrun : p.PayrollRunAt ≠ none) :
    (RunPayroll env c db).1 = db ∧
      (env.faults 0 = none → env.faults 1 = none →
        (RunPayroll env c db).2
          = { code := 400, status := "fail", message := "Payroll already run for this period." }) := by
  constructor
  · rcases RunPayroll_state_or_ok env c db with h | h
    · exact h
    · exfalso
      obtain ⟨id1, pid1, a1, q, hb1, hp1, _, hq, hqrun, _⟩ := RunPayroll_ok_tables env c db h
      rw [hbody] at hb1
      cases hb1
      rw [hparse] at hp1
      cases hp1
      rw [hfind] at hq
      cases hq
      exact hrun hqrun
  · intro h0 h1
    have htx : runPayrollTx env periodID adminID c.ip c.requestID { db := db, step := 1 }
        = (Tx.next { db := db, step := 1 },
            some { Code := 400, Message := "Payroll already run for this period." }) := by
      unfold runPayrollTx
      simp only [h1, hfind, if_pos hrun]
    unfold RunPayroll
    simp only [hbody, hparse, huser, Transaction, h0, htx]

theorem find?_processed (periods : List AttendancePeriod) (periodID : UUID)
    (p p1 : AttendancePeriod) (hID : p1.ID = periodID)
    (h : periods.find? (fun q => decide (q.ID = periodID)) = some p) :
    (periods.map (fun r => if r.ID = periodID then p1 else r)).find?
      (fun q => decide (q.ID = periodID)) = some p1 := by
  induction periods with
  | nil => simp at h
  | cons r rest ih =>
    by_cases hr : r.ID = periodID
    · simp [List.find?, hr, hID]
    · simp only [List.find?, hr, decide_False] at h
      simp only [List.map, List.find?, hr, if_false, decide_False]
      exact ih h


/-! ### Claims about successful and repeated runs -/

theorem employeesLoop_keys (env : Env) (p : AttendancePeriod) (periodID adminID : UUID)
    (ip : String) (W : Nat) (emps : List Employee) (n : Nat) (tx : Tx)
    (h : (employeesLoop env p periodID adminID ip W emps n tx).2.2 = none) :
    ∃ news, (employeesLoop env p periodID adminID ip W emps n tx).2.1.db.payslips
        = tx.db.payslips ++ news ∧
      (employeesLoop env p periodID adminID ip W emps n tx).1 = n + emps.length ∧
      List.Forall₂ (fun emp ps => ps.EmployeeID = emp.ID ∧ ps.AttendancePeriodID = periodID ∧
        ps.BaseSalary = numeric2 emp.Salary ∧ ps.TotalWorkingDays = W) emps news := by
  obtain ⟨news, h1, h2, h3⟩ := employeesLoop_built env p periodID adminID ip W emps n tx h
  refine ⟨news, h1, h2, List.Forall₂.imp ?_ h3⟩
  intro emp ps ⟨_, _, hb⟩
  exact ⟨hb.1, hb.2.1, hb.2.2.1, hb.2.2.2.1⟩

theorem filter_employee_nil (periodID e : UUID) :
    ∀ (emps : List Employee) (news : List Payslip),
      List.Forall₂ (fun emp ps => ps.EmployeeID = emp.ID ∧ ps.AttendancePeriodID = periodID)
        emps news →
      e ∉ emps.map (fun emp => emp.ID) →
      news.filter (fun ps => decide (ps.EmployeeID = e) && decide (ps.AttendancePeriodID = periodID))
        = [] := by
  intro emps news h
  induction h with
  | nil => intro _; rfl
  | @cons emp ps rest restNews hab _ ih =>
    intro hne
    simp only [List.map_cons, List.mem_cons, not_or] at hne
    have h1 : ¬ ps.EmployeeID = e := fun hh => hne.1 (hh.symm.trans hab.1)
    simp only [List.filter, h1, decide_False, Bool.false_and]
    exact ih hne.2

theorem filter_employee_le_one (periodID e : UUID) :
    ∀ (emps : List Employee) (news : List Payslip),
      List.Forall₂ (fun emp ps => ps.EmployeeID = emp.ID ∧ ps.AttendancePeriodID = periodID)
        emps news →
      (emps.map (fun emp => emp.ID)).Nodup →
      (news.filter (fun ps =>
        decide (ps.EmployeeID = e) && decide (ps.AttendancePeriodID = periodID))).length ≤ 1 := by
  intro emps news h
  induction h with
  | nil => intro _; simp
  | @cons emp ps rest restNews hab hrest ih =>
    intro hnd
    simp only [List.map_cons, List.nodup_cons] at hnd
    by_cases he : ps.EmployeeID = e
    · have hnot : e ∉ rest.map (fun emp => emp.ID) := by
        rw [← he, hab.1]; exact hnd.1
      rw [List.filter_cons, filter_employee_nil periodID e rest restNews hrest hnot]
      split <;> simp
    · simp only [List.filter, he, decide_False, Bool.false_and]
      exact ih hnd.2

/-- C12: a request that `RunPayroll` answers with 200 was a well-formed request for an
unprocessed period of the store with at least one working day `W`; it has appended exactly one
payslip per employee of the store, in order, each for that employee and that period with the
employee's salary as base salary (as the `decimal(10,2)` column keeps it, which for a salary
read from such a column is the salary itself) and `W` as total working days; the counter
`payslipsGenerated` ends as the number of employees; and the row of the period, whose
`PayrollRunAt` was null, now carries the time of the run. -/
theorem successful_run_one_payslip_per_employee (env : Env) (c : Ctx) (db : DB)
    (h : (RunPayroll env c db).2.code = 200) :
    ∃ id periodID adminID p news,
      c.body = Except.ok id ∧ env.uuidParse id = some periodID ∧ c.userID = some adminID ∧
      db.attendance_periods.find? (fun q => decide (q.ID = periodID)) = some p ∧
      p.PayrollRunAt = none ∧ 0 < CalculateWorkingDays p.StartDate p.EndDate ∧
      (RunPayroll env c db).1.payslips = db.payslips ++ news ∧
      news.length = db.employees.length ∧
      List.Forall₂ (fun emp ps => ps.EmployeeID = emp.ID ∧ ps.AttendancePeriodID = periodID ∧
        ps.BaseSalary = numeric2 emp.Salary ∧ (IsAmount emp.Salary → ps.BaseSalary = emp.Salary) ∧
        ps.TotalWorkingDays = CalculateWorkingDays p.StartDate p.EndDate) db.employees news ∧
      (employeesLoop env p periodID adminID c.ip (CalculateWorkingDays p.StartDate p.EndDate)
        db.employees 0 { db := db, step := 3 }).1 = db.employees.length ∧
      (RunPayroll env c db).1.attendance_periods
        = db.attendance_periods.map (fun r => if r.ID = periodID then
            { p with PayrollRunAt := some env.now, UpdatedBy := some adminID,
                     IPAddress := some c.ip } else r) ∧
      (RunPayroll env c db).1.attendance_periods.find? (fun q => decide (q.ID = periodID))
        = some { p with PayrollRunAt := some env.now, UpdatedBy := some adminID,
                        IPAddress := some c.ip } := by
  obtain ⟨id, periodID, adminID, p, hbody, hparse, huser, hfind, hrun, hW, _, _, _, hel, _,
    hpay, _, hper, _⟩ := RunPayroll_ok_tables env c db h
  obtain ⟨news, hnews, hcount, hall⟩ := employeesLoop_keys env p periodID adminID c.ip
    (CalculateWorkingDays p.StartDate p.EndDate) db.employees 0 { db := db, step := 3 } hel
  refine ⟨id, periodID, adminID, p, news, hbody, hparse, huser, hfind, hrun,
    Nat.pos_of_ne_zero hW, hpay.trans hnews, hall.length_eq.symm, List.Forall₂.imp ?_ hall, ?_,
    hper, ?_⟩
  · intro emp ps ⟨h1, h2, h3, h4⟩
    exact ⟨h1, h2, h3, fun ha => h3.trans (numeric2_of_isAmount _ ha), h4⟩
  · rw [hcount]; simp
  · rw [hper]
    exact find?_processed _ periodID p _ (find?_ID _ _ _ hfind).1 hfind

theorem successful_run_one_payslip_per_employee_witness :
    (RunPayroll quietEnv adminRequest thirdsDB).2.code = 200 ∧
    ∃ id periodID adminID p news,
      adminRequest.body = Except.ok id ∧ quietEnv.uuidParse id = some periodID ∧
      adminRequest.userID = some adminID ∧
      thirdsDB.attendance_periods.find? (fun q => decide (q.ID = periodID)) = some p ∧
      p.PayrollRunAt = none ∧ 0 < CalculateWorkingDays p.StartDate p.EndDate ∧
      (RunPayroll quietEnv adminRequest thirdsDB).1.payslips = thirdsDB.payslips ++ news ∧
      news.length = thirdsDB.employees.length ∧
      List.Forall₂ (fun emp ps => ps.EmployeeID = emp.ID ∧ ps.AttendancePeriodID = periodID ∧
        ps.BaseSalary = numeric2 emp.Salary ∧ (IsAmount emp.Salary → ps.BaseSalary = emp.Salary) ∧
        ps.TotalWorkingDays = CalculateWorkingDays p.StartDate p.EndDate)
        thirdsDB.employees news ∧
      (employeesLoop quietEnv p periodID adminID adminRequest.ip
        (CalculateWorkingDays p.StartDate p.EndDate)
        thirdsDB.employees 0 { db := thirdsDB, step := 3 }).1 = thirdsDB.employees.length ∧
      (RunPayroll quietEnv adminRequest thirdsDB).1.attendance_periods
        = thirdsDB.attendance_periods.map (fun r => if r.ID = periodID then
            { p with PayrollRunAt := some quietEnv.now, UpdatedBy := some adminID,
                     IPAddress := some adminRequest.ip } else r) ∧
      (RunPayroll quietEnv adminRequest thirdsDB).1.attendance_periods.find?
          (fun q => decide (q.ID = periodID))
        = some { p with PayrollRunAt := some quietEnv.now, UpdatedBy := some adminID,
                        IPAddress := some adminRequest.ip } :=
  ⟨by decide!, successful_run_one_payslip_per_employee quietEnv adminRequest thirdsDB (by decide!)⟩


/-- C11: take a store in which period `periodID` is unprocessed and has at least one working
day, and two well-formed requests for that period, one after the other.  If the store answers
every operation of the first request, that request is answered with 200.  Whenever the first
request is answered with 200, it has appended one payslip per employee for the period and set
`PayrollRunAt`; the second request then leaves the whole persisted state as the first left it
(no further payslip, no change to a reimbursement request) and is answered 400 "Payroll already
run for this period." when its two reads are answered; and when employee ids are unique and no
payslip for the period existed before, at most one payslip exists per employee for the period
after both requests. -/
theorem second_run_already_run (env env2 : Env) (c c2 : Ctx) (db : DB) (id id2 : String)
    (periodID adminID adminID2 : UUID) (p : AttendancePeriod)
    (hbody : c.body = Except.ok id) (hparse : env.uuidParse id = some periodID)
    (huser : c.userID = some adminID)
    (hbody2 : c2.body = Except.ok id2) (hparse2 : env2.uuidParse id2 = some periodID)
    (huser2 : c2.userID = some adminID2)
    (hfind : db.attendance_periods.find? (fun q => decide (q.ID = periodID)) = some p)
    (hrun : p.PayrollRunAt = none) (hW : 0 < CalculateWorkingDays p.StartDate p.EndDate) :
    ((∀ n, env.faults n = none) → (RunPayroll env c db).2.code = 200) ∧
    ((RunPayroll env c db).2.code = 200 →
      (∃ news, (RunPayroll env c db).1.payslips = db.payslips ++ news ∧
        List.Forall₂ (fun emp ps => ps.EmployeeID = emp.ID ∧ ps.AttendancePeriodID = periodID)
          db.employees news) ∧
      (∃ p1, (RunPayroll env c db).1.attendance_periods.find?
          (fun q => decide (q.ID = periodID)) = some p1 ∧ p1.PayrollRunAt = some env.now) ∧
      (RunPayroll env2 c2 (RunPayroll env c db).1).1 = (RunPayroll env c db).1 ∧
      (env2.faults 0 = none → env2.faults 1 = none →
        (RunPayroll env2 c2 (RunPayroll env c db).1).2
          = { code := 400, status := "fail",
              message := "Payroll already run for this period." }) ∧
      ((db.employees.map (fun emp => emp.ID)).Nodup →
        (∀ ps ∈ db.payslips, ps.AttendancePeriodID ≠ periodID) →
        ∀ e, ((RunPayroll env2 c2 (RunPayroll env c db).1).1.payslips.filter (fun ps =>
          decide (ps.EmployeeID = e) && decide (ps.AttendancePeriodID = periodID))).length
            ≤ 1)) := by
  refine ⟨fun hq => RunPayroll_quiet env c db id periodID adminID p hq hbody hparse huser hfind
    hrun (Nat.pos_iff_ne_zero.mp hW), ?_⟩
  intro hok
  obtain ⟨id1, pid1, a1, q, hb1, hp1, hu1, hq, _, _, _, _, _, hel, _, hpay, _, hper, _⟩ :=
    RunPayroll_ok_tables env c db hok
  rw [hbody] at hb1
  cases hb1
  rw [hparse] at hp1
  cases hp1
  rw [huser] at hu1
  cases hu1
  rw [hfind] at hq
  cases hq
  obtain ⟨news, hnews, _, hall⟩ := employeesLoop_keys env p periodID adminID c.ip
    (CalculateWorkingDays p.StartDate p.EndDate) db.employees 0 { db := db, step := 3 } hel
  have hall2 : List.Forall₂ (fun emp ps => ps.EmployeeID = emp.ID ∧
      ps.AttendancePeriodID = periodID) db.employees news :=
    List.Forall₂.imp (fun _ _ hh => ⟨hh.1, hh.2.1⟩) hall
  have hfind1 : (RunPayroll env c db).1.attendance_periods.find?
      (fun q => decide (q.ID = periodID))
        = some { p with PayrollRunAt := some env.now, UpdatedBy := some adminID,
                        IPAddress := some c.ip } := by
    rw [hper]
    exact find?_processed _ periodID p _ (find?_ID _ _ _ hfind).1 hfind
  obtain ⟨hstate, hresp⟩ := RunPayroll_processed env2 c2 (RunPayroll env c db).1 id2 periodID
    adminID2 _ hbody2 hparse2 huser2 hfind1 (by simp)
  refine ⟨⟨news, hpay.trans hnews, hall2⟩, ⟨_, hfind1, rfl⟩, hstate, hresp, ?_⟩
  intro hnd hnone e
  rw [hstate, hpay.trans hnews, List.filter_append]
  have hold : db.payslips.filter (fun ps =>
      decide (ps.EmployeeID = e) && decide (ps.AttendancePeriodID = periodID)) = [] := by
    rw [List.filter_eq_nil_iff]
    intro ps hps
    simp [hnone ps hps]
  rw [hold, List.nil_append]
  exact filter_employee_le_one periodID e db.employees news hall2 hnd

theorem second_run_already_run_witness :
    adminRequest.body = Except.ok "1" ∧ quietEnv.uuidParse "1" = some 1 ∧
    adminRequest.userID = some 99 ∧
    thirdsDB.attendance_periods.find? (fun q => decide (q.ID = 1))
      = some { baseOf 1 with StartDate := DateUTC 2023 10 2, EndDate := DateUTC 2023 10 4,
                             PayrollRunAt := none } ∧
    0 < CalculateWorkingDays (DateUTC 2023 10 2) (DateUTC 2023 10 4) ∧
    (RunPayroll quietEnv adminRequest thirdsDB).2.code = 200 ∧
    (RunPayroll quietEnv adminRequest (RunPayroll quietEnv adminRequest thirdsDB).1).1
      = (RunPayroll quietEnv adminRequest thirdsDB).1 ∧
    (RunPayroll quietEnv adminRequest (RunPayroll quietEnv adminRequest thirdsDB).1).2
      = { code := 400, status := "fail", message := "Payroll already run for this period." } ∧
    ((RunPayroll quietEnv adminRequest
        (RunPayroll quietEnv adminRequest thirdsDB).1).1.payslips.filter (fun ps =>
      decide (ps.EmployeeID = 7) && decide (ps.AttendancePeriodID = 1))).length ≤ 1 :=
  have h := second_run_already_run quietEnv quietEnv adminRequest adminRequest thirdsDB "1" "1"
    1 99 99 { baseOf 1 with StartDate := DateUTC 2023 10 2, EndDate := DateUTC 2023 10 4,
                            PayrollRunAt := none }
    rfl (by decide) rfl rfl (by decide) rfl (by decide!) rfl (by decide!)
  have hok := h.1 (fun _ => rfl)
  ⟨rfl, by decide, rfl, by decide!, by decide!, hok, (h.2 hok).2.2.1, (h.2 hok).2.2.2.1 rfl rfl,
    (h.2 hok).2.2.2.2 (by decide!) (by decide!) 7⟩


/-! ### Failed writes -/

theorem employeesLoop_append (env : Env) (p : AttendancePeriod) (periodID adminID : UUID)
    (ip : String) (W : Nat) (rest : List Employee) :
    ∀ (pre : List Employee) (n : Nat) (tx : Tx),
      (employeesLoop env p periodID adminID ip W pre n tx).2.2 = none →
      employeesLoop env p periodID adminID ip W (pre ++ rest) n tx
        = employeesLoop env p periodID adminID ip W rest
            (employeesLoop env p periodID adminID ip W pre n tx).1
            (employeesLoop env p periodID adminID ip W pre n tx).2.1 := by
  intro pre
  induction pre with
  | nil => intro n tx _; rfl
  | cons emp pre ih =>
    intro n tx h
    simp only [employeesLoop, List.cons_append] at h ⊢
    split at h
    · simp at h
    · exact ih _ _ h

/-- A loop over the reimbursement requests that ends without error has issued one update per
request, and the store answered each of them. -/
theorem reimbursementLoop_steps (env : Env) (periodID adminID : UUID) (ip : String) :
    ∀ (rrs : List ReimbursementRequest) (total : Decimal) (tx : Tx),
      (reimbursementLoop env periodID adminID ip rrs total tx).2.2 = none →
      (reimbursementLoop env periodID adminID ip rrs total tx).2.1.step = tx.step + rrs.length ∧
        ∀ k, k < rrs.length → env.faults (tx.step + k) = none := by
  intro rrs
  induction rrs with
  | nil => intro total tx _; exact ⟨rfl, fun k hk => by simp at hk⟩
  | cons rr rest ih =>
    intro total tx h
    simp only [reimbursementLoop] at h ⊢
    split at h
    · simp at h
    · rename_i hf
      obtain ⟨h1, h2⟩ := ih _ _ h
      refine ⟨?_, ?_⟩
      · rw [h1]
        simp only [Tx.saveReimbursement, List.length_cons]
        omega
      · intro k hk
        cases k with
        | zero => exact hf
        | succ k =>
          have := h2 k (by simpa using hk)
          simp only [Tx.saveReimbursement] at this
          rw [← this]
          congr 1
          omega

/-- The writes of the loop body for one employee are the steps from `tx.step + 3` up to
`tx.step + 3` plus the number of requests found (the updates of the requests, then the insert of
the payslip); when the body ends without error the store answered all of them. -/
theorem processEmployee_writes (env : Env) (p : AttendancePeriod) (periodID adminID : UUID)
    (ip : String) (W : Nat) (emp : Employee) (tx : Tx)
    (h : (processEmployee env p periodID adminID ip W emp tx).2 = none) (n : Nat)
    (h1 : tx.step + 3 ≤ n)
    (h2 : n ≤ tx.step + 3 + (tx.next.next.findReimbursements env emp.ID periodID).length) :
    env.faults n = none := by
  unfold processEmployee at h
  simp only at h
  split at h
  · simp at h
  · rename_i hrl
    obtain ⟨hs, hk⟩ := reimbursementLoop_steps env periodID adminID ip _ _ _ hrl
    split at h
    · simp at h
    · rename_i hins
      try simp only [Tx.next] at hs
      try simp only [Tx.next] at hk
      try simp only [Tx.next] at hins
      try simp only [Tx.next] at h2
      by_cases hlt : n < tx.step + 3 + (Tx.findReimbursements env
          { db := tx.db, step := tx.step + 1 + 1 } emp.ID periodID).length
      · have := hk (n - (tx.step + 3)) (by omega)
        rw [← this]
        congr 1
        omega
      · rw [hs] at hins
        rw [← hins]
        congr 1
        omega

/-- The answer when the loop over the employees ends with an error. -/
theorem RunPayroll_loop_error (env : Env) (c : Ctx) (db : DB) (id : String)
    (periodID adminID : UUID) (p : AttendancePeriod) (fe : FiberError)
    (hbody : c.body = Except.ok id) (hparse : env.uuidParse id = some periodID)
    (huser : c.userID = some adminID)
    (hfind : db.attendance_periods.find? (fun q => decide (q.ID = periodID)) = some p)
    (hrun : p.PayrollRunAt = none) (hW : CalculateWorkingDays p.StartDate p.EndDate ≠ 0)
    (h0 : env.faults 0 = none) (h1 : env.faults 1 = none) (h2 : env.faults 2 = none)
    (hel : (employeesLoop env p periodID adminID c.ip (CalculateWorkingDays p.StartDate p.EndDate)
      db.employees 0 { db := db, step := 3 }).2.2 = some fe) :
    RunPayroll env c db = (db, { code := fe.Code, status := "fail", message := fe.Message }) := by
  have hel1 : (employeesLoop env p periodID adminID c.ip
      (CalculateWorkingDays p.StartDate p.EndDate)
      (Tx.next { db := db, step := 1 }).db.employees 0
      (Tx.next (Tx.next { db := db, step := 1 }))).2.2 = some fe := hel
  have h2a : env.faults (Tx.next { db := db, step := 1 }).step = none := h2
  have htx : (runPayrollTx env periodID adminID c.ip c.requestID { db := db, step := 1 }).2
      = some fe := by
    unfold runPayrollTx
    simp only [h1, hfind, hrun, ne_eq, not_true_eq_false, if_false, h2a, hW, hel1]
  unfold RunPayroll
  simp only [hbody, hparse, huser, Transaction, h0, htx]

/-- The answer when the update of the period fails. -/
theorem RunPayroll_period_error (env : Env) (c : Ctx) (db : DB) (id : String)
    (periodID adminID : UUID) (p : AttendancePeriod) (e : String)
    (hbody : c.body = Except.ok id) (hparse : env.uuidParse id = some periodID)
    (huser : c.userID = some adminID)
    (hfind : db.attendance_periods.find? (fun q => decide (q.ID = periodID)) = some p)
    (hrun : p.PayrollRunAt = none) (hW : CalculateWorkingDays p.StartDate p.EndDate ≠ 0)
    (h0 : env.faults 0 = none) (h1 : env.faults 1 = none) (h2 : env.faults 2 = none)
    (hel : (employeesLoop env p periodID adminID c.ip (CalculateWorkingDays p.StartDate p.EndDate)
      db.employees 0 { db := db, step := 3 }).2.2 = none)
    (hf : env.faults (employeesLoop env p periodID adminID c.ip
      (CalculateWorkingDays p.StartDate p.EndDate) db.employees 0
      { db := db, step := 3 }).2.1.step = some e) :
    RunPayroll env c db
      = (db, { code := 500, status := "fail",
               message := "Failed to update attendance period: " ++ e }) := by
  have hel1 : (employeesLoop env p periodID adminID c.ip
      (CalculateWorkingDays p.StartDate p.EndDate)
      (Tx.next { db := db, step := 1 }).db.employees 0
      (Tx.next (Tx.next { db := db, step := 1 }))).2.2 = none := hel
  have hf1 : env.faults (employeesLoop env p periodID adminID c.ip
      (CalculateWorkingDays p.StartDate p.EndDate)
      (Tx.next { db := db, step := 1 }).db.employees 0
      (Tx.next (Tx.next { db := db, step := 1 }))).2.1.step = some e := hf
  have h2a : env.faults (Tx.next { db := db, step := 1 }).step = none := h2
  have htx : (runPayrollTx env periodID adminID c.ip c.requestID { db := db, step := 1 }).2
      = some { Code := 500, Message := "Failed to update attendance period: " ++ e } := by
    unfold runPayrollTx
    simp only [h1, hfind, hrun, ne_eq, not_true_eq_false, if_false, h2a, hW, hel1, hf1]
  unfold RunPayroll
  simp only [hbody, hparse, huser, Transaction, h0, htx]


/-- C13: in a run that has reached the loop over the employees (well-formed request, period
found and unprocessed, at least one working day, the first reads answered), let a write fail:
either, for some employee `emp` reached after the employees before it were processed without
error, one of the steps from the first update of a reimbursement request of `emp` up to the
insert of the payslip of `emp` fails, or all employees are processed and the update of the
period fails.  Then `RunPayroll` answers 500 with status "fail" and the whole persisted state,
payslips, reimbursement requests and periods included, is exactly the state before the call. -/
theorem failed_write_rolls_back (env : Env) (c : Ctx) (db : DB) (id : String)
    (periodID adminID : UUID) (p : AttendancePeriod)
    (hbody : c.body = Except.ok id) (hparse : env.uuidParse id = some periodID)
    (huser : c.userID = some adminID)
    (hfind : db.attendance_periods.find? (fun q => decide (q.ID = periodID)) = some p)
    (hrun : p.PayrollRunAt = none) (hW : 0 < CalculateWorkingDays p.StartDate p.EndDate)
    (h0 : env.faults 0 = none) (h1 : env.faults 1 = none) (h2 : env.faults 2 = none)
    (hfail :
      (∃ pre emp post n, db.employees = pre ++ emp :: post ∧
        (employeesLoop env p periodID adminID c.ip (CalculateWorkingDays p.StartDate p.EndDate)
          pre 0 { db := db, step := 3 }).2.2 = none ∧
        (employeesLoop env p periodID adminID c.ip (CalculateWorkingDays p.StartDate p.EndDate)
          pre 0 { db := db, step := 3 }).2.1.step + 3 ≤ n ∧
        n ≤ (employeesLoop env p periodID adminID c.ip
              (CalculateWorkingDays p.StartDate p.EndDate)
              pre 0 { db := db, step := 3 }).2.1.step + 3 +
            ((employeesLoop env p periodID adminID c.ip
              (CalculateWorkingDays p.StartDate p.EndDate)
              pre 0 { db := db, step := 3 }).2.1.next.next.findReimbursements
                env emp.ID periodID).length ∧
        env.faults n ≠ none) ∨
      ((employeesLoop env p periodID adminID c.ip (CalculateWorkingDays p.StartDate p.EndDate)
          db.employees 0 { db := db, step := 3 }).2.2 = none ∧
        env.faults (employeesLoop env p periodID adminID c.ip
          (CalculateWorkingDays p.StartDate p.EndDate) db.employees 0
          { db := db, step := 3 }).2.1.step ≠ none)) :
    (RunPayroll env c db).2.code = 500 ∧ (RunPayroll env c db).2.status = "fail" ∧
      (RunPayroll env c db).1 = db := by
  have hW0 : CalculateWorkingDays p.StartDate p.EndDate ≠ 0 := Nat.pos_iff_ne_zero.mp hW
  rcases hfail with ⟨pre, emp, post, n, hemps, hpre, hn1, hn2, hfault⟩ | ⟨hel, hfault⟩
  · have hpe : (processEmployee env p periodID adminID c.ip
        (CalculateWorkingDays p.StartDate p.EndDate) emp
        (employeesLoop env p periodID adminID c.ip (CalculateWorkingDays p.StartDate p.EndDate)
          pre 0 { db := db, step := 3 }).2.1).2 ≠ none := by
      intro hnone
      exact hfault (processEmployee_writes env p periodID adminID c.ip _ emp _ hnone n hn1 hn2)
    obtain ⟨fe, hfe⟩ := Option.ne_none_iff_exists'.mp hpe
    have hel : (employeesLoop env p periodID adminID c.ip
        (CalculateWorkingDays p.StartDate p.EndDate) db.employees 0
        { db := db, step := 3 }).2.2 = some fe := by
      rw [hemps, employeesLoop_append env p periodID adminID c.ip _ (emp :: post) pre 0 _ hpre]
      simp only [employeesLoop, hfe]
    have hcode := employeesLoop_code env p periodID adminID c.ip _ _ _ _ fe hel
    rw [RunPayroll_loop_error env c db id periodID adminID p fe hbody hparse huser hfind hrun
      hW0 h0 h1 h2 hel]
    exact ⟨hcode, rfl, rfl⟩
  · obtain ⟨e, he⟩ := Option.ne_none_iff_exists'.mp hfault
    rw [RunPayroll_period_error env c db id periodID adminID p e hbody hparse huser hfind hrun
      hW0 h0 h1 h2 hel he]
    exact ⟨rfl, rfl, rfl⟩

theorem failed_write_rolls_back_witness :
    insertFailsEnv.faults 6 = none ∧ insertFailsEnv.faults 7 = some "connection reset" ∧
      (runPayrollTx insertFailsEnv 1 99 "127.0.0.1" "req-1"
        { db := reimbursementDB, step := 1 }).1.db.reimbursement_requests
        ≠ reimbursementDB.reimbursement_requests ∧
      (RunPayroll insertFailsEnv adminRequest reimbursementDB).2.code = 500 ∧
      (RunPayroll insertFailsEnv adminRequest reimbursementDB).2.status = "fail" ∧
      (RunPayroll insertFailsEnv adminRequest reimbursementDB).1 = reimbursementDB :=
  ⟨by decide, by decide, by decide!,
    failed_write_rolls_back insertFailsEnv adminRequest reimbursementDB "1" 1 99
      { baseOf 1 with StartDate := DateUTC 2023 10 2, EndDate := DateUTC 2023 10 4,
                      PayrollRunAt := none }
      rfl (by decide) rfl (by decide!) rfl (by decide!) (by decide) (by decide) (by decide)
      (Or.inl ⟨[], { baseOf 7 with Username := "employee7", Salary := { val := 100 } }, [], 7,
        by decide!, by decide!, by decide!, by decide!, by decide⟩)⟩


/-! ### Claims about what a payslip counts -/

theorem instant_le_iff_of_date (t u : Time) (ht : IsDate t) (hu : IsDate u) :
    t.instant ≤ u.instant ↔ t.day ≤ u.day := by
  unfold Time.instant nsPerDay
  rw [ht.1, ht.2, hu.1, hu.2]
  constructor <;> intro h <;> omega

theorem findAttendance_dates (env : Env) (tx : Tx) (employeeID : UUID) (p : AttendancePeriod)
    (hf : env.faults tx.step = none)
    (hrec : ∀ r ∈ tx.db.attendance_records, IsDate r.Date)
    (hp : IsDate p.StartDate ∧ IsDate p.EndDate) :
    tx.findAttendance env employeeID p.StartDate p.EndDate
      = tx.db.attendance_records.filter
          (fun r => decide (r.EmployeeID = employeeID) && inPeriod p r.Date) := by
  unfold Tx.findAttendance
  rw [hf]
  apply List.filter_congr
  intro r hr
  unfold inPeriod
  rw [Bool.and_assoc]
  congr 1
  rw [decide_eq_decide.mpr (instant_le_iff_of_date _ _ hp.1 (hrec r hr)),
    decide_eq_decide.mpr (instant_le_iff_of_date _ _ (hrec r hr) hp.2)]

/-- C17: in a run that is answered with 200 on a store that answers every operation and whose
`date` columns hold calendar dates, the payslip of every employee carries as attendance count
the number of distinct calendar dates among the attendance records of that employee whose date
lies in the inclusive range from the start date to the end date of the period; records on the
same date count once. -/
theorem attendance_count_distinct_dates (env : Env) (c : Ctx) (db : DB)
    (hq : ∀ n, env.faults n = none) (hok : (RunPayroll env c db).2.code = 200)
    (hrec : ∀ r ∈ db.attendance_records, IsDate r.Date)
    (hper : ∀ q ∈ db.attendance_periods, IsDate q.StartDate ∧ IsDate q.EndDate) :
    ∃ id periodID p news,
      c.body = Except.ok id ∧ env.uuidParse id = some periodID ∧
      db.attendance_periods.find? (fun q => decide (q.ID = periodID)) = some p ∧
      (RunPayroll env c db).1.payslips = db.payslips ++ news ∧
      List.Forall₂ (fun emp ps => ps.EmployeeID = emp.ID ∧ ps.AttendancePeriodID = periodID ∧
        ps.AttendanceCount = distinctAttendanceDates db.attendance_records emp.ID p)
        db.employees news := by
  obtain ⟨id, periodID, adminID, p, hbody, hparse, _, hfind, _, _, _, _, _, hel, _, hpay, _, _,
    _⟩ := RunPayroll_ok_tables env c db hok
  obtain ⟨news, hnews, _, hall⟩ := employeesLoop_built env p periodID adminID c.ip
    (CalculateWorkingDays p.StartDate p.EndDate) db.employees 0 { db := db, step := 3 } hel
  refine ⟨id, periodID, p, news, hbody, hparse, hfind, hpay.trans hnews,
    List.Forall₂.imp ?_ hall⟩
  intro emp ps ⟨tx, hsame, hb⟩
  have hrec' : ∀ r ∈ tx.db.attendance_records, IsDate r.Date := by
    rw [hsame.2.1]; exact hrec
  refine ⟨hb.1, hb.2.1, ?_⟩
  rw [hb.2.2.2.2.1, findAttendance_dates env tx emp.ID p (hq _) hrec'
    (hper p (find?_ID _ _ _ hfind).2), hsame.2.1]
  unfold distinctAttendanceDates
  rw [List.card_toFinset]

theorem attendance_count_distinct_dates_witness :
    (RunPayroll quietEnv adminRequest duplicateAttendanceDB).2.code = 200 ∧
    (∃ ps ∈ (RunPayroll quietEnv adminRequest duplicateAttendanceDB).1.payslips,
      ps.EmployeeID = 7 ∧ ps.AttendanceCount = 2) ∧
    ∃ id periodID p news,
      adminRequest.body = Except.ok id ∧ quietEnv.uuidParse id = some periodID ∧
      duplicateAttendanceDB.attendance_periods.find? (fun q => decide (q.ID = periodID))
        = some p ∧
      (RunPayroll quietEnv adminRequest duplicateAttendanceDB).1.payslips
        = duplicateAttendanceDB.payslips ++ news ∧
      List.Forall₂ (fun emp ps => ps.EmployeeID = emp.ID ∧ ps.AttendancePeriodID = periodID ∧
        ps.AttendanceCount
          = distinctAttendanceDates duplicateAttendanceDB.attendance_records emp.ID p)
        duplicateAttendanceDB.employees news :=
  ⟨by decide!, by decide!,
    attendance_count_distinct_dates quietEnv adminRequest duplicateAttendanceDB (fun _ => rfl)
      (by decide!) (by decide!) (by decide!)⟩


/-! ### Overtime -/

theorem findOvertime_dates (env : Env) (tx : Tx) (employeeID : UUID) (p : AttendancePeriod)
    (hf : env.faults tx.step = none)
    (hrec : ∀ r ∈ tx.db.overtime_records, IsDate r.Date)
    (hp : IsDate p.StartDate ∧ IsDate p.EndDate) :
    tx.findOvertime env employeeID p.StartDate p.EndDate
      = overtimeInPeriod tx.db.overtime_records employeeID p := by
  unfold Tx.findOvertime overtimeInPeriod
  rw [hf]
  apply List.filter_congr
  intro r hr
  unfold inPeriod
  rw [Bool.and_assoc]
  congr 1
  rw [decide_eq_decide.mpr (instant_le_iff_of_date _ _ hp.1 (hrec r hr)),
    decide_eq_decide.mpr (instant_le_iff_of_date _ _ (hrec r hr) hp.2)]

theorem toRat_overtimeLoop (hourlySalary : Decimal) :
    ∀ (ots : List OvertimeRecord) (overtimePay overtimeHours : Decimal),
      (overtimeLoop hourlySalary ots overtimePay overtimeHours).1.toRat
        = overtimePay.toRat + (ots.map (fun ot =>
            hourlySalary.toRat * ot.Hours * (Decimal.NewFromFloat ot.RateMultiplier).toRat)).sum ∧
      (overtimeLoop hourlySalary ots overtimePay overtimeHours).2.toRat
        = overtimeHours.toRat + ((ots.map (fun ot => ot.Hours)).sum : Int) := by
  intro ots
  induction ots with
  | nil => intro a b; simp [overtimeLoop]
  | cons ot rest ih =>
    intro a b
    simp only [overtimeLoop, List.map_cons, List.sum_cons]
    obtain ⟨h1, h2⟩ := ih (a.Add ((hourlySalary.Mul (Decimal.NewFromInt ot.Hours)).Mul
      (Decimal.NewFromFloat ot.RateMultiplier))) (b.Add (Decimal.NewFromInt ot.Hours))
    rw [h1, h2]
    simp only [Decimal.toRat_Add, Decimal.toRat_Mul, Decimal.toRat_NewFromInt]
    push_cast
    constructor <;> ring

theorem toRat_overtimeOf (salary : Float64) (W : Nat) (hW : 0 < W) (ots : List OvertimeRecord) :
    (overtimeOf salary W ots).1.toRat = overtimePaySum salary W ots ∧
      (overtimeOf salary W ots).2.toRat = hoursSum ots := by
  have h8 : (Decimal.NewFromInt 8).value ≠ 0 := by decide
  have hWv : (Decimal.NewFromInt (W : Int)).value ≠ 0 := by
    simp only [Decimal.NewFromInt]
    omega
  have hh : (((Decimal.NewFromFloat salary).Div (Decimal.NewFromInt (W : Int))).Div
      (Decimal.NewFromInt 8)).toRat = hourlyRate salary W := by
    rw [Decimal.toRat_Div _ _ h8, Decimal.toRat_Div _ _ hWv, Decimal.toRat_NewFromInt,
      Decimal.toRat_NewFromInt]
    unfold hourlyRate
    push_cast
    rfl
  unfold overtimeOf
  rw [if_pos hW]
  obtain ⟨h1, h2⟩ := toRat_overtimeLoop
    (((Decimal.NewFromFloat salary).Div (Decimal.NewFromInt (W : Int))).Div
      (Decimal.NewFromInt 8)) ots (Decimal.NewFromFloat { val := 0 })
    (Decimal.NewFromFloat { val := 0 })
  simp only
  rw [h1, h2, hh, toRat_NewFromFloat_zero]
  unfold overtimePaySum hoursSum
  simp


/-- C16, as stated, fails in its second half: in the run on `overtimeCentsDB` (salary 0.02,
`W = 3`, one record of 3 hours at 2.0 in the period) the overtime hours are 3 and
`(salary / W / 8) * hours * rate_multiplier` is 0.005, at the two decimal places of the column
0.01; the code computes 0.0008333333333333 * 3 * 2 = 0.0049999999999998 and the payslip holds
overtime pay 0.  For salary 100 and `W = 3` the hourly rate of the code is not `100 / 3 / 8`
either. -/
theorem overtime_pay_not_exact_formula :
    (RunPayroll quietEnv adminRequest overtimeCentsDB).2.code = 200 ∧
    (Decimal.NewFromFloat (roundToFloat64 (1 / 50))).toRat = 1 / 50 ∧
    (1 : ℚ) / 50 / 3 / 8 * 3 * 2 = 1 / 200 ∧
    roundPlaces ((1 : ℚ) / 50 / 3 / 8 * 3 * 2) 2 = 1 / 100 ∧
    overtimePaySum (roundToFloat64 (1 / 50)) 3 overtimeCentsDB.overtime_records
      = 49999999999998 / 10000000000000000 ∧
    hourlyRate { val := 100 } 3 ≠ 100 / 3 / 8 ∧
    ∃ ps ∈ (RunPayroll quietEnv adminRequest overtimeCentsDB).1.payslips,
      ps.EmployeeID = 7 ∧ ps.BaseSalary = roundToFloat64 (1 / 50) ∧ ps.TotalWorkingDays = 3 ∧
      ps.OvertimeHours.val = 3 ∧ ps.OvertimePay.val = 0 ∧
      ps.OvertimePay.val ≠ 1 / 50 / 3 / 8 * 3 * 2 ∧
      ps.OvertimePay ≠ roundToFloat64 ((1 : ℚ) / 50 / 3 / 8 * 3 * 2) ∧
      ps.OvertimePay ≠ roundToFloat64 (roundPlaces ((1 : ℚ) / 50 / 3 / 8 * 3 * 2) 2) := by
  decide!

/-- C16, amended: in a run that is answered with 200 on a store that answers every operation and
whose `date` columns hold calendar dates, the run has `W > 0` working days and the payslip of
every employee carries as overtime hours the sum of the hours of the employee's overtime records
dated within the period, as the `decimal(4,2)` column keeps it (the sum itself when it is below
100), and as overtime pay what the `decimal(10,2)` column keeps of the `float64` of the sum over
those records of `hourly rate * hours * rate multiplier`, the hourly rate being `salary / W / 8`
in the decimal arithmetic of the code, where each of the two quotients is rounded to 16 decimal
places. -/
theorem overtime_hours_and_pay (env : Env) (c : Ctx) (db : DB)
    (hq : ∀ n, env.faults n = none) (hok : (RunPayroll env c db).2.code = 200)
    (hrec : ∀ r ∈ db.overtime_records, IsDate r.Date)
    (hper : ∀ q ∈ db.attendance_periods, IsDate q.StartDate ∧ IsDate q.EndDate) :
    ∃ id periodID p news,
      c.body = Except.ok id ∧ env.uuidParse id = some periodID ∧
      db.attendance_periods.find? (fun q => decide (q.ID = periodID)) = some p ∧
      0 < CalculateWorkingDays p.StartDate p.EndDate ∧
      (RunPayroll env c db).1.payslips = db.payslips ++ news ∧
      List.Forall₂ (fun emp ps => ps.EmployeeID = emp.ID ∧ ps.AttendancePeriodID = periodID ∧
        ps.OvertimeHours
          = numeric2 (roundToFloat64 (hoursSum (overtimeInPeriod db.overtime_records emp.ID p))) ∧
        (0 ≤ hoursSum (overtimeInPeriod db.overtime_records emp.ID p) ∧
            hoursSum (overtimeInPeriod db.overtime_records emp.ID p) < 100 →
          ps.OvertimeHours.val
            = ((hoursSum (overtimeInPeriod db.overtime_records emp.ID p) : Int) : ℚ)) ∧
        ps.OvertimePay
          = numeric2 (roundToFloat64 (overtimePaySum emp.Salary
              (CalculateWorkingDays p.StartDate p.EndDate)
              (overtimeInPeriod db.overtime_records emp.ID p))) ∧
        hourlyRate emp.Salary (CalculateWorkingDays p.StartDate p.EndDate)
          = roundPlaces (roundPlaces ((Decimal.NewFromFloat emp.Salary).toRat
              / CalculateWorkingDays p.StartDate p.EndDate) 16 / 8) 16)
        db.employees news := by
  obtain ⟨id, periodID, adminID, p, hbody, hparse, _, hfind, _, hW, _, _, _, hel, _, hpay, _, _,
    _⟩ := RunPayroll_ok_tables env c db hok
  have hW' : 0 < CalculateWorkingDays p.StartDate p.EndDate := Nat.pos_of_ne_zero hW
  obtain ⟨news, hnews, _, hall⟩ := employeesLoop_built env p periodID adminID c.ip
    (CalculateWorkingDays p.StartDate p.EndDate) db.employees 0 { db := db, step := 3 } hel
  refine ⟨id, periodID, p, news, hbody, hparse, hfind, hW', hpay.trans hnews,
    List.Forall₂.imp ?_ hall⟩
  intro emp ps ⟨tx, hsame, hb⟩
  have hrec' : ∀ r ∈ tx.next.db.overtime_records, IsDate r.Date := by
    show ∀ r ∈ tx.db.overtime_records, IsDate r.Date
    rw [hsame.2.2]; exact hrec
  have hfo : tx.next.findOvertime env emp.ID p.StartDate p.EndDate
      = overtimeInPeriod db.overtime_records emp.ID p := by
    rw [findOvertime_dates env tx.next emp.ID p (hq _) hrec' (hper p (find?_ID _ _ _ hfind).2)]
    show overtimeInPeriod tx.db.overtime_records emp.ID p = _
    rw [hsame.2.2]
  obtain ⟨hp1, hp2⟩ := toRat_overtimeOf emp.Salary (CalculateWorkingDays p.StartDate p.EndDate)
    hW' (overtimeInPeriod db.overtime_records emp.ID p)
  have hhours : ps.OvertimeHours
      = numeric2 (roundToFloat64 (hoursSum (overtimeInPeriod db.overtime_records emp.ID p))) := by
    rw [hb.2.2.2.2.2.2.1, hfo]
    unfold Decimal.InexactFloat64
    rw [hp2]
  refine ⟨hb.1, hb.2.1, hhours, ?_, ?_, rfl⟩
  · intro hlt
    rw [hhours, numeric2_intCast _ hlt.1 (by omega)]
  · rw [hb.2.2.2.2.2.2.2.1, hfo]
    unfold Decimal.InexactFloat64
    rw [hp1]

theorem overtime_hours_and_pay_witness :
    (RunPayroll quietEnv adminRequest overtimeDB).2.code = 200 ∧
    CalculateWorkingDays (DateUTC 2023 2 1) (DateUTC 2023 2 28) = 20 ∧
    hourlyRate { val := 80000 } 20 = 500 ∧
    (∃ ps ∈ (RunPayroll quietEnv adminRequest overtimeDB).1.payslips,
      ps.EmployeeID = 7 ∧ ps.OvertimeHours.val = 2 ∧ ps.OvertimePay.val = 2000) ∧
    ∃ id periodID p news,
      adminRequest.body = Except.ok id ∧ quietEnv.uuidParse id = some periodID ∧
      overtimeDB.attendance_periods.find? (fun q => decide (q.ID = periodID)) = some p ∧
      0 < CalculateWorkingDays p.StartDate p.EndDate ∧
      (RunPayroll quietEnv adminRequest overtimeDB).1.payslips = overtimeDB.payslips ++ news ∧
      List.Forall₂ (fun emp ps => ps.EmployeeID = emp.ID ∧ ps.AttendancePeriodID = periodID ∧
        ps.OvertimeHours
          = numeric2 (roundToFloat64
              (hoursSum (overtimeInPeriod overtimeDB.overtime_records emp.ID p))) ∧
        (0 ≤ hoursSum (overtimeInPeriod overtimeDB.overtime_records emp.ID p) ∧
            hoursSum (overtimeInPeriod overtimeDB.overtime_records emp.ID p) < 100 →
          ps.OvertimeHours.val
            = ((hoursSum (overtimeInPeriod overtimeDB.overtime_records emp.ID p) : Int) : ℚ)) ∧
        ps.OvertimePay
          = numeric2 (roundToFloat64 (overtimePaySum emp.Salary
              (CalculateWorkingDays p.StartDate p.EndDate)
              (overtimeInPeriod overtimeDB.overtime_records emp.ID p))) ∧
        hourlyRate emp.Salary (CalculateWorkingDays p.StartDate p.EndDate)
          = roundPlaces (roundPlaces ((Decimal.NewFromFloat emp.Salary).toRat
              / CalculateWorkingDays p.StartDate p.EndDate) 16 / 8) 16)
        overtimeDB.employees news :=
  ⟨by decide!, by decide!, by decide!, by decide!,
    overtime_hours_and_pay quietEnv adminRequest overtimeDB (fun _ => rfl)
      (by decide!) (by decide!) (by decide!)⟩


/-! ### Reimbursement requests -/

theorem find?_none_of_not_mem (rrs : List ReimbursementRequest) (id : UUID)
    (h : id ∉ rrs.map (fun r => r.ID)) :
    rrs.find? (fun rr => decide (rr.ID = id)) = none := by
  rw [List.find?_eq_none]
  intro x hx
  simp only [decide_eq_true_eq]
  intro hid
  exact h (List.mem_map.mpr ⟨x, hx, hid⟩)

/-- A loop over the reimbursement requests that ends without error, run on requests that are
rows of the table with distinct ids, has replaced each of those rows by the request saved as
paid, and has added the amounts of the requests to the total. -/
theorem reimbursementLoop_table (env : Env) (periodID adminID : UUID) (ip : String) :
    ∀ (rrs : List ReimbursementRequest) (total : Decimal) (tx : Tx),
      (reimbursementLoop env periodID adminID ip rrs total tx).2.2 = none →
      (∀ rr ∈ rrs, rr.ID ∈ tx.db.reimbursement_requests.map (fun r => r.ID)) →
      (rrs.map (fun r => r.ID)).Nodup →
      (reimbursementLoop env periodID adminID ip rrs total tx).2.1.db.reimbursement_requests
        = tx.db.reimbursement_requests.map (fun r =>
            ((rrs.find? (fun rr => decide (rr.ID = r.ID))).map
              (markPaid periodID adminID ip)).getD r) ∧
      (reimbursementLoop env periodID adminID ip rrs total tx).1.toRat
        = total.toRat + amountsTotal rrs := by
  intro rrs
  induction rrs with
  | nil =>
    intro total tx _ _ _
    simp [reimbursementLoop, amountsTotal]
  | cons rr rest ih =>
    intro total tx h hmem hnd
    simp only [reimbursementLoop] at h ⊢
    split at h
    · simp at h
    · simp only [List.map_cons, List.nodup_cons] at hnd
      have hany : tx.db.reimbursement_requests.any (fun r => decide (r.ID = rr.ID)) = true := by
        rw [List.any_eq_true]
        obtain ⟨r, hr, hid⟩ := List.mem_map.mp (hmem rr (List.mem_cons_self _ _))
        exact ⟨r, hr, by simpa using hid⟩
      have htab : (tx.saveReimbursement
          { rr with AttendancePeriodID := some periodID, Status := "paid",
                    UpdatedBy := some adminID, IPAddress := some ip }).db.reimbursement_requests
          = tx.db.reimbursement_requests.map (fun r =>
              if r.ID = rr.ID then markPaid periodID adminID ip rr else r) := by
        simp only [Tx.saveReimbursement, hany, if_true]
        rfl
      have hids : (tx.saveReimbursement
          { rr with AttendancePeriodID := some periodID, Status := "paid",
                    UpdatedBy := some adminID, IPAddress := some ip }).db.reimbursement_requests.map
            (fun r => r.ID) = tx.db.reimbursement_requests.map (fun r => r.ID) := by
        rw [htab, List.map_map]
        apply List.map_congr_left
        intro r _
        simp only [Function.comp]
        split
        · rename_i hid
          rw [hid]; rfl
        · rfl
      obtain ⟨h1, h2⟩ := ih _ _ h
        (fun x hx => by rw [hids]; exact hmem x (List.mem_cons_of_mem _ hx)) hnd.2
      refine ⟨?_, ?_⟩
      · rw [h1, htab, List.map_map]
        apply List.map_congr_left
        intro r _
        simp only [Function.comp]
        by_cases hid : r.ID = rr.ID
        · have hd : decide (rr.ID = r.ID) = true := by simp [hid]
          have hmp : (markPaid periodID adminID ip rr).ID = rr.ID := rfl
          simp only [if_pos hid, hmp, find?_none_of_not_mem rest rr.ID hnd.1, List.find?_cons, hd,
            Option.map_none', Option.map_some', Option.getD_none, Option.getD_some]
        · have hd : decide (rr.ID = r.ID) = false := by
            simp only [decide_eq_false_iff_not]
            exact fun hh => hid hh.symm
          simp only [if_neg hid, List.find?_cons, hd]
      · rw [h2, Decimal.toRat_Add]
        simp only [amountsTotal, List.map_cons, List.sum_cons]
        ring


theorem find?_filter_of_nodup (F : ReimbursementRequest → Bool) :
    ∀ (T : List ReimbursementRequest), (T.map (fun r => r.ID)).Nodup → ∀ r ∈ T,
      (T.filter F).find? (fun x => decide (x.ID = r.ID)) = if F r then some r else none := by
  intro T
  induction T with
  | nil => intro _ r hr; simp at hr
  | cons a T ih =>
    intro hnd r hr
    simp only [List.map_cons, List.nodup_cons] at hnd
    have hnone : (T.filter F).find? (fun x => decide (x.ID = a.ID)) = none := by
      apply find?_none_of_not_mem
      intro hmem
      obtain ⟨x, hx, hid⟩ := List.mem_map.mp hmem
      exact hnd.1 (List.mem_map.mpr ⟨x, (List.mem_filter.mp hx).1, hid⟩)
    rcases List.mem_cons.mp hr with rfl | hrT
    · by_cases hF : F r = true
      · simp [List.filter_cons, hF]
      · simp only [List.filter_cons, hF, if_false, Bool.false_eq_true]
        exact hnone
    · have hne : ¬ a.ID = r.ID := by
        intro hid
        exact hnd.1 (List.mem_map.mpr ⟨r, hrT, hid.symm⟩)
      by_cases hF : F a = true
      · simp only [List.filter_cons, hF, if_true, List.find?_cons, hne, decide_False]
        exact ih hnd.2 r hrT
      · simp only [List.filter_cons, hF, if_false, Bool.false_eq_true]
        exact ih hnd.2 r hrT

/-- The loop over the requests that a filter of the table selects, on a table with distinct
ids: the selected rows are saved as paid, the others stay. -/
theorem reimbursementLoop_filter (env : Env) (periodID adminID : UUID) (ip : String)
    (F : ReimbursementRequest → Bool) (total : Decimal) (tx : Tx)
    (hnd : (tx.db.reimbursement_requests.map (fun r => r.ID)).Nodup)
    (h : (reimbursementLoop env periodID adminID ip (tx.db.reimbursement_requests.filter F)
      total tx).2.2 = none) :
    (reimbursementLoop env periodID adminID ip (tx.db.reimbursement_requests.filter F)
        total tx).2.1.db.reimbursement_requests
      = markRows periodID adminID ip F tx.db.reimbursement_requests ∧
    (reimbursementLoop env periodID adminID ip (tx.db.reimbursement_requests.filter F)
        total tx).1.toRat = total.toRat + amountsTotal (tx.db.reimbursement_requests.filter F) := by
  obtain ⟨h1, h2⟩ := reimbursementLoop_table env periodID adminID ip _ total tx h
    (fun rr hrr => List.mem_map.mpr ⟨rr, (List.mem_filter.mp hrr).1, rfl⟩)
    (List.Nodup.sublist (List.Sublist.map _ (List.filter_sublist _)) hnd)
  refine ⟨?_, h2⟩
  rw [h1]
  unfold markRows
  apply List.map_congr_left
  intro r hr
  rw [find?_filter_of_nodup F _ hnd r hr]
  by_cases hF : F r = true
  · simp [hF]
  · simp [hF]

theorem markRows_ids (periodID adminID : UUID) (ip : String) (P : ReimbursementRequest → Bool)
    (T : List ReimbursementRequest) :
    (markRows periodID adminID ip P T).map (fun r => r.ID) = T.map (fun r => r.ID) := by
  unfold markRows
  rw [List.map_map]
  apply List.map_congr_left
  intro r _
  simp only [Function.comp]
  split <;> rfl

theorem markRows_markRows (periodID adminID : UUID) (ip : String)
    (P F : ReimbursementRequest → Bool)
    (hF : ∀ r, F (markPaid periodID adminID ip r) = false) (T : List ReimbursementRequest) :
    markRows periodID adminID ip F (markRows periodID adminID ip P T)
      = markRows periodID adminID ip (fun r => P r || F r) T := by
  unfold markRows
  rw [List.map_map]
  apply List.map_congr_left
  intro r _
  simp only [Function.comp]
  by_cases hP : P r = true
  · simp [hP, hF]
  · simp [hP]

theorem filter_markRows (periodID adminID : UUID) (ip : String)
    (P F : ReimbursementRequest → Bool)
    (hF : ∀ r, F (markPaid periodID adminID ip r) = false) (T : List ReimbursementRequest) :
    (markRows periodID adminID ip P T).filter F = T.filter (fun r => !P r && F r) := by
  induction T with
  | nil => rfl
  | cons a T ih =>
    unfold markRows at ih ⊢
    simp only [List.map_cons, List.filter_cons]
    by_cases hP : P a = true
    · simp only [hP, if_true, hF, Bool.false_eq_true, if_false, Bool.not_true, Bool.false_and]
      exact ih
    · simp only [hP, if_false, Bool.false_eq_true, Bool.not_false, Bool.true_and]
      rw [ih]


theorem findReimbursements_eq (env : Env) (tx : Tx) (emp : Employee) (periodID : UUID) :
    tx.findReimbursements env emp.ID periodID
      = tx.db.reimbursement_requests.filter (claimedBy env periodID emp tx.step) := by
  unfold Tx.findReimbursements claimedBy eligible
  cases env.faults tx.step with
  | none =>
    simp only [Option.isNone_none, Bool.true_and]
    apply List.filter_congr
    intro r _
    rw [Bool.and_assoc]
  | some e =>
    simp only [Option.isNone_some, Bool.false_and]
    rw [List.filter_eq_nil_iff.mpr]
    intro r _
    simp

theorem claimedBy_markPaid (env : Env) (periodID adminID : UUID) (ip : String) (emp : Employee)
    (step : Nat) (r : ReimbursementRequest) :
    claimedBy env periodID emp step (markPaid periodID adminID ip r) = false := by
  have : eligible periodID (markPaid periodID adminID ip r) = false := by
    unfold eligible markPaid
    simp
  unfold claimedBy
  rw [this]
  simp

theorem processEmployee_loop (env : Env) (p : AttendancePeriod) (periodID adminID : UUID)
    (ip : String) (W : Nat) (emp : Employee) (tx : Tx)
    (h : (processEmployee env p periodID adminID ip W emp tx).2 = none) :
    (reimbursementLoop env periodID adminID ip
        (tx.next.next.findReimbursements env emp.ID periodID)
        (Decimal.NewFromFloat { val := 0 }) tx.next.next.next).2.2 = none ∧
      (processEmployee env p periodID adminID ip W emp tx).1.db.reimbursement_requests
        = (reimbursementLoop env periodID adminID ip
            (tx.next.next.findReimbursements env emp.ID periodID)
            (Decimal.NewFromFloat { val := 0 }) tx.next.next.next).2.1.db.reimbursement_requests := by
  unfold processEmployee at h ⊢
  simp only at h ⊢
  split at h
  · simp at h
  · rename_i hrl
    refine ⟨hrl, ?_⟩
    split at h
    · simp at h
    · rfl

/-- What the loop body does with reimbursement requests when it ends without error, on a table
with distinct ids: the rows its query selected are saved as paid, the others stay, and the
payslip carries the sum of the amounts of the selected rows, as its `decimal(10,2)` column keeps
the `float64` of that sum. -/
theorem processEmployee_rr (env : Env) (p : AttendancePeriod) (periodID adminID : UUID)
    (ip : String) (W : Nat) (emp : Employee) (tx : Tx)
    (hnd : (tx.db.reimbursement_requests.map (fun r => r.ID)).Nodup)
    (h : (processEmployee env p periodID adminID ip W emp tx).2 = none) :
    (processEmployee env p periodID adminID ip W emp tx).1.db.reimbursement_requests
      = markRows periodID adminID ip (claimedBy env periodID emp (tx.step + 2))
          tx.db.reimbursement_requests ∧
    ∃ ps, (processEmployee env p periodID adminID ip W emp tx).1.db.payslips
        = tx.db.payslips ++ [ps] ∧
      ps.EmployeeID = emp.ID ∧ ps.AttendancePeriodID = periodID ∧
      ps.ReimbursementsTotal = numeric2 (roundToFloat64 (amountsTotal
        (tx.db.reimbursement_requests.filter (claimedBy env periodID emp (tx.step + 2))))) := by
  obtain ⟨hrl, htab⟩ := processEmployee_loop env p periodID adminID ip W emp tx h
  obtain ⟨ps, hps, hb⟩ := processEmployee_built env p periodID adminID ip W emp tx h
  have hfetch : tx.next.next.findReimbursements env emp.ID periodID
      = tx.next.next.next.db.reimbursement_requests.filter
          (claimedBy env periodID emp (tx.step + 2)) :=
    findReimbursements_eq env tx.next.next emp periodID
  rw [hfetch] at hrl htab
  have hb9 := hb.2.2.2.2.2.2.2.2.1
  rw [hfetch] at hb9
  obtain ⟨h1, h2⟩ := reimbursementLoop_filter env periodID adminID ip
    (claimedBy env periodID emp (tx.step + 2)) (Decimal.NewFromFloat { val := 0 })
    tx.next.next.next hnd hrl
  refine ⟨htab.trans h1, ps, hps, hb.1, hb.2.1, ?_⟩
  rw [hb9]
  unfold Decimal.InexactFloat64
  rw [h2, toRat_NewFromFloat_zero, zero_add]
  rfl


theorem claimedBy_eligible (env : Env) (periodID : UUID) (emp : Employee) (step : Nat)
    (r : ReimbursementRequest) (h : claimedBy env periodID emp step r = true) :
    eligible periodID r = true ∧ r.EmployeeID = emp.ID := by
  unfold claimedBy at h
  simp only [Bool.and_eq_true, decide_eq_true_eq] at h
  exact ⟨h.2.2, h.2.1⟩

/-- The loop over the employees and the reimbursement requests, in any environment: when the
loop ends without error on a table `T0` with distinct ids of which the rows `P`, all eligible,
were already saved as paid, the table is `T0` with more eligible rows saved as paid, and each
new payslip carries the sum of the amounts of some rows of `T0` that are eligible requests of
its employee, as its `decimal(10,2)` column keeps the `float64` of that sum. -/
theorem employeesLoop_rr (env : Env) (p : AttendancePeriod) (periodID adminID : UUID)
    (ip : String) (W : Nat) (T0 : List ReimbursementRequest)
    (hT0 : (T0.map (fun r => r.ID)).Nodup) :
    ∀ (emps : List Employee) (n : Nat) (tx : Tx) (P : ReimbursementRequest → Bool),
      tx.db.reimbursement_requests = markRows periodID adminID ip P T0 →
      (∀ r, P r = true → eligible periodID r = true) →
      (employeesLoop env p periodID adminID ip W emps n tx).2.2 = none →
      ∃ (news : List Payslip) (P1 : ReimbursementRequest → Bool),
        (employeesLoop env p periodID adminID ip W emps n tx).2.1.db.payslips
          = tx.db.payslips ++ news ∧
        (employeesLoop env p periodID adminID ip W emps n tx).2.1.db.reimbursement_requests
          = markRows periodID adminID ip P1 T0 ∧
        (∀ r, P1 r = true → eligible periodID r = true) ∧
        List.Forall₂ (fun emp ps => ps.EmployeeID = emp.ID ∧ ps.AttendancePeriodID = periodID ∧
          ∃ Q : ReimbursementRequest → Bool,
            (∀ r, Q r = true → eligible periodID r = true ∧ r.EmployeeID = emp.ID) ∧
            ps.ReimbursementsTotal = numeric2 (roundToFloat64 (amountsTotal (T0.filter Q)))) emps news := by
  intro emps
  induction emps with
  | nil =>
    intro n tx P htab hP _
    exact ⟨[], P, by simp [employeesLoop], htab, hP, List.Forall₂.nil⟩
  | cons emp rest ih =>
    intro n tx P htab hP h
    simp only [employeesLoop] at h ⊢
    split at h
    · simp at h
    · rename_i hpe
      have hnd : (tx.db.reimbursement_requests.map (fun r => r.ID)).Nodup := by
        rw [htab, markRows_ids]; exact hT0
      obtain ⟨htab1, ps, hps, hid, hpid, htot⟩ :=
        processEmployee_rr env p periodID adminID ip W emp tx hnd hpe
      have hF := claimedBy_markPaid env periodID adminID ip emp (tx.step + 2)
      rw [htab, markRows_markRows periodID adminID ip P _ hF] at htab1
      rw [htab, filter_markRows periodID adminID ip P _ hF] at htot
      obtain ⟨news, P1, hnews, hfin, hP1, hall⟩ := ih (n + 1) _
        (fun r => P r || claimedBy env periodID emp (tx.step + 2) r) htab1
        (fun r hr => by
          rcases Bool.or_eq_true_iff.mp hr with h1 | h1
          · exact hP r h1
          · exact (claimedBy_eligible env periodID emp _ r h1).1) h
      refine ⟨ps :: news, P1, ?_, hfin, hP1, ?_⟩
      · rw [hnews, hps]; simp
      · refine List.Forall₂.cons ⟨hid, hpid, _, ?_, htot⟩ hall
        intro r hr
        simp only [Bool.and_eq_true] at hr
        exact claimedBy_eligible env periodID emp _ r hr.2

/-- The loop over the employees and the reimbursement requests on a store that answers every
operation, for employees with distinct ids: the eligible requests of the employees processed
are saved as paid, and the payslip of each employee carries the sum of the amounts of the
eligible requests of that employee, as its `decimal(10,2)` column keeps the `float64` of that
sum. -/
theorem employeesLoop_rr_quiet (env : Env) (p : AttendancePeriod) (periodID adminID : UUID)
    (ip : String) (W : Nat) (T0 : List ReimbursementRequest)
    (hq : ∀ n, env.faults n = none) (hT0 : (T0.map (fun r => r.ID)).Nodup) :
    ∀ (emps : List Employee) (done : List UUID) (n : Nat) (tx : Tx),
      tx.db.reimbursement_requests
        = markRows periodID adminID ip
            (fun r => eligible periodID r && decide (r.EmployeeID ∈ done)) T0 →
      (done ++ emps.map (fun e => e.ID)).Nodup →
      ∃ news : List Payslip,
        (employeesLoop env p periodID adminID ip W emps n tx).2.1.db.payslips
          = tx.db.payslips ++ news ∧
        (employeesLoop env p periodID adminID ip W emps n tx).2.1.db.reimbursement_requests
          = markRows periodID adminID ip (fun r => eligible periodID r &&
              decide (r.EmployeeID ∈ done ++ emps.map (fun e => e.ID))) T0 ∧
        List.Forall₂ (fun emp ps => ps.EmployeeID = emp.ID ∧ ps.AttendancePeriodID = periodID ∧
          ps.ReimbursementsTotal = numeric2 (roundToFloat64 (amountsTotal
            (T0.filter (fun r => decide (r.EmployeeID = emp.ID) && eligible periodID r)))))
          emps news := by
  intro emps
  induction emps with
  | nil =>
    intro done n tx htab _
    refine ⟨[], by simp [employeesLoop], ?_, List.Forall₂.nil⟩
    simpa [employeesLoop] using htab
  | cons emp rest ih =>
    intro done n tx htab hndE
    have hpe := processEmployee_quiet env p periodID adminID ip W emp tx hq
    simp only [employeesLoop, hpe]
    have hnd : (tx.db.reimbursement_requests.map (fun r => r.ID)).Nodup := by
      rw [htab, markRows_ids]; exact hT0
    obtain ⟨htab1, ps, hps, hid, hpid, htot⟩ :=
      processEmployee_rr env p periodID adminID ip W emp tx hnd hpe
    have hF := claimedBy_markPaid env periodID adminID ip emp (tx.step + 2)
    rw [htab, markRows_markRows periodID adminID ip _ _ hF] at htab1
    rw [htab, filter_markRows periodID adminID ip _ _ hF] at htot
    have hnotdone : emp.ID ∉ done := by
      intro hmem
      have := List.disjoint_of_nodup_append hndE hmem
      exact this (by simp)
    have hP : (fun r => (eligible periodID r && decide (r.EmployeeID ∈ done))
          || claimedBy env periodID emp (tx.step + 2) r)
        = (fun r => eligible periodID r && decide (r.EmployeeID ∈ done ++ [emp.ID])) := by
      funext r
      unfold claimedBy
      rw [hq]
      by_cases he : eligible periodID r = true
      · by_cases h1 : r.EmployeeID ∈ done
        · simp [he, h1]
        · simp [he, h1]
      · simp [he]
    have hQ : (fun r => !(eligible periodID r && decide (r.EmployeeID ∈ done))
          && claimedBy env periodID emp (tx.step + 2) r)
        = (fun r => decide (r.EmployeeID = emp.ID) && eligible periodID r) := by
      funext r
      unfold claimedBy
      rw [hq]
      by_cases he : eligible periodID r = true
      · by_cases h1 : r.EmployeeID = emp.ID
        · have : r.EmployeeID ∉ done := by rw [h1]; exact hnotdone
          simp [he, h1, hnotdone]
        · simp [he, h1]
      · simp [he]
    rw [hP] at htab1
    rw [hQ] at htot
    have hndE1 : ((done ++ [emp.ID]) ++ rest.map (fun e => e.ID)).Nodup := by
      simpa [List.append_assoc] using hndE
    obtain ⟨news, hnews, hfin, hall⟩ := ih (done ++ [emp.ID]) (n + 1) _ htab1 hndE1
    refine ⟨ps :: news, ?_, ?_, List.Forall₂.cons ⟨hid, hpid, htot⟩ hall⟩
    · rw [hnews, hps]; simp
    · rw [hfin]
      simp [List.append_assoc]


theorem markRows_false (periodID adminID : UUID) (ip : String) (T : List ReimbursementRequest) :
    markRows periodID adminID ip (fun _ => false) T = T := by
  unfold markRows
  simp

theorem forall₂_mem_right {α β : Type} {R : α → β → Prop} {l1 : List α} {l2 : List β}
    (h : List.Forall₂ R l1 l2) : ∀ b ∈ l2, ∃ a ∈ l1, R a b := by
  induction h with
  | nil => intro b hb; simp at hb
  | cons hab _ ih =>
    intro b hb
    rcases List.mem_cons.mp hb with rfl | hb
    · exact ⟨_, List.mem_cons_self _ _, hab⟩
    · obtain ⟨a, ha, hr⟩ := ih b hb
      exact ⟨a, List.mem_cons_of_mem _ ha, hr⟩

theorem forall₂_mem_left {α β : Type} {R : α → β → Prop} {l1 : List α} {l2 : List β}
    (h : List.Forall₂ R l1 l2) : ∀ a ∈ l1, ∃ b ∈ l2, R a b := by
  induction h with
  | nil => intro a ha; simp at ha
  | cons hab _ ih =>
    intro a ha
    rcases List.mem_cons.mp ha with rfl | ha
    · exact ⟨_, List.mem_cons_self _ _, hab⟩
    · obtain ⟨b, hb, hr⟩ := ih a ha
      exact ⟨b, List.mem_cons_of_mem _ hb, hr⟩

/-- What any request does to the reimbursement requests of a store with distinct request ids:
the table afterwards is the old one with some eligible rows saved as paid, and every payslip
added carries the sum of the amounts of some rows of the old table that are eligible requests of
its employee, as its `decimal(10,2)` column keeps the `float64` of that sum. -/
theorem RunPayroll_rr_any (env : Env) (c : Ctx) (db : DB)
    (hrr : (db.reimbursement_requests.map (fun r => r.ID)).Nodup) :
    ∃ (periodID adminID : UUID) (P : ReimbursementRequest → Bool) (news : List Payslip),
      (∀ id pid, c.body = Except.ok id → env.uuidParse id = some pid → pid = periodID) ∧
      (RunPayroll env c db).1.reimbursement_requests
        = markRows periodID adminID c.ip P db.reimbursement_requests ∧
      (∀ r, P r = true → eligible periodID r = true) ∧
      (RunPayroll env c db).1.payslips = db.payslips ++ news ∧
      ∀ ps ∈ news, ∃ Q : ReimbursementRequest → Bool,
        (∀ r, Q r = true → eligible periodID r = true ∧ r.EmployeeID = ps.EmployeeID) ∧
        ps.ReimbursementsTotal
          = numeric2 (roundToFloat64 (amountsTotal (db.reimbursement_requests.filter Q))) := by
  rcases RunPayroll_state_or_ok env c db with h | h
  · have hkey : ∃ periodID : UUID,
        ∀ id pid, c.body = Except.ok id → env.uuidParse id = some pid → pid = periodID := by
      cases hb : c.body with
      | error e => exact ⟨0, fun id pid h1 _ => by simp at h1⟩
      | ok id0 =>
        cases hp : env.uuidParse id0 with
        | none =>
          refine ⟨0, fun id pid h1 h2 => ?_⟩
          cases h1
          rw [hp] at h2
          simp at h2
        | some pid0 =>
          refine ⟨pid0, fun id pid h1 h2 => ?_⟩
          cases h1
          rw [hp] at h2
          exact (Option.some.inj h2).symm
    obtain ⟨periodID, hkey⟩ := hkey
    refine ⟨periodID, 0, fun _ => false, [], hkey, ?_, ?_, ?_, ?_⟩
    · rw [h, markRows_false]
    · intro r hr; simp at hr
    · rw [h]; simp
    · intro ps hps; simp at hps
  · obtain ⟨id, periodID, adminID, p, hbody, hparse, _, _, _, _, _, _, _, hel, _, hpay, hreq, _,
      _⟩ := RunPayroll_ok_tables env c db h
    obtain ⟨news, P1, hnews, hfin, hP1, hall⟩ := employeesLoop_rr env p periodID adminID c.ip
      (CalculateWorkingDays p.StartDate p.EndDate) db.reimbursement_requests hrr
      db.employees 0 { db := db, step := 3 } (fun _ => false)
      (markRows_false periodID adminID c.ip _).symm (fun r hr => by simp at hr) hel
    refine ⟨periodID, adminID, P1, news, ?_, hreq.trans hfin, hP1, hpay.trans hnews, ?_⟩
    · intro id1 pid h1 h2
      rw [hbody] at h1
      cases h1
      rw [hparse] at h2
      exact (Option.some.inj h2).symm
    · intro ps hps
      obtain ⟨emp, _, hid, _, Q, hQ, htot⟩ := forall₂_mem_right hall ps hps
      exact ⟨Q, fun r hr => ⟨(hQ r hr).1, (hQ r hr).2.trans hid.symm⟩, htot⟩

/-- What a request answered with 200 does to the reimbursement requests on a store that answers
every operation, with distinct employee ids and distinct request ids. -/
theorem RunPayroll_rr_quiet (env : Env) (c : Ctx) (db : DB)
    (hq : ∀ n, env.faults n = none) (hok : (RunPayroll env c db).2.code = 200)
    (hemp : (db.employees.map (fun e => e.ID)).Nodup)
    (hrr : (db.reimbursement_requests.map (fun r => r.ID)).Nodup) :
    ∃ id periodID adminID news,
      c.body = Except.ok id ∧ env.uuidParse id = some periodID ∧ c.userID = some adminID ∧
      (RunPayroll env c db).1.payslips = db.payslips ++ news ∧
      List.Forall₂ (fun emp ps => ps.EmployeeID = emp.ID ∧ ps.AttendancePeriodID = periodID ∧
        ps.ReimbursementsTotal = numeric2 (roundToFloat64 (amountsTotal
          (db.reimbursement_requests.filter
            (fun r => decide (r.EmployeeID = emp.ID) && eligible periodID r)))))
        db.employees news ∧
      (RunPayroll env c db).1.reimbursement_requests
        = markRows periodID adminID c.ip (fun r => eligible periodID r &&
            decide (r.EmployeeID ∈ db.employees.map (fun e => e.ID)))
            db.reimbursement_requests := by
  obtain ⟨id, periodID, adminID, p, hbody, hparse, huser, _, _, _, _, _, _, _, _, hpay, hreq, _,
    _⟩ := RunPayroll_ok_tables env c db hok
  obtain ⟨news, hnews, hfin, hall⟩ := employeesLoop_rr_quiet env p periodID adminID c.ip
    (CalculateWorkingDays p.StartDate p.EndDate) db.reimbursement_requests hq hrr
    db.employees [] 0 { db := db, step := 3 }
    (by simp [markRows]) (by simpa using hemp)
  refine ⟨id, periodID, adminID, news, hbody, hparse, huser, hpay.trans hnews, hall, ?_⟩
  rw [hreq, hfin]
  simp

/-- C18: in a run that is answered with 200 on a store that answers every operation, with
distinct employee ids and distinct request ids, the payslip of every employee carries as
reimbursements total the sum of the amounts of exactly the requests of that employee that are
approved with a period id that is null or the period of the run (the sum is computed exactly, in
decimal arithmetic, and the `decimal(10,2)` column keeps the `float64` of it); and after the
run the table of requests is the old one with exactly those requests of the employees of the
store saved with status paid and the period of the run as period id, every other row as it was.
-/
theorem reimbursements_total_and_paid (env : Env) (c : Ctx) (db : DB)
    (hq : ∀ n, env.faults n = none) (hok : (RunPayroll env c db).2.code = 200)
    (hemp : (db.employees.map (fun e => e.ID)).Nodup)
    (hrr : (db.reimbursement_requests.map (fun r => r.ID)).Nodup) :
    ∃ id periodID adminID news,
      c.body = Except.ok id ∧ env.uuidParse id = some periodID ∧ c.userID = some adminID ∧
      (RunPayroll env c db).1.payslips = db.payslips ++ news ∧
      List.Forall₂ (fun emp ps => ps.EmployeeID = emp.ID ∧ ps.AttendancePeriodID = periodID ∧
        ps.ReimbursementsTotal = numeric2 (roundToFloat64 (amountsTotal
          (db.reimbursement_requests.filter
            (fun r => decide (r.EmployeeID = emp.ID) && eligible periodID r)))))
        db.employees news ∧
      (RunPayroll env c db).1.reimbursement_requests
        = markRows periodID adminID c.ip (fun r => eligible periodID r &&
            decide (r.EmployeeID ∈ db.employees.map (fun e => e.ID)))
            db.reimbursement_requests ∧
      (∀ r ∈ db.reimbursement_requests, eligible periodID r = true →
        r.EmployeeID ∈ db.employees.map (fun e => e.ID) →
        ∃ r1 ∈ (RunPayroll env c db).1.reimbursement_requests,
          r1.ID = r.ID ∧ r1.Status = "paid" ∧ r1.AttendancePeriodID = some periodID ∧
          r1.EmployeeID = r.EmployeeID ∧ r1.Amount = r.Amount) := by
  obtain ⟨id, periodID, adminID, news, hbody, hparse, huser, hpay, hall, hfin1⟩ :=
    RunPayroll_rr_quiet env c db hq hok hemp hrr
  refine ⟨id, periodID, adminID, news, hbody, hparse, huser, hpay, hall, hfin1, ?_⟩
  intro r hr hel hmem
  refine ⟨markPaid periodID adminID c.ip r, ?_, rfl, rfl, rfl, rfl, rfl⟩
  rw [hfin1]
  unfold markRows
  refine List.mem_map.mpr ⟨r, hr, ?_⟩
  simp only [hel, Bool.true_and, decide_eq_true_eq]
  rw [if_pos hmem]

theorem reimbursements_total_and_paid_witness :
    (RunPayroll quietEnv adminRequest reimbursementDB).2.code = 200 ∧
    (∃ ps ∈ (RunPayroll quietEnv adminRequest reimbursementDB).1.payslips,
      ps.EmployeeID = 7 ∧ ps.ReimbursementsTotal.val = 150) ∧
    (RunPayroll quietEnv adminRequest reimbursementDB).1.reimbursement_requests
      = [markPaid 1 99 "127.0.0.1" (requestOf 40 none 150 "approved"),
          requestOf 41 none 60 "pending", requestOf 42 (some 2) 75 "approved"] ∧
    ∃ id periodID adminID news,
      adminRequest.body = Except.ok id ∧ quietEnv.uuidParse id = some periodID ∧
      adminRequest.userID = some adminID ∧
      (RunPayroll quietEnv adminRequest reimbursementDB).1.payslips
        = reimbursementDB.payslips ++ news ∧
      List.Forall₂ (fun emp ps => ps.EmployeeID = emp.ID ∧ ps.AttendancePeriodID = periodID ∧
        ps.ReimbursementsTotal = numeric2 (roundToFloat64 (amountsTotal
          (reimbursementDB.reimbursement_requests.filter
            (fun r => decide (r.EmployeeID = emp.ID) && eligible periodID r)))))
        reimbursementDB.employees news ∧
      (RunPayroll quietEnv adminRequest reimbursementDB).1.reimbursement_requests
        = markRows periodID adminID adminRequest.ip (fun r => eligible periodID r &&
            decide (r.EmployeeID ∈ reimbursementDB.employees.map (fun e => e.ID)))
            reimbursementDB.reimbursement_requests ∧
      (∀ r ∈ reimbursementDB.reimbursement_requests, eligible periodID r = true →
        r.EmployeeID ∈ reimbursementDB.employees.map (fun e => e.ID) →
        ∃ r1 ∈ (RunPayroll quietEnv adminRequest reimbursementDB).1.reimbursement_requests,
          r1.ID = r.ID ∧ r1.Status = "paid" ∧ r1.AttendancePeriodID = some periodID ∧
          r1.EmployeeID = r.EmployeeID ∧ r1.Amount = r.Amount) :=
  ⟨by decide!, by decide!, by decide!,
    reimbursements_total_and_paid quietEnv adminRequest reimbursementDB (fun _ => rfl)
      (by decide!) (by decide!) (by decide!)⟩


theorem eligible_false_of_excluded (periodID : UUID) (r : ReimbursementRequest)
    (h : r.Status ≠ "approved" ∨ ∃ q, r.AttendancePeriodID = some q ∧ q ≠ periodID) :
    eligible periodID r = false := by
  unfold eligible
  rcases h with h | ⟨q, hq, hne⟩
  · simp [h]
  · simp [hq, hne]

theorem eligible_iff (periodID : UUID) (r : ReimbursementRequest) :
    eligible periodID r = true ↔
      r.Status = "approved" ∧
        (r.AttendancePeriodID = none ∨ r.AttendancePeriodID = some periodID) := by
  unfold eligible
  simp

/-- C19: take a store with distinct request ids and a request to `RunPayroll` for period
`periodID`, in any environment.  After the request the table of reimbursement requests has the
same rows in the same order, row by row with the same id, and every row that is bound to a
different period or whose status is not approved is identical to what it was; and every payslip
the request adds carries as reimbursements total the sum of the amounts of a selection of rows
of the old table that contains only approved requests of that payslip's employee whose period id
is null or `periodID` (as the `decimal(10,2)` column keeps the `float64` of that sum), so no
excluded request is part of any total. -/
theorem excluded_requests_untouched (env : Env) (c : Ctx) (db : DB) (id : String)
    (periodID : UUID)
    (hbody : c.body = Except.ok id) (hparse : env.uuidParse id = some periodID)
    (hrr : (db.reimbursement_requests.map (fun r => r.ID)).Nodup) :
    List.Forall₂ (fun r r1 => r1.ID = r.ID ∧
        ((r.Status ≠ "approved" ∨ ∃ q, r.AttendancePeriodID = some q ∧ q ≠ periodID) → r1 = r))
      db.reimbursement_requests (RunPayroll env c db).1.reimbursement_requests ∧
    ∃ news, (RunPayroll env c db).1.payslips = db.payslips ++ news ∧
      ∀ ps ∈ news, ∃ L : List ReimbursementRequest,
        L.Sublist db.reimbursement_requests ∧
        (∀ r ∈ L, r.Status = "approved" ∧
          (r.AttendancePeriodID = none ∨ r.AttendancePeriodID = some periodID) ∧
          r.EmployeeID = ps.EmployeeID) ∧
        ps.ReimbursementsTotal = numeric2 (roundToFloat64 (amountsTotal L)) := by
  obtain ⟨pid, adminID, P, news, hkey, htab, hP, hpay, htot⟩ := RunPayroll_rr_any env c db hrr
  have hpid : periodID = pid := hkey id periodID hbody hparse
  subst hpid
  refine ⟨?_, news, hpay, ?_⟩
  · rw [htab]
    unfold markRows
    rw [List.forall₂_map_right_iff, List.forall₂_same]
    intro r _
    refine ⟨?_, ?_⟩
    · split <;> rfl
    · intro hex
      have hne : P r ≠ true := by
        intro hPr
        have := hP r hPr
        rw [eligible_false_of_excluded periodID r hex] at this
        exact Bool.false_ne_true this
      rw [if_neg hne]
  · intro ps hps
    obtain ⟨Q, hQ, hsum⟩ := htot ps hps
    refine ⟨db.reimbursement_requests.filter Q, List.filter_sublist _, ?_, hsum⟩
    intro r hr
    obtain ⟨h1, h2⟩ := hQ r (List.mem_filter.mp hr).2
    exact ⟨((eligible_iff periodID r).mp h1).1, ((eligible_iff periodID r).mp h1).2, h2⟩

theorem excluded_requests_untouched_witness :
    adminRequest.body = Except.ok "1" ∧ quietEnv.uuidParse "1" = some 1 ∧
    (reimbursementDB.reimbursement_requests.map (fun r => r.ID)).Nodup ∧
    (RunPayroll quietEnv adminRequest reimbursementDB).2.code = 200 ∧
    List.Forall₂ (fun r r1 => r1.ID = r.ID ∧
        ((r.Status ≠ "approved" ∨ ∃ q, r.AttendancePeriodID = some q ∧ q ≠ 1) → r1 = r))
      reimbursementDB.reimbursement_requests
      (RunPayroll quietEnv adminRequest reimbursementDB).1.reimbursement_requests ∧
    ∃ news, (RunPayroll quietEnv adminRequest reimbursementDB).1.payslips
        = reimbursementDB.payslips ++ news ∧
      ∀ ps ∈ news, ∃ L : List ReimbursementRequest,
        L.Sublist reimbursementDB.reimbursement_requests ∧
        (∀ r ∈ L, r.Status = "approved" ∧
          (r.AttendancePeriodID = none ∨ r.AttendancePeriodID = some 1) ∧
          r.EmployeeID = ps.EmployeeID) ∧
        ps.ReimbursementsTotal = numeric2 (roundToFloat64 (amountsTotal L)) :=
  ⟨rfl, by decide, by decide!, by decide!,
    excluded_requests_untouched quietEnv adminRequest reimbursementDB "1" 1 rfl (by decide)
      (by decide!)⟩


/-! ### Sequences of runs -/

/-- A request keeps the ids of the reimbursement requests and every row that is already paid. -/
theorem RunPayroll_keeps_paid (env : Env) (c : Ctx) (db : DB) (r1 : ReimbursementRequest)
    (hrr : (db.reimbursement_requests.map (fun r => r.ID)).Nodup)
    (hmem : r1 ∈ db.reimbursement_requests) (hpaid : r1.Status = "paid") :
    ((RunPayroll env c db).1.reimbursement_requests.map (fun r => r.ID)).Nodup ∧
      r1 ∈ (RunPayroll env c db).1.reimbursement_requests := by
  obtain ⟨pid, adminID, P, news, _, htab, hP, _, _⟩ := RunPayroll_rr_any env c db hrr
  have hne : P r1 ≠ true := by
    intro hPr
    have := ((eligible_iff pid r1).mp (hP r1 hPr)).1
    rw [hpaid] at this
    exact absurd this (by decide)
  refine ⟨?_, ?_⟩
  · rw [htab, markRows_ids]; exact hrr
  · rw [htab]
    unfold markRows
    refine List.mem_map.mpr ⟨r1, hmem, ?_⟩
    rw [if_neg hne]

theorem runs_keeps_paid (r1 : ReimbursementRequest) (hpaid : r1.Status = "paid") :
    ∀ (seq : List (Env × Ctx)) (db : DB),
      (db.reimbursement_requests.map (fun r => r.ID)).Nodup →
      r1 ∈ db.reimbursement_requests →
      ((runs seq db).reimbursement_requests.map (fun r => r.ID)).Nodup ∧
        r1 ∈ (runs seq db).reimbursement_requests := by
  intro seq
  induction seq with
  | nil => intro db h1 h2; exact ⟨h1, h2⟩
  | cons e rest ih =>
    intro db h1 h2
    obtain ⟨h3, h4⟩ := RunPayroll_keeps_paid e.1 e.2 db r1 h1 h2 hpaid
    exact ih _ h3 h4

/-- A request never counts a row that is already paid. -/
theorem RunPayroll_skips_paid (env : Env) (c : Ctx) (db : DB) (r1 : ReimbursementRequest)
    (hrr : (db.reimbursement_requests.map (fun r => r.ID)).Nodup)
    (hmem : r1 ∈ db.reimbursement_requests) (hpaid : r1.Status = "paid") :
    ∃ news, (RunPayroll env c db).1.payslips = db.payslips ++ news ∧
      ∀ ps ∈ news, ∃ L : List ReimbursementRequest,
        L.Sublist db.reimbursement_requests ∧ (∀ x ∈ L, x.ID ≠ r1.ID) ∧
        ps.ReimbursementsTotal = numeric2 (roundToFloat64 (amountsTotal L)) := by
  obtain ⟨pid, adminID, P, news, _, _, _, hpay, htot⟩ := RunPayroll_rr_any env c db hrr
  refine ⟨news, hpay, ?_⟩
  intro ps hps
  obtain ⟨Q, hQ, hsum⟩ := htot ps hps
  refine ⟨db.reimbursement_requests.filter Q, List.filter_sublist _, ?_, hsum⟩
  intro x hx hid
  obtain ⟨hxmem, hxQ⟩ := List.mem_filter.mp hx
  have hx1 : x = r1 := List.inj_on_of_nodup_map hrr hxmem hmem hid
  have := ((eligible_iff pid x).mp (hQ x hxQ).1).1
  rw [hx1, hpaid] at this
  exact absurd this (by decide)


/-- C20: let `r` be an approved reimbursement request with null period id of an employee of the
store, in a store with distinct employee ids and distinct request ids, and let a run for period
`periodID` be answered with 200 on a store that answers every operation.  That run adds exactly
one payslip for the employee, whose reimbursements total is the sum of the amounts of the
employee's eligible requests (as the `decimal(10,2)` column keeps the `float64` of that sum),
among which `r` occurs exactly once; afterwards the
row of `r` is `r` saved with status paid and period id `periodID`.  In any sequence of later
requests, for any periods and in any environments, before and after each of them the table
still holds that very row, and every payslip a later request adds carries the total of a
selection of rows of the table that does not contain the row of `r`. -/
theorem approved_request_counted_once (env : Env) (c : Ctx) (db : DB) (id : String)
    (periodID adminID : UUID) (r : ReimbursementRequest) (later : List (Env × Ctx))
    (hq : ∀ n, env.faults n = none) (hok : (RunPayroll env c db).2.code = 200)
    (hbody : c.body = Except.ok id) (hparse : env.uuidParse id = some periodID)
    (huser : c.userID = some adminID)
    (hemp : (db.employees.map (fun e => e.ID)).Nodup)
    (hrr : (db.reimbursement_requests.map (fun x => x.ID)).Nodup)
    (hr : r ∈ db.reimbursement_requests) (hstatus : r.Status = "approved")
    (hnull : r.AttendancePeriodID = none)
    (hhas : r.EmployeeID ∈ db.employees.map (fun e => e.ID)) :
    (∃ news, (RunPayroll env c db).1.payslips = db.payslips ++ news ∧
      (news.filter (fun ps => decide (ps.EmployeeID = r.EmployeeID) &&
        decide (ps.AttendancePeriodID = periodID))).length = 1 ∧
      ∃ ps ∈ news, ps.EmployeeID = r.EmployeeID ∧ ps.AttendancePeriodID = periodID ∧
        ps.ReimbursementsTotal = numeric2 (roundToFloat64 (amountsTotal
          (db.reimbursement_requests.filter
            (fun x => decide (x.EmployeeID = r.EmployeeID) && eligible periodID x)))) ∧
        (db.reimbursement_requests.filter
          (fun x => decide (x.EmployeeID = r.EmployeeID) && eligible periodID x)).count r = 1) ∧
    markPaid periodID adminID c.ip r ∈ (RunPayroll env c db).1.reimbursement_requests ∧
    (markPaid periodID adminID c.ip r).Status = "paid" ∧
    (markPaid periodID adminID c.ip r).AttendancePeriodID = some periodID ∧
    ∀ pre e post, later = pre ++ e :: post →
      ((runs pre (RunPayroll env c db).1).reimbursement_requests.map (fun x => x.ID)).Nodup ∧
      markPaid periodID adminID c.ip r
        ∈ (runs pre (RunPayroll env c db).1).reimbursement_requests ∧
      markPaid periodID adminID c.ip r
        ∈ (RunPayroll e.1 e.2 (runs pre (RunPayroll env c db).1)).1.reimbursement_requests ∧
      ∃ news, (RunPayroll e.1 e.2 (runs pre (RunPayroll env c db).1)).1.payslips
          = (runs pre (RunPayroll env c db).1).payslips ++ news ∧
        ∀ ps ∈ news, ∃ L : List ReimbursementRequest,
          L.Sublist (runs pre (RunPayroll env c db).1).reimbursement_requests ∧
          (∀ x ∈ L, x.ID ≠ r.ID) ∧
          ps.ReimbursementsTotal = numeric2 (roundToFloat64 (amountsTotal L)) := by
  obtain ⟨id1, pid1, a1, news, hb1, hp1, hu1, hpay, hall, hfin⟩ :=
    RunPayroll_rr_quiet env c db hq hok hemp hrr
  rw [hbody] at hb1
  cases hb1
  rw [hparse] at hp1
  cases hp1
  rw [huser] at hu1
  cases hu1
  have hel : eligible periodID r = true := by
    rw [eligible_iff]; exact ⟨hstatus, Or.inl hnull⟩
  have hmark : markPaid periodID adminID c.ip r
      ∈ (RunPayroll env c db).1.reimbursement_requests := by
    rw [hfin]
    unfold markRows
    refine List.mem_map.mpr ⟨r, hr, ?_⟩
    simp only [hel, Bool.true_and, decide_eq_true_eq]
    rw [if_pos hhas]
  have hnd1 : ((RunPayroll env c db).1.reimbursement_requests.map (fun x => x.ID)).Nodup := by
    rw [hfin, markRows_ids]; exact hrr
  refine ⟨⟨news, hpay, ?_, ?_⟩, hmark, rfl, rfl, ?_⟩
  · have hall2 : List.Forall₂ (fun emp ps => ps.EmployeeID = emp.ID ∧
        ps.AttendancePeriodID = periodID) db.employees news :=
      List.Forall₂.imp (fun _ _ hh => ⟨hh.1, hh.2.1⟩) hall
    have hle := filter_employee_le_one periodID r.EmployeeID db.employees news hall2 hemp
    obtain ⟨emp, hempmem, hid⟩ := List.mem_map.mp hhas
    obtain ⟨ps, hps, hps1, hps2, _⟩ := forall₂_mem_left hall emp hempmem
    have hin : ps ∈ news.filter (fun ps => decide (ps.EmployeeID = r.EmployeeID) &&
        decide (ps.AttendancePeriodID = periodID)) := by
      rw [List.mem_filter]
      refine ⟨hps, ?_⟩
      simp [hps1, hps2, hid]
    have := List.length_pos_of_mem hin
    omega
  · obtain ⟨emp, hempmem, hid⟩ := List.mem_map.mp hhas
    obtain ⟨ps, hps, hps1, hps2, hps3⟩ := forall₂_mem_left hall emp hempmem
    refine ⟨ps, hps, hps1.trans hid, hps2, ?_, ?_⟩
    · rw [hps3, hid]
    · apply List.count_eq_one_of_mem
      · exact List.Nodup.filter _ (List.Nodup.of_map _ hrr)
      · rw [List.mem_filter]
        exact ⟨hr, by simp [hel]⟩
  · intro pre e post _
    obtain ⟨h1, h2⟩ := runs_keeps_paid (markPaid periodID adminID c.ip r) rfl pre _ hnd1 hmark
    refine ⟨h1, h2, (RunPayroll_keeps_paid e.1 e.2 _ _ h1 h2 rfl).2, ?_⟩
    exact RunPayroll_skips_paid e.1 e.2 _ (markPaid periodID adminID c.ip r) h1 h2 rfl

theorem approved_request_counted_once_witness :
    (RunPayroll quietEnv adminRequest twoPeriodsDB).2.code = 200 ∧
    requestOf 40 none 150 "approved" ∈ twoPeriodsDB.reimbursement_requests ∧
    (RunPayroll laterEnv laterRequest
      (RunPayroll quietEnv adminRequest twoPeriodsDB).1).2.code = 200 ∧
    (∃ ps ∈ (RunPayroll quietEnv adminRequest twoPeriodsDB).1.payslips,
      ps.AttendancePeriodID = 1 ∧ ps.ReimbursementsTotal.val = 150) ∧
    (∃ ps ∈ (RunPayroll laterEnv laterRequest
        (RunPayroll quietEnv adminRequest twoPeriodsDB).1).1.payslips,
      ps.AttendancePeriodID = 2 ∧ ps.ReimbursementsTotal.val = 75) ∧
    markPaid 1 99 "127.0.0.1" (requestOf 40 none 150 "approved")
      ∈ (RunPayroll quietEnv adminRequest twoPeriodsDB).1.reimbursement_requests ∧
    markPaid 1 99 "127.0.0.1" (requestOf 40 none 150 "approved")
      ∈ (RunPayroll laterEnv laterRequest
          (runs [] (RunPayroll quietEnv adminRequest twoPeriodsDB).1)).1.reimbursement_requests ∧
    ∃ news, (RunPayroll laterEnv laterRequest
        (runs [] (RunPayroll quietEnv adminRequest twoPeriodsDB).1)).1.payslips
          = (runs [] (RunPayroll quietEnv adminRequest twoPeriodsDB).1).payslips ++ news ∧
      ∀ ps ∈ news, ∃ L : List ReimbursementRequest,
        L.Sublist (runs [] (RunPayroll quietEnv adminRequest twoPeriodsDB).1).reimbursement_requests ∧
        (∀ x ∈ L, x.ID ≠ (requestOf 40 none 150 "approved").ID) ∧
        ps.ReimbursementsTotal = numeric2 (roundToFloat64 (amountsTotal L)) :=
  have h := approved_request_counted_once quietEnv adminRequest twoPeriodsDB "1" 1 99
    (requestOf 40 none 150 "approved") [(laterEnv, laterRequest)]
    (fun _ => rfl) (by decide!) rfl (by decide) rfl (by decide!) (by decide!) (by decide!)
    rfl rfl (by decide!)
  ⟨by decide!, by decide!, by decide!, by decide!, by decide!, h.2.1,
    (h.2.2.2.2 [] (laterEnv, laterRequest) [] rfl).2.2.1,
    (h.2.2.2.2 [] (laterEnv, laterRequest) [] rfl).2.2.2⟩


/-! ### Claims about what the caller sees of a storage error -/

/-- C21, evaluated on the code: when the read of the attendance period fails with the storage
error text `e`, `RunPayroll` answers 500 with the message "Database error: " followed by `e`, so
the text of the storage error reaches the caller and two different storage errors give two
different answers; likewise a failed payslip insert is answered with "Failed to create payslip
for employee 7: connection reset".  Only a failure to begin or commit the transaction is
answered with the generic message. -/
theorem storage_error_text_reaches_caller :
    (∀ e : String, RunPayroll (periodReadFailsEnv e) adminRequest thirdsDB
      = (thirdsDB, { code := 500, status := "fail", message := "Database error: " ++ e })) ∧
    (RunPayroll (periodReadFailsEnv "dial tcp 10.0.0.5:5432: connection refused") adminRequest
        thirdsDB).2.message
      = "Database error: dial tcp 10.0.0.5:5432: connection refused" ∧
    (RunPayroll (periodReadFailsEnv "dial tcp 10.0.0.5:5432: connection refused") adminRequest
        thirdsDB).2
      ≠ (RunPayroll (periodReadFailsEnv "pq: too many connections") adminRequest thirdsDB).2 ∧
    (RunPayroll insertFailsEnv adminRequest reimbursementDB).2
      = { code := 500, status := "fail",
          message := "Failed to create payslip for employee 7: connection reset" } ∧
    (RunPayroll { quietEnv with faults := fun n => if n = 0 then some "pq: too many connections"
        else none } adminRequest thirdsDB).2
      = { code := 500, status := "error",
          message := "An internal error occurred during payroll processing." } := by
  refine ⟨?_, by decide!, by decide!, by decide!, by decide!⟩
  intro e
  simp [RunPayroll, Transaction, runPayrollTx, periodReadFailsEnv, adminRequest, quietEnv, Tx.next]


/-! ### Claims about access control -/

/-- C28: `RequireUserType(required)` calls `c.Next()` if and only if the context holds a user id
and a user type that is a non-empty string equal to `required`; without a user id it answers
401; with a user id and a user type that is missing, not a string, empty or different from
`required` it answers 403.  On the admin routes a request without token is answered 401, one
with an employee token 403, and one with an admin token passes. -/
theorem requireUserType_access (required : String) (c : Locals) :
    (RequireUserType required c = Handled.next c ↔
      c.userID ≠ none ∧ c.userType = some (LocalValue.str required) ∧ required ≠ "") ∧
    ((∃ c1, RequireUserType required c = Handled.next c1) →
      RequireUserType required c = Handled.next c) ∧
    (c.userID = none →
      RequireUserType required c
        = Handled.respond { code := 401, status := "fail",
                            message := "Authentication required. Please log in." }) ∧
    (c.userID ≠ none →
      (c.userType = none ∨ c.userType = some LocalValue.other ∨
        (∃ u, c.userType = some (LocalValue.uuid u)) ∨
        c.userType = some (LocalValue.str "") ∨
        ∃ s, c.userType = some (LocalValue.str s) ∧ s ≠ required) →
      ∃ m, RequireUserType required c
        = Handled.respond { code := 403, status := "fail", message := m }) ∧
    adminProtectedGroup sampleParseJWT { authorization := "", cookieToken := "" }
      = Handled.respond { code := 401, status := "fail",
                          message := "You are not logged in. Please provide a valid token." } ∧
    adminProtectedGroup sampleParseJWT
        { authorization := "Bearer employee-token", cookieToken := "" }
      = Handled.respond
          { code := 403, status := "fail",
            message := "You are not authorized to perform this action. Required role: admin" } ∧
    adminProtectedGroup sampleParseJWT { authorization := "Bearer admin-token", cookieToken := "" }
      = Handled.next { userID := some (LocalValue.uuid 99),
                       userType := some (LocalValue.str "admin") } := by
  refine ⟨?_, ?_, ?_, ?_, by decide!, by decide!, by decide!⟩
  · unfold RequireUserType
    cases hid : c.userID with
    | none => simp
    | some u =>
      cases hty : c.userType with
      | none => simp
      | some v =>
        cases v with
        | uuid x => simp
        | other => simp
        | str s =>
          by_cases h1 : s = ""
          · subst h1
            simp
            intro h; exact h.symm
          · by_cases h2 : s = required
            · subst h2
              simp [h1]
            · simp [h1, h2]
  · rintro ⟨c1, h⟩
    unfold RequireUserType at h ⊢
    cases hid : c.userID with
    | none => rw [hid] at h; simp at h
    | some u =>
      rw [hid] at h
      cases hty : c.userType with
      | none => rw [hty] at h; simp at h
      | some v =>
        rw [hty] at h
        cases v with
        | uuid x => simp at h
        | other => simp at h
        | str s =>
          simp only at h ⊢
          by_cases h1 : s = ""
          · simp [h1] at h
          · by_cases h2 : s = required
            · rw [if_neg h1, if_neg (by simpa using h2)]
            · simp [h1, h2] at h
  · intro hid
    unfold RequireUserType
    rw [hid]
  · intro hid hty
    unfold RequireUserType
    cases hu : c.userID with
    | none => exact absurd hu hid
    | some u =>
      rcases hty with h | h | ⟨x, h⟩ | h | ⟨s, h, hne⟩
      · rw [h]; exact ⟨_, rfl⟩
      · rw [h]; exact ⟨_, rfl⟩
      · rw [h]; exact ⟨_, rfl⟩
      · rw [h]; exact ⟨_, rfl⟩
      · rw [h]
        simp only
        by_cases h1 : s = ""
        · rw [if_pos h1]; exact ⟨_, rfl⟩
        · rw [if_neg h1, if_pos hne]; exact ⟨_, rfl⟩




/-! ### Claims about the creation of periods -/

theorem parseDate_isDate (s : String) (t : Time) (h : parseDate s = some t) : IsDate t := by
  unfold parseDate at h
  split at h
  · split at h
    · split at h
      · split at h
        · cases h
          exact ⟨rfl, rfl⟩
        · simp at h
      · simp at h
    · simp at h
  · simp at h

theorem before_or_equal_iff (s e : Time) (hs : IsDate s) (he : IsDate e) :
    (e.Before s || e.Equal s) = true ↔ e.day ≤ s.day := by
  simp only [Time.Before, Time.Equal, Time.instant, nsPerDay, hs.1, hs.2, he.1, he.2,
    Bool.or_eq_true, decide_eq_true_eq]
  constructor <;> intro h <;> omega

/-- The answers of `CreateAttendancePeriod` for two well-formed dates. -/
theorem CreateAttendancePeriod_cases (env : Env) (c : Req CreateAttendancePeriodPayload)
    (db : DB) (payload : CreateAttendancePeriodPayload) (s e : Time)
    (hbody : c.body = Except.ok payload) (hs : parseDate payload.StartDate = some s)
    (he : parseDate payload.EndDate = some e) :
    (e.day ≤ s.day ∧
      CreateAttendancePeriod env c db
        = (db, Answer.message 400 "fail" "End date must be after start date.")) ∨
    (s.day < e.day ∧ c.userID = none ∧
      CreateAttendancePeriod env c db
        = (db, Answer.message 401 "fail" "Admin ID not found in token or invalid.")) ∨
    (s.day < e.day ∧ ∃ adminID err, c.userID = some adminID ∧ env.faults 0 = some err ∧
      CreateAttendancePeriod env c db
        = (db, Answer.message 500 "error" ("Could not create attendance period: " ++ err))) ∨
    (s.day < e.day ∧ ∃ adminID p, c.userID = some adminID ∧ env.faults 0 = none ∧
      p.StartDate = s ∧ p.EndDate = e ∧ p.PayrollRunAt = none ∧
      (CreateAttendancePeriod env c db).2 = Answer.data 201 "success" p ∧
      (CreateAttendancePeriod env c db).1.attendance_periods = db.attendance_periods ++ [p]) := by
  have hiff := before_or_equal_iff s e (parseDate_isDate _ _ hs) (parseDate_isDate _ _ he)
  unfold CreateAttendancePeriod
  simp only [hbody, hs, he]
  by_cases hle : e.day ≤ s.day
  · left
    rw [if_pos (hiff.mpr hle)]
    exact ⟨hle, rfl⟩
  · right
    have hlt : s.day < e.day := by omega
    rw [if_neg (fun h => hle (hiff.mp h))]
    cases hu : c.userID with
    | none => left; exact ⟨hlt, rfl, rfl⟩
    | some adminID =>
      right
      cases hf : env.faults 0 with
      | some err =>
        left
        refine ⟨hlt, adminID, err, rfl, rfl, ?_⟩
        simp only [hf]
      | none =>
        right
        refine ⟨hlt, adminID,
          (Tx.createPeriod env { db := db, step := 0 }
            { ID := 0, CreatedBy := some adminID, UpdatedBy := some adminID,
              IPAddress := some c.ip, StartDate := s, EndDate := e, PayrollRunAt := none }).2,
          rfl, rfl, ?_, ?_, ?_, rfl, ?_⟩
        · simp only [Tx.createPeriod]; split <;> rfl
        · simp only [Tx.createPeriod]; split <;> rfl
        · simp only [Tx.createPeriod]; split <;> rfl
        · simp only
          rw [(CreateAuditLog_frame env _ _).2.1]
          rfl

/-- C25: for a request whose body was parsed, a malformed start date is answered 400 "Invalid
start date format. Use YYYY-MM-DD." and nothing is created; and for two well-formed dates
`CreateAttendancePeriod` answers 400 "End date must be after start date." if and only if the end
date is earlier than or equal to the start date, in which case the persisted state is unchanged,
while a later end date, an admin id and a store that answers give 201 and one new period with
those dates. -/
theorem createAttendancePeriod_validation (env : Env) (c : Req CreateAttendancePeriodPayload)
    (db : DB) (payload : CreateAttendancePeriodPayload) (hbody : c.body = Except.ok payload) :
    (parseDate payload.StartDate = none →
      CreateAttendancePeriod env c db
        = (db, Answer.message 400 "fail" "Invalid start date format. Use YYYY-MM-DD.")) ∧
    (∀ s e, parseDate payload.StartDate = some s → parseDate payload.EndDate = some e →
      ((CreateAttendancePeriod env c db).2
          = Answer.message 400 "fail" "End date must be after start date." ↔ e.day ≤ s.day) ∧
      (e.day ≤ s.day → (CreateAttendancePeriod env c db).1 = db) ∧
      (s.day < e.day → ∀ adminID, c.userID = some adminID → env.faults 0 = none →
        ∃ p, (CreateAttendancePeriod env c db).2 = Answer.data 201 "success" p ∧
          p.StartDate = s ∧ p.EndDate = e ∧ p.PayrollRunAt = none ∧
          (CreateAttendancePeriod env c db).1.attendance_periods
            = db.attendance_periods ++ [p])) := by
  constructor
  · intro hs
    unfold CreateAttendancePeriod
    simp only [hbody, hs]
  · intro s e hs he
    rcases CreateAttendancePeriod_cases env c db payload s e hbody hs he with
      ⟨hle, h⟩ | ⟨hlt, hu, h⟩ | ⟨hlt, a, err, hu, hf, h⟩ | ⟨hlt, a, p, hu, hf, h1, h2, h3, h4, h5⟩
    · refine ⟨?_, ?_, ?_⟩
      · rw [h]; exact ⟨fun _ => hle, fun _ => rfl⟩
      · intro _; rw [h]
      · intro hlt; omega
    · refine ⟨?_, ?_, ?_⟩
      · rw [h]
        constructor
        · intro hh; simp at hh
        · intro hle; omega
      · intro hle; omega
      · intro _ adminID hu2; rw [hu] at hu2; simp at hu2
    · refine ⟨?_, ?_, ?_⟩
      · rw [h]
        constructor
        · intro hh; simp at hh
        · intro hle; omega
      · intro hle; omega
      · intro _ adminID _ hf2; rw [hf] at hf2; simp at hf2
    · refine ⟨?_, ?_, ?_⟩
      · rw [h4]
        constructor
        · intro hh; simp at hh
        · intro hle; omega
      · intro hle; omega
      · intro _ _ _ _
        exact ⟨p, h4, h1, h2, h3, h5⟩

theorem createAttendancePeriod_validation_witness :
    (periodRequest "2024-02-15" "2024-02-10").body
      = Except.ok { StartDate := "2024-02-15", EndDate := "2024-02-10" } ∧
    parseDate "2024/03/01" = none ∧
    CreateAttendancePeriod quietEnv (periodRequest "2024/03/01" "2024-03-15") emptyDB
      = (emptyDB, Answer.message 400 "fail" "Invalid start date format. Use YYYY-MM-DD.") ∧
    CreateAttendancePeriod quietEnv (periodRequest "" "2024-03-15") emptyDB
      = (emptyDB, Answer.message 400 "fail" "Invalid start date format. Use YYYY-MM-DD.") ∧
    ((CreateAttendancePeriod quietEnv (periodRequest "2024-02-15" "2024-02-10") emptyDB).2
        = Answer.message 400 "fail" "End date must be after start date." ↔
      (DateUTC 2024 2 10).day ≤ (DateUTC 2024 2 15).day) ∧
    CreateAttendancePeriod quietEnv (periodRequest "2024-02-15" "2024-02-10") emptyDB
      = (emptyDB, Answer.message 400 "fail" "End date must be after start date.") ∧
    CreateAttendancePeriod quietEnv (periodRequest "2024-02-15" "2024-02-15") emptyDB
      = (emptyDB, Answer.message 400 "fail" "End date must be after start date.") ∧
    (CreateAttendancePeriod quietEnv (periodRequest "2024-01-01" "2024-01-31") emptyDB).2
      = Answer.data 201 "success"
          { ID := 1000, CreatedBy := some 99, UpdatedBy := some 99, IPAddress := some "127.0.0.1",
            StartDate := DateUTC 2024 1 1, EndDate := DateUTC 2024 1 31, PayrollRunAt := none } :=
  ⟨rfl, by decide!,
    (createAttendancePeriod_validation quietEnv (periodRequest "2024/03/01" "2024-03-15") emptyDB
      _ rfl).1 (by decide!),
    by decide!,
    ((createAttendancePeriod_validation quietEnv (periodRequest "2024-02-15" "2024-02-10") emptyDB
      _ rfl).2 (DateUTC 2024 2 15) (DateUTC 2024 2 10) (by decide!) (by decide!)).1,
    by decide!, by decide!, by decide!⟩

/-! ### Created periods without working days -/

theorem weekdaysFrom_eq_zero_iff (a : Int) (n : Nat) (hn : 2 ≤ n) :
    weekdaysFrom a n = 0 ↔ (a + 4) % 7 = 6 ∧ n = 2 := by
  have key2 : ∀ r : Int, 0 ≤ r → r < 7 → (weekdaysFrom r 2 = 0 ↔ (r + 4) % 7 = 6) := by
    intro r h0 h7
    interval_cases r <;> decide
  have key3 : ∀ r : Int, 0 ≤ r → r < 7 → 1 ≤ weekdaysFrom r 3 := by
    intro r h0 h7
    interval_cases r <;> decide
  have hmod : (a % 7 + 4) % 7 = (a + 4) % 7 := by omega
  by_cases h2 : n = 2
  · subst h2
    rw [weekdaysFrom_congr 2 a (a % 7) (by omega), key2 (a % 7) (by omega) (by omega), hmod]
    simp
  · obtain ⟨m, rfl⟩ : ∃ m, n = 3 + m := ⟨n - 3, by omega⟩
    have h3 := key3 (a % 7) (by omega) (by omega)
    rw [← weekdaysFrom_congr 3 a (a % 7) (by omega)] at h3
    rw [weekdaysFrom_add]
    constructor
    · intro h; omega
    · intro h; omega

/-- A period that `CreateAttendancePeriod` answers with came from two well-formed dates, the end
after the start. -/
theorem CreateAttendancePeriod_data (env : Env) (c : Req CreateAttendancePeriodPayload)
    (db : DB) (code : Nat) (status : String) (p : AttendancePeriod)
    (h : (CreateAttendancePeriod env c db).2 = Answer.data code status p) :
    IsDate p.StartDate ∧ IsDate p.EndDate ∧ p.StartDate.day < p.EndDate.day ∧
      p.PayrollRunAt = none ∧
      (CreateAttendancePeriod env c db).1.attendance_periods = db.attendance_periods ++ [p] := by
  cases hbody : c.body with
  | error err =>
    unfold CreateAttendancePeriod at h
    simp [hbody] at h
  | ok payload =>
    cases hs : parseDate payload.StartDate with
    | none =>
      unfold CreateAttendancePeriod at h
      simp [hbody, hs] at h
    | some s =>
      cases he : parseDate payload.EndDate with
      | none =>
        unfold CreateAttendancePeriod at h
        simp [hbody, hs, he] at h
      | some e =>
        rcases CreateAttendancePeriod_cases env c db payload s e hbody hs he with
          ⟨_, h1⟩ | ⟨_, _, h1⟩ | ⟨_, _, _, _, _, h1⟩ | ⟨hlt, a, q, _, _, h1, h2, h3, h4, h5⟩
        · rw [h1] at h; simp at h
        · rw [h1] at h; simp at h
        · rw [h1] at h; simp at h
        · rw [h4] at h
          simp only [Answer.data.injEq] at h
          obtain ⟨_, _, hq⟩ := h
          subst hq
          refine ⟨?_, ?_, ?_, h3, h5⟩
          · rw [h1]; exact parseDate_isDate _ _ hs
          · rw [h2]; exact parseDate_isDate _ _ he
          · rw [h1, h2]; exact hlt

/-- C29: for every period that `CreateAttendancePeriod` creates, the end date is strictly after
the start date, and `CalculateWorkingDays(start, end)` is 0 if and only if the start date is a
Saturday and the end date is the day after it, which is then a Sunday. -/
theorem created_period_zero_working_days (env : Env) (c : Req CreateAttendancePeriodPayload)
    (db : DB) (code : Nat) (status : String) (p : AttendancePeriod)
    (h : (CreateAttendancePeriod env c db).2 = Answer.data code status p) :
    p ∈ (CreateAttendancePeriod env c db).1.attendance_periods ∧
    p.StartDate.day < p.EndDate.day ∧
    (CalculateWorkingDays p.StartDate p.EndDate = 0 ↔
      p.StartDate.Weekday = Saturday ∧ p.EndDate.day = p.StartDate.day + 1) ∧
    (CalculateWorkingDays p.StartDate p.EndDate = 0 → p.EndDate.Weekday = Sunday) := by
  obtain ⟨hs, he, hlt, _, hmem⟩ := CreateAttendancePeriod_data env c db code status p h
  have hcwd := calculateWorkingDays_eq p.StartDate p.EndDate (by rw [hs.2, he.2])
  have hn : 2 ≤ (p.EndDate.day + 1 - p.StartDate.day).toNat := by omega
  have hiff := weekdaysFrom_eq_zero_iff p.StartDate.day _ hn
  have hmain : CalculateWorkingDays p.StartDate p.EndDate = 0 ↔
      p.StartDate.Weekday = Saturday ∧ p.EndDate.day = p.StartDate.day + 1 := by
    rw [hcwd, hiff]
    unfold Time.Weekday Saturday
    constructor
    · rintro ⟨h1, h2⟩; exact ⟨h1, by omega⟩
    · rintro ⟨h1, h2⟩; exact ⟨h1, by omega⟩
  refine ⟨by rw [hmem]; simp, hlt, hmain, ?_⟩
  intro h0
  obtain ⟨h1, h2⟩ := hmain.mp h0
  unfold Time.Weekday Saturday at h1
  unfold Time.Weekday Sunday
  omega

theorem created_period_zero_working_days_witness :
    (CreateAttendancePeriod quietEnv (periodRequest "2023-10-07" "2023-10-08") emptyDB).2
      = Answer.data 201 "success"
          { ID := 1000, CreatedBy := some 99, UpdatedBy := some 99, IPAddress := some "127.0.0.1",
            StartDate := DateUTC 2023 10 7, EndDate := DateUTC 2023 10 8, PayrollRunAt := none } ∧
    CalculateWorkingDays (DateUTC 2023 10 7) (DateUTC 2023 10 8) = 0 ∧
    CalculateWorkingDays (DateUTC 2023 10 7) (DateUTC 2023 10 9) = 1 ∧
    (DateUTC 2023 10 7).Weekday = Saturday ∧
    (CalculateWorkingDays (DateUTC 2023 10 7) (DateUTC 2023 10 8) = 0 ↔
      (DateUTC 2023 10 7).Weekday = Saturday ∧
        (DateUTC 2023 10 8).day = (DateUTC 2023 10 7).day + 1) :=
  ⟨by decide!, by decide!, by decide!, by decide!,
    (created_period_zero_working_days quietEnv (periodRequest "2023-10-07" "2023-10-08") emptyDB
      201 "success"
      { ID := 1000, CreatedBy := some 99, UpdatedBy := some 99, IPAddress := some "127.0.0.1",
        StartDate := DateUTC 2023 10 7, EndDate := DateUTC 2023 10 8, PayrollRunAt := none }
      (by decide!)).2.2.1⟩


/-! ### Attendance count and working days -/

theorem dedup_length_le_weekdayCount (l : List Int) (a b : Int)
    (h : ∀ d ∈ l, a ≤ d ∧ d ≤ b ∧ 1 ≤ (d + 4) % 7 ∧ (d + 4) % 7 ≤ 5) :
    l.dedup.length ≤ weekdayCount a b := by
  rw [← List.card_toFinset]
  unfold weekdayCount
  apply Finset.card_le_card
  intro d hd
  rw [List.mem_toFinset] at hd
  obtain ⟨h1, h2, h3, h4⟩ := h d hd
  simp only [Finset.mem_filter, Finset.mem_Icc]
  exact ⟨⟨h1, h2⟩, h3, h4⟩

/-- The number of distinct dates of attendance records that the query returns is at most the
number of working days of the period, when the records of the employee in the period fall on
Monday to Friday. -/
theorem attendanceCount_le (env : Env) (tx : Tx) (emp : Employee) (p : AttendancePeriod)
    (hrec : ∀ r ∈ tx.db.attendance_records, IsDate r.Date)
    (hp : IsDate p.StartDate ∧ IsDate p.EndDate)
    (hwd : ∀ r ∈ tx.db.attendance_records, r.EmployeeID = emp.ID → inPeriod p r.Date = true →
      r.Date.Weekday ≠ Saturday ∧ r.Date.Weekday ≠ Sunday) :
    (((tx.findAttendance env emp.ID p.StartDate p.EndDate).map
        (fun ar => ar.Date.day)).dedup).length
      ≤ CalculateWorkingDays p.StartDate p.EndDate := by
  rw [calculateWorkingDays_eq p.StartDate p.EndDate (by rw [hp.1.2, hp.2.2]),
    weekdaysFrom_eq_weekdayCount]
  apply dedup_length_le_weekdayCount
  intro d hd
  obtain ⟨r, hr, rfl⟩ := List.mem_map.mp hd
  have hr2 : r ∈ tx.db.attendance_records ∧ r.EmployeeID = emp.ID ∧
      p.StartDate.instant ≤ r.Date.instant ∧ r.Date.instant ≤ p.EndDate.instant := by
    unfold Tx.findAttendance at hr
    cases hf : env.faults tx.step with
    | some e => rw [hf] at hr; simp at hr
    | none =>
      rw [hf] at hr
      simp only [List.mem_filter, Bool.and_eq_true, decide_eq_true_eq] at hr
      exact ⟨hr.1, hr.2.1.1, hr.2.1.2, hr.2.2⟩
  obtain ⟨hmem, hid, h1, h2⟩ := hr2
  have hd1 := (instant_le_iff_of_date _ _ hp.1 (hrec r hmem)).mp h1
  have hd2 := (instant_le_iff_of_date _ _ (hrec r hmem) hp.2).mp h2
  have hin : inPeriod p r.Date = true := by
    unfold inPeriod
    simp [hd1, hd2]
  obtain ⟨w1, w2⟩ := hwd r hmem hid hin
  unfold Time.Weekday Saturday at w1
  unfold Time.Weekday Sunday at w2
  refine ⟨hd1, ?_, ?_, ?_⟩
  · have : ((p.EndDate.day + 1 - p.StartDate.day).toNat : Int)
        = p.EndDate.day + 1 - p.StartDate.day := Int.toNat_of_nonneg (by omega)
    omega
  · omega
  · omega

/-- C30: in a run that is answered with 200, in any environment, on a store whose `date` columns
hold calendar dates, every new payslip of an employee whose attendance records in the period all
fall on Monday to Friday has an attendance count of at most `W`, the total working days of the
payslip; and when the salary is a non-negative amount read from its `decimal(10,2)` column (and
the period has fewer than `2 ^ 31` working days, as any two dates of a `date` column have), the
base salary of the payslip is that salary and the prorated salary of the payslip does not exceed
it. -/
theorem prorated_salary_at_most_base_salary (env : Env) (c : Ctx) (db : DB)
    (hok : (RunPayroll env c db).2.code = 200)
    (hrec : ∀ r ∈ db.attendance_records, IsDate r.Date)
    (hper : ∀ q ∈ db.attendance_periods, IsDate q.StartDate ∧ IsDate q.EndDate) :
    ∃ id periodID p news,
      c.body = Except.ok id ∧ env.uuidParse id = some periodID ∧
      db.attendance_periods.find? (fun q => decide (q.ID = periodID)) = some p ∧
      0 < CalculateWorkingDays p.StartDate p.EndDate ∧
      (RunPayroll env c db).1.payslips = db.payslips ++ news ∧
      List.Forall₂ (fun emp ps => ps.EmployeeID = emp.ID ∧ ps.AttendancePeriodID = periodID ∧
        ps.TotalWorkingDays = CalculateWorkingDays p.StartDate p.EndDate ∧
        ((∀ r ∈ db.attendance_records, r.EmployeeID = emp.ID → inPeriod p r.Date = true →
            r.Date.Weekday ≠ Saturday ∧ r.Date.Weekday ≠ Sunday) →
          ps.AttendanceCount ≤ ps.TotalWorkingDays ∧
          (IsAmount emp.Salary → 0 ≤ emp.Salary.val → ps.TotalWorkingDays < 2 ^ 31 →
            ps.BaseSalary = emp.Salary ∧ ps.ProratedSalary.val ≤ ps.BaseSalary.val)))
        db.employees news := by
  obtain ⟨id, periodID, adminID, p, hbody, hparse, _, hfind, _, hW, _, _, _, hel, _, hpay, _, _,
    _⟩ := RunPayroll_ok_tables env c db hok
  have hW' : 0 < CalculateWorkingDays p.StartDate p.EndDate := Nat.pos_of_ne_zero hW
  obtain ⟨news, hnews, _, hall⟩ := employeesLoop_built env p periodID adminID c.ip
    (CalculateWorkingDays p.StartDate p.EndDate) db.employees 0 { db := db, step := 3 } hel
  refine ⟨id, periodID, p, news, hbody, hparse, hfind, hW', hpay.trans hnews,
    List.Forall₂.imp ?_ hall⟩
  intro emp ps ⟨tx, hsame, hb⟩
  refine ⟨hb.1, hb.2.1, hb.2.2.2.1, ?_⟩
  intro hwd
  have hrec' : ∀ r ∈ tx.db.attendance_records, IsDate r.Date := by
    rw [hsame.2.1]; exact hrec
  have hwd' : ∀ r ∈ tx.db.attendance_records, r.EmployeeID = emp.ID →
      inPeriod p r.Date = true → r.Date.Weekday ≠ Saturday ∧ r.Date.Weekday ≠ Sunday := by
    rw [hsame.2.1]; exact hwd
  have hcount : ps.AttendanceCount ≤ ps.TotalWorkingDays := by
    rw [hb.2.2.2.2.1, hb.2.2.2.1]
    exact attendanceCount_le env tx emp p hrec' (hper p (find?_ID _ _ _ hfind).2) hwd'
  have hWps : 0 < ps.TotalWorkingDays := by rw [hb.2.2.2.1]; exact hW'
  refine ⟨hcount, ?_⟩
  intro hs hs0 hlt
  have hbase : ps.BaseSalary = emp.Salary := hb.2.2.1.trans (numeric2_of_isAmount _ hs)
  refine ⟨hbase, ?_⟩
  rw [hbase, hb.2.2.2.2.2.1, ← hb.2.2.2.1]
  exact numeric2_prorated_le emp.Salary hs hs0 ps.TotalWorkingDays ps.AttendanceCount hWps hlt
    hcount

theorem prorated_salary_at_most_base_salary_witness :
    (RunPayroll quietEnv adminRequest centsDB).2.code = 200 ∧
    IsAmount (roundToFloat64 (1 / 50)) ∧ 0 ≤ (roundToFloat64 (1 / 50)).val ∧
    (∃ ps ∈ (RunPayroll quietEnv adminRequest centsDB).1.payslips,
      ps.EmployeeID = 7 ∧ ps.AttendanceCount = 3 ∧ ps.TotalWorkingDays = 3 ∧
      (proratedSalaryOf (roundToFloat64 (1 / 50)) 3 3).toRat
        = 200000000000001 / 10000000000000000 ∧
      ps.BaseSalary = roundToFloat64 (1 / 50) ∧ ps.ProratedSalary = roundToFloat64 (1 / 50)) ∧
    ∃ id periodID p news,
      adminRequest.body = Except.ok id ∧ quietEnv.uuidParse id = some periodID ∧
      centsDB.attendance_periods.find? (fun q => decide (q.ID = periodID)) = some p ∧
      0 < CalculateWorkingDays p.StartDate p.EndDate ∧
      (RunPayroll quietEnv adminRequest centsDB).1.payslips = centsDB.payslips ++ news ∧
      List.Forall₂ (fun emp ps => ps.EmployeeID = emp.ID ∧ ps.AttendancePeriodID = periodID ∧
        ps.TotalWorkingDays = CalculateWorkingDays p.StartDate p.EndDate ∧
        ((∀ r ∈ centsDB.attendance_records, r.EmployeeID = emp.ID → inPeriod p r.Date = true →
            r.Date.Weekday ≠ Saturday ∧ r.Date.Weekday ≠ Sunday) →
          ps.AttendanceCount ≤ ps.TotalWorkingDays ∧
          (IsAmount emp.Salary → 0 ≤ emp.Salary.val → ps.TotalWorkingDays < 2 ^ 31 →
            ps.BaseSalary = emp.Salary ∧ ps.ProratedSalary.val ≤ ps.BaseSalary.val)))
        centsDB.employees news :=
  ⟨by decide!, ⟨2, by decide, by decide!⟩, by decide!, by decide!,
    prorated_salary_at_most_base_salary quietEnv adminRequest centsDB (by decide!) (by decide!)
      (by decide!)⟩


/-! ### Claims about submitted records -/

/-- What `SubmitOvertime` can do: it leaves the persisted state as it is, or it answers 201 and
has appended one overtime record whose hours the check of the payload let through. -/
theorem SubmitOvertime_cases (env : Env) (c : Req SubmitOvertimePayload) (db : DB) :
    ((SubmitOvertime env c db).1 = db ∧
      ∀ code status rec, (SubmitOvertime env c db).2 ≠ Answer.data code status rec) ∨
    ∃ payload rec, c.body = Except.ok payload ∧ ¬ (payload.Hours ≤ 0 ∨ payload.Hours > 3) ∧
      (SubmitOvertime env c db).2 = Answer.data 201 "success" rec ∧
      (SubmitOvertime env c db).1.overtime_records = db.overtime_records ++ [rec] ∧
      rec.Hours = payload.Hours ∧ rec.RateMultiplier = { val := 2 } ∧
      c.userID = some rec.EmployeeID := by
  unfold SubmitOvertime
  cases hbody : c.body with
  | error e => left; exact ⟨rfl, fun _ _ _ h => by simp at h⟩
  | ok payload =>
    simp only
    split
    · left; exact ⟨rfl, fun _ _ _ h => by simp at h⟩
    · rename_i hh
      split
      · left; exact ⟨rfl, fun _ _ _ h => by simp at h⟩
      · split
        · left; exact ⟨rfl, fun _ _ _ h => by simp at h⟩
        · rename_i employeeID hu
          split
          · left; exact ⟨rfl, fun _ _ _ h => by simp at h⟩
          · split
            · left; exact ⟨rfl, fun _ _ _ h => by simp at h⟩
            · split
              · left; exact ⟨rfl, fun _ _ _ h => by simp at h⟩
              · split
                · left; exact ⟨rfl, fun _ _ _ h => by simp at h⟩
                · split
                  · left; exact ⟨rfl, fun _ _ _ h => by simp at h⟩
                  · split
                    · left; exact ⟨rfl, fun _ _ _ h => by simp at h⟩
                    · split
                      · left; exact ⟨rfl, fun _ _ _ h => by simp at h⟩
                      · right
                        refine ⟨payload, _, rfl, hh, rfl, ?_, ?_, ?_, ?_⟩
                        · rw [(CreateAuditLog_frame env _ _).2.2.2.1]
                          rfl
                        · simp [Tx.createOvertime]
                        · simp [Tx.createOvertime]
                        · simp [Tx.createOvertime, hu]

/-- C26: every overtime record in the store after `SubmitOvertime` was there before or is the one
record the request created, answered with 201, with hours from 1 to 3 and rate multiplier 2.0;
a payload with hours `<= 0` or `> 3` is answered 400 "Overtime hours must be between 1 and 3."
and leaves the persisted state as it is.  On the store `thirdsDB`, where employee 7 attended on
2023-10-02, a request for 2 hours on that date creates the record and requests for 0 and for 4
hours are rejected. -/
theorem submitOvertime_hours_in_range (env : Env) (c : Req SubmitOvertimePayload) (db : DB) :
    (∀ rec ∈ (SubmitOvertime env c db).1.overtime_records,
      rec ∈ db.overtime_records ∨
        (1 ≤ rec.Hours ∧ rec.Hours ≤ 3 ∧ rec.RateMultiplier = { val := 2 } ∧
          (SubmitOvertime env c db).2 = Answer.data 201 "success" rec)) ∧
    (∀ payload, c.body = Except.ok payload → (payload.Hours ≤ 0 ∨ payload.Hours > 3) →
      SubmitOvertime env c db
        = (db, Answer.message 400 "fail" "Overtime hours must be between 1 and 3.")) ∧
    (SubmitOvertime quietEnv (overtimeRequest "2023-10-02" 2) thirdsDB).2
      = Answer.data 201 "success"
          { ID := 1002, CreatedBy := some 7, UpdatedBy := some 7, IPAddress := some "10.0.0.7",
            EmployeeID := 7, Date := DateUTC 2023 10 2, Hours := 2, SubmittedAt := quietEnv.now,
            RateMultiplier := { val := 2 } } ∧
    (SubmitOvertime quietEnv (overtimeRequest "2023-10-02" 2) thirdsDB).1.overtime_records.length
      = thirdsDB.overtime_records.length + 1 ∧
    SubmitOvertime quietEnv (overtimeRequest "2023-10-02" 4) thirdsDB
      = (thirdsDB, Answer.message 400 "fail" "Overtime hours must be between 1 and 3.") ∧
    SubmitOvertime quietEnv (overtimeRequest "2023-10-02" 0) thirdsDB
      = (thirdsDB, Answer.message 400 "fail" "Overtime hours must be between 1 and 3.") := by
  refine ⟨?_, ?_, by decide!, by decide!, by decide!, by decide!⟩
  · intro rec hrec
    rcases SubmitOvertime_cases env c db with ⟨h, _⟩ | ⟨payload, r, _, hh, hans, htab, h1, h2, _⟩
    · rw [h] at hrec
      exact Or.inl hrec
    · rw [htab] at hrec
      rcases List.mem_append.mp hrec with h | h
      · exact Or.inl h
      · right
        have hr : rec = r := by simpa using h
        subst hr
        refine ⟨?_, ?_, h2, hans⟩
        · rw [h1]; omega
        · rw [h1]; omega
  · intro payload hbody hh
    unfold SubmitOvertime
    simp only [hbody]
    rw [if_pos hh]


theorem firstBy_eq_none {α : Type} (key : α → UUID) :
    ∀ l : List α, firstBy key l = none ↔ l = [] := by
  intro l
  cases l with
  | nil => simp [firstBy]
  | cons a rest =>
    simp only [firstBy]
    constructor
    · intro h
      split at h
      · simp at h
      · split at h <;> simp at h
    · intro h; simp at h

/-- What `SubmitAttendance` can do: it leaves the persisted state as it is and answers with a
message, or it answers 201 and has appended one attendance record of the employee for today,
there being none before. -/
theorem SubmitAttendance_cases (env : Env) (c : Req Unit) (db : DB) :
    ((SubmitAttendance env c db).1 = db ∧
      ∀ code status rec, (SubmitAttendance env c db).2 ≠ Answer.data code status rec) ∨
    ∃ employeeID rec, c.userID = some employeeID ∧
      ¬ (env.now.Weekday = Saturday ∨ env.now.Weekday = Sunday) ∧
      (∀ r ∈ db.attendance_records,
        ¬ (r.EmployeeID = employeeID ∧ r.Date.instant = env.now.startOfDay.instant)) ∧
      firstBy (fun p => p.ID) (db.attendance_periods.filter (fun p =>
          decide (p.StartDate.instant ≤ env.now.startOfDay.instant) &&
          decide (p.EndDate.instant ≥ env.now.startOfDay.instant) &&
          decide (p.PayrollRunAt = none))) ≠ none ∧
      (SubmitAttendance env c db).2 = Answer.data 201 "success" rec ∧
      (SubmitAttendance env c db).1.attendance_records = db.attendance_records ++ [rec] ∧
      (SubmitAttendance env c db).1.attendance_periods = db.attendance_periods ∧
      rec.EmployeeID = employeeID ∧ rec.Date = env.now.startOfDay := by
  unfold SubmitAttendance
  cases hu : c.userID with
  | none => left; exact ⟨rfl, fun _ _ _ h => by simp at h⟩
  | some employeeID =>
    simp only
    split
    · left; exact ⟨rfl, fun _ _ _ h => by simp at h⟩
    · rename_i hwd
      split
      · left; exact ⟨rfl, fun _ _ _ h => by simp at h⟩
      · split
        · left; exact ⟨rfl, fun _ _ _ h => by simp at h⟩
        · rename_i activePeriod hper
          split
          · left; exact ⟨rfl, fun _ _ _ h => by simp at h⟩
          · split
            · left; exact ⟨rfl, fun _ _ _ h => by simp at h⟩
            · rename_i hnone
              split
              · left; exact ⟨rfl, fun _ _ _ h => by simp at h⟩
              · right
                refine ⟨employeeID, _, rfl, hwd, ?_, ?_, rfl, ?_, ?_, ?_, ?_⟩
                · intro r hr hcon
                  have hnil := (firstBy_eq_none _ _).mp hnone
                  have hmem : r ∈ db.attendance_records.filter (fun r =>
                      decide (r.EmployeeID = employeeID) &&
                      decide (r.Date.instant = env.now.startOfDay.instant)) := by
                    rw [List.mem_filter]
                    exact ⟨hr, by simp [hcon.1, hcon.2]⟩
                  rw [hnil] at hmem
                  simp at hmem
                · rw [hper]; simp
                · rw [(CreateAuditLog_frame env _ _).2.2.1]
                  rfl
                · rw [(CreateAuditLog_frame env _ _).2.1]
                  rfl
                · simp [Tx.createAttendance]
                · simp [Tx.createAttendance]

/-- The answer to a submission when a record of the employee for today exists, today is a
working day, an active period is found and the two reads are answered. -/
theorem SubmitAttendance_conflict (env : Env) (c : Req Unit) (db : DB) (employeeID : UUID)
    (hu : c.userID = some employeeID)
    (hwd : ¬ (env.now.Weekday = Saturday ∨ env.now.Weekday = Sunday))
    (h0 : env.faults 0 = none) (h1 : env.faults 1 = none)
    (hper : firstBy (fun p => p.ID) (db.attendance_periods.filter (fun p =>
        decide (p.StartDate.instant ≤ env.now.startOfDay.instant) &&
        decide (p.EndDate.instant ≥ env.now.startOfDay.instant) &&
        decide (p.PayrollRunAt = none))) ≠ none)
    (hex : ∃ r ∈ db.attendance_records,
      r.EmployeeID = employeeID ∧ r.Date.instant = env.now.startOfDay.instant) :
    SubmitAttendance env c db
      = (db, Answer.message 409 "fail" "Attendance already submitted for today.") := by
  obtain ⟨ap, hap⟩ := Option.ne_none_iff_exists'.mp hper
  have hrec : firstBy (fun r => r.ID) (db.attendance_records.filter (fun r =>
      decide (r.EmployeeID = employeeID) &&
      decide (r.Date.instant = env.now.startOfDay.instant))) ≠ none := by
    intro hnone
    have hnil := (firstBy_eq_none _ _).mp hnone
    obtain ⟨r, hr, hcon⟩ := hex
    have hmem : r ∈ db.attendance_records.filter (fun r =>
        decide (r.EmployeeID = employeeID) &&
        decide (r.Date.instant = env.now.startOfDay.instant)) := by
      rw [List.mem_filter]
      exact ⟨hr, by simp [hcon.1, hcon.2]⟩
    rw [hnil] at hmem
    simp at hmem
  obtain ⟨r0, hr0⟩ := Option.ne_none_iff_exists'.mp hrec
  unfold SubmitAttendance
  simp only [hu, if_neg hwd, h0, hap, h1, hr0]

theorem SubmitAttendance_onePerDay (loc : Int) (env : Env) (c : Req Unit) (db : DB)
    (hloc : env.now.offset = loc) (h : OnePerDay loc db.attendance_records) :
    OnePerDay loc (SubmitAttendance env c db).1.attendance_records := by
  rcases SubmitAttendance_cases env c db with
    ⟨hsame, _⟩ | ⟨employeeID, rec, _, _, hnone, _, _, htab, _, hid, hdate⟩
  · rw [hsame]; exact h
  · rw [htab]
    obtain ⟨h1, h2⟩ := h
    have hrec : rec.Date.nsec = 0 ∧ rec.Date.offset = loc := by
      rw [hdate]; exact ⟨rfl, hloc⟩
    refine ⟨?_, ?_⟩
    · intro r hr
      rcases List.mem_append.mp hr with hr | hr
      · exact h1 r hr
      · have : r = rec := by simpa using hr
        rw [this]; exact hrec
    · rw [List.map_append, List.nodup_append]
      refine ⟨h2, by simp, ?_⟩
      intro x hx1 hx2
      obtain ⟨r, hr, rfl⟩ := List.mem_map.mp hx1
      have hx : (r.EmployeeID, r.Date.day) = (rec.EmployeeID, rec.Date.day) := by
        simpa using hx2
      have he : r.EmployeeID = rec.EmployeeID := (Prod.mk.inj hx).1
      have hd : r.Date.day = rec.Date.day := (Prod.mk.inj hx).2
      apply hnone r hr
      refine ⟨he.trans hid, ?_⟩
      rw [← hdate]
      unfold Time.instant
      rw [(h1 r hr).1, (h1 r hr).2, hrec.1, hrec.2, hd]

theorem submissions_onePerDay (loc : Int) :
    ∀ (calls : List (Env × Req Unit)) (db : DB),
      (∀ e ∈ calls, e.1.now.offset = loc) → OnePerDay loc db.attendance_records →
      OnePerDay loc (submissions calls db).attendance_records := by
  intro calls
  induction calls with
  | nil => intro db _ h; exact h
  | cons e rest ih =>
    intro db hloc h
    exact ih _ (fun x hx => hloc x (List.mem_cons_of_mem _ hx))
      (SubmitAttendance_onePerDay loc e.1 e.2 db (hloc e (List.mem_cons_self _ _)) h)

/-- C27: take a store whose attendance records hold calendar dates of one location and have at
most one record per employee and calendar date, and any sequence of `SubmitAttendance` requests
whose clock is in that location; after the sequence there is still at most one attendance record
per employee and calendar date.  And when a submission was answered with 201, a next submission
by the same employee on the same day, with its two reads answered, is answered 409 "Attendance
already submitted for today." and leaves the persisted state as it is. -/
theorem one_attendance_record_per_day (loc : Int) (calls : List (Env × Req Unit)) (db : DB)
    (hloc : ∀ e ∈ calls, e.1.now.offset = loc) (hinit : OnePerDay loc db.attendance_records) :
    OnePerDay loc (submissions calls db).attendance_records ∧
    ∀ (env1 env2 : Env) (c1 c2 : Req Unit) (db0 : DB) (rec : AttendanceRecord),
      (SubmitAttendance env1 c1 db0).2 = Answer.data 201 "success" rec →
      c2.userID = c1.userID → env2.now.day = env1.now.day →
      env2.now.offset = env1.now.offset → env2.faults 0 = none → env2.faults 1 = none →
      SubmitAttendance env2 c2 (SubmitAttendance env1 c1 db0).1
        = ((SubmitAttendance env1 c1 db0).1,
            Answer.message 409 "fail" "Attendance already submitted for today.") := by
  refine ⟨submissions_onePerDay loc calls db hloc hinit, ?_⟩
  intro env1 env2 c1 c2 db0 rec hans hu hday hoff h0 h1
  rcases SubmitAttendance_cases env1 c1 db0 with
    ⟨_, hno⟩ | ⟨employeeID, r, hu1, hwd, _, hper, _, htab, hperiods, hid, hdate⟩
  · exact absurd hans (hno 201 "success" rec)
  · have hsod : env2.now.startOfDay = env1.now.startOfDay := by
      unfold Time.startOfDay
      rw [hday, hoff]
    have hwd2 : ¬ (env2.now.Weekday = Saturday ∨ env2.now.Weekday = Sunday) := by
      unfold Time.Weekday at hwd ⊢
      rw [hday]; exact hwd
    apply SubmitAttendance_conflict env2 c2 _ employeeID (hu.trans hu1) hwd2 h0 h1
    · rw [hperiods, hsod]; exact hper
    · refine ⟨r, ?_, hid, ?_⟩
      · rw [htab]; simp
      · rw [hsod, hdate]

theorem one_attendance_record_per_day_witness :
    (∀ e ∈ [(quietEnv, attendanceRequest), (noonEnv, attendanceRequest)],
      e.1.now.offset = 0) ∧
    OnePerDay 0 novemberDB.attendance_records ∧
    OnePerDay 0 (submissions [(quietEnv, attendanceRequest), (noonEnv, attendanceRequest)]
      novemberDB).attendance_records ∧
    (SubmitAttendance quietEnv attendanceRequest novemberDB).2
      = Answer.data 201 "success"
          { ID := 1002, CreatedBy := some 7, UpdatedBy := some 7, IPAddress := some "10.0.0.7",
            EmployeeID := 7, AttendancePeriodID := 1, Date := DateUTC 2023 11 1,
            CheckInTime := quietEnv.now } ∧
    SubmitAttendance noonEnv attendanceRequest
        (SubmitAttendance quietEnv attendanceRequest novemberDB).1
      = ((SubmitAttendance quietEnv attendanceRequest novemberDB).1,
          Answer.message 409 "fail" "Attendance already submitted for today.") ∧
    (submissions [(quietEnv, attendanceRequest), (noonEnv, attendanceRequest)]
      novemberDB).attendance_records.length = 1 :=
  have h := one_attendance_record_per_day 0
    [(quietEnv, attendanceRequest), (noonEnv, attendanceRequest)] novemberDB
    (by intro e he; simp at he; rcases he with rfl | rfl <;> rfl) (by decide!)
  ⟨by intro e he; simp at he; rcases he with rfl | rfl <;> rfl, by decide!, h.1, by decide!,
    h.2 quietEnv noonEnv attendanceRequest attendanceRequest novemberDB
      { ID := 1002, CreatedBy := some 7, UpdatedBy := some 7, IPAddress := some "10.0.0.7",
        EmployeeID := 7, AttendancePeriodID := 1, Date := DateUTC 2023 11 1,
        CheckInTime := quietEnv.now } (by decide!) rfl rfl rfl rfl rfl,
    by decide!⟩


/-! ### The audit entry of a run -/

theorem savePeriod_audit_logs (tx : Tx) (p : AttendancePeriod) :
    (tx.savePeriod p).db.audit_logs = tx.db.audit_logs := rfl

/-- The audit entries after `CreateAuditLog`: the entry is appended. -/
theorem CreateAuditLog_audit_logs (env : Env) (tx : Tx) (params : AuditLogEntryParams) :
    (CreateAuditLog env tx params).db.audit_logs
      = tx.db.audit_logs ++
          [{ ID := env.newID tx.step, Timestamp := env.now, UserID := params.UserID,
             UserType := params.UserType, Action := params.Action,
             TargetResource := params.TargetResource,
             TargetResourceID := params.TargetResourceID, Changes := params.Changes,
             IPAddress := params.IPAddress, RequestID := params.RequestID }] := rfl

/-- C22: the audit log after `RunPayroll` is the log before it followed by the new entries.  A
request that is not answered with 200 commits nothing: the persisted state is unchanged and no
entry is added.  A request answered with 200 is a committed run for a period `periodID` by
`adminID`: the period, unprocessed before, is now processed, one payslip per employee is stored,
and exactly one entry is added, with action "run_payroll", the period as target, and as payload
the number of employees of the store, which is the number of payslips generated, with the period
id.  So a request adds a "run_payroll" entry if and only if its run committed. -/
theorem run_payroll_audit_entry (env : Env) (c : Ctx) (db : DB) :
    ∃ news, (RunPayroll env c db).1.audit_logs = db.audit_logs ++ news ∧
      ((RunPayroll env c db).2.code ≠ 200 → (RunPayroll env c db).1 = db ∧ news = []) ∧
      ((RunPayroll env c db).2.code = 200 →
        ∃ id periodID adminID p entryID,
          c.body = Except.ok id ∧ env.uuidParse id = some periodID ∧
          c.userID = some adminID ∧
          db.attendance_periods.find? (fun q => decide (q.ID = periodID)) = some p ∧
          p.PayrollRunAt = none ∧
          (RunPayroll env c db).1.attendance_periods.find? (fun q => decide (q.ID = periodID))
            = some { p with PayrollRunAt := some env.now, UpdatedBy := some adminID,
                            IPAddress := some c.ip } ∧
          (∃ created, (RunPayroll env c db).1.payslips = db.payslips ++ created ∧
            created.length = db.employees.length) ∧
          news = [{ ID := entryID, Timestamp := env.now, UserID := adminID, UserType := "admin",
                    Action := "run_payroll", TargetResource := "attendance_period",
                    TargetResourceID := periodID,
                    Changes := AuditChanges.payrollRun db.employees.length periodID,
                    IPAddress := c.ip, RequestID := c.requestID }]) ∧
      ((∃ a ∈ news, a.Action = "run_payroll") ↔ (RunPayroll env c db).2.code = 200) := by
  by_cases hok : (RunPayroll env c db).2.code = 200
  · obtain ⟨id, periodID, adminID, hbody, hparse, huser, _, htx, hdb⟩ := RunPayroll_ok env c db hok
    obtain ⟨id1, periodID1, adminID1, p1, hbody1, hparse1, huser1, hfind1, _, _, _, _, _, _, _,
      _, _, hper, _⟩ := RunPayroll_ok_tables env c db hok
    rw [hbody] at hbody1
    cases hbody1
    rw [hparse] at hparse1
    cases hparse1
    rw [huser] at huser1
    cases huser1
    obtain ⟨p, hfind, hrun, _, _, _, hel, _, hfin⟩ :=
      runPayrollTx_ok env periodID adminID c.ip c.requestID _ htx
    obtain ⟨hpid, _⟩ := find?_ID _ _ _ hfind
    obtain ⟨created, hcreated, hcount, hall⟩ := employeesLoop_keys env p periodID adminID c.ip
      (CalculateWorkingDays p.StartDate p.EndDate) db.employees 0 { db := db, step := 3 } hel
    have hlogs := (employeesLoop_frame env p periodID adminID c.ip
      (CalculateWorkingDays p.StartDate p.EndDate) db.employees 0 { db := db, step := 3 }).2.2
    have hpay : (RunPayroll env c db).1.payslips = db.payslips ++ created := by
      rw [hdb, hfin, CreateAuditLog_payslips]
      exact hcreated
    have hcount' : (employeesLoop env p periodID adminID c.ip
        (CalculateWorkingDays p.StartDate p.EndDate) db.employees 0
        { db := db, step := 3 }).1 = db.employees.length := by
      rw [hcount]; simp
    obtain ⟨entry, hentry⟩ : ∃ entry : AuditLog, entry =
        { ID := env.newID ((employeesLoop env p periodID adminID c.ip
              (CalculateWorkingDays p.StartDate p.EndDate) db.employees 0
              { db := db, step := 3 }).2.1.savePeriod
              { p with PayrollRunAt := some env.now, UpdatedBy := some adminID,
                       IPAddress := some c.ip }).step,
          Timestamp := env.now, UserID := adminID, UserType := "admin",
          Action := "run_payroll", TargetResource := "attendance_period",
          TargetResourceID := periodID,
          Changes := AuditChanges.payrollRun db.employees.length periodID,
          IPAddress := c.ip, RequestID := c.requestID } := ⟨_, rfl⟩
    have hlogs' : (employeesLoop env p periodID adminID c.ip
        (CalculateWorkingDays p.StartDate p.EndDate) db.employees 0
        (Tx.next (Tx.next { db := db, step := 1 }))).2.1.db.audit_logs = db.audit_logs := hlogs
    have hcount'' : (employeesLoop env p periodID adminID c.ip
        (CalculateWorkingDays p.StartDate p.EndDate) db.employees 0
        (Tx.next (Tx.next { db := db, step := 1 }))).1 = db.employees.length := hcount'
    have hnews : (RunPayroll env c db).1.audit_logs = db.audit_logs ++ [entry] := by
      rw [hdb, hfin, CreateAuditLog_audit_logs, savePeriod_audit_logs, hlogs', hcount'', hpid,
        hentry]
      rfl
    have hproc : (RunPayroll env c db).1.attendance_periods.find?
          (fun q => decide (q.ID = periodID))
        = some { p with PayrollRunAt := some env.now, UpdatedBy := some adminID,
                        IPAddress := some c.ip } := by
      have hp : p1 = p := Option.some.inj (hfind1.symm.trans hfind)
      rw [hper, hp]
      exact find?_processed _ _ p _ (find?_ID _ _ _ hfind).1 hfind
    refine ⟨[entry], hnews, fun h => absurd hok h, fun _ => ⟨id, periodID, adminID, p,
      entry.ID, hbody, hparse, huser, hfind, hrun, hproc,
      ⟨created, hpay, hall.length_eq.symm⟩, ?_⟩, ?_⟩
    · rw [hentry]
    · constructor
      · intro _; exact hok
      · intro _
        exact ⟨entry, List.mem_singleton.mpr rfl, by rw [hentry]⟩
  · refine ⟨[], ?_, fun _ => ⟨?_, rfl⟩, fun h => absurd h hok, ?_⟩
    · rcases RunPayroll_state_or_ok env c db with h | h
      · rw [h]; simp
      · exact absurd h hok
    · rcases RunPayroll_state_or_ok env c db with h | h
      · exact h
      · exact absurd h hok
    · constructor
      · rintro ⟨a, ha, _⟩
        simp at ha
      · intro h; exact absurd h hok


/-! ### Independence of the order of the employees -/

theorem reimbursementLoop_total (env : Env) (periodID adminID : UUID) (ip : String) :
    ∀ (rrs : List ReimbursementRequest) (total : Decimal) (tx : Tx),
      (reimbursementLoop env periodID adminID ip rrs total tx).2.2 = none →
      (reimbursementLoop env periodID adminID ip rrs total tx).1
        = rrs.foldl (fun t rr => t.Add (Decimal.NewFromFloat rr.Amount)) total := by
  intro rrs
  induction rrs with
  | nil => intro total tx _; rfl
  | cons rr rest ih =>
    intro total tx h
    simp only [reimbursementLoop] at h ⊢
    split at h
    · simp at h
    · simp only [List.foldl_cons]
      exact ih _ _ h

/-- The row of the payslip that the loop body inserts when it ends without error. -/
theorem processEmployee_payslip (env : Env) (p : AttendancePeriod) (periodID adminID : UUID)
    (ip : String) (W : Nat) (emp : Employee) (tx : Tx)
    (h : (processEmployee env p periodID adminID ip W emp tx).2 = none) :
    ∃ ps, (processEmployee env p periodID adminID ip W emp tx).1.db.payslips
        = tx.db.payslips ++ [ps] ∧
      { ps with ID := 0 }
        = (payslipFrom periodID adminID ip W emp
            (tx.findAttendance env emp.ID p.StartDate p.EndDate)
            (tx.next.findOvertime env emp.ID p.StartDate p.EndDate)
            (reimbursementLoop env periodID adminID ip
              (tx.next.next.findReimbursements env emp.ID periodID)
              (Decimal.NewFromFloat { val := 0 }) tx.next.next.next).1).row := by
  unfold processEmployee at h ⊢
  simp only at h ⊢
  split at h
  · simp at h
  · split at h
    · simp at h
    · simp only [Tx.createPayslip, reimbursementLoop_payslips, Tx.next]
      refine ⟨_, rfl, ?_⟩
      simp [payslipFrom, Payslip.row, Tx.next]


theorem claimed_or_done (env : Env) (periodID : UUID) (emp : Employee) (step : Nat)
    (done : List UUID) (hq : ∀ n, env.faults n = none) :
    (fun r => (eligible periodID r && decide (r.EmployeeID ∈ done))
        || claimedBy env periodID emp step r)
      = (fun r => eligible periodID r && decide (r.EmployeeID ∈ done ++ [emp.ID])) := by
  funext r
  unfold claimedBy
  rw [hq]
  by_cases he : eligible periodID r = true
  · by_cases h1 : r.EmployeeID ∈ done
    · simp [he, h1]
    · simp [he, h1]
  · simp [he]

theorem claimed_not_done (env : Env) (periodID : UUID) (emp : Employee) (step : Nat)
    (done : List UUID) (hq : ∀ n, env.faults n = none) (hnotdone : emp.ID ∉ done) :
    (fun r => !(eligible periodID r && decide (r.EmployeeID ∈ done))
        && claimedBy env periodID emp step r)
      = (fun r => decide (r.EmployeeID = emp.ID) && eligible periodID r) := by
  funext r
  unfold claimedBy
  rw [hq]
  by_cases he : eligible periodID r = true
  · by_cases h1 : r.EmployeeID = emp.ID
    · have : r.EmployeeID ∉ done := by rw [h1]; exact hnotdone
      simp [he, h1, hnotdone]
    · simp [he, h1]
  · simp [he]

/-- The loop over the employees on a store that answers every operation, for employees with
distinct ids and requests with distinct ids: each payslip added is, up to its generated
identifier, the payslip computed from the employee and the rows of the store as they were before
the run. -/
theorem employeesLoop_payslipOf (env : Env) (p : AttendancePeriod) (periodID adminID : UUID)
    (ip : String) (W : Nat) (db0 : DB)
    (hq : ∀ n, env.faults n = none)
    (hT0 : (db0.reimbursement_requests.map (fun r => r.ID)).Nodup) :
    ∀ (emps : List Employee) (done : List UUID) (n : Nat) (tx : Tx),
      tx.db.attendance_records = db0.attendance_records →
      tx.db.overtime_records = db0.overtime_records →
      tx.db.reimbursement_requests
        = markRows periodID adminID ip
            (fun r => eligible periodID r && decide (r.EmployeeID ∈ done))
            db0.reimbursement_requests →
      (done ++ emps.map (fun e => e.ID)).Nodup →
      ∃ news : List Payslip,
        (employeesLoop env p periodID adminID ip W emps n tx).2.1.db.payslips
          = tx.db.payslips ++ news ∧
        news.map (fun ps => { ps with ID := 0 })
          = emps.map (payslipOf periodID adminID ip p W db0.attendance_records
              db0.overtime_records db0.reimbursement_requests) := by
  intro emps
  induction emps with
  | nil =>
    intro done n tx _ _ _ _
    exact ⟨[], by simp [employeesLoop], rfl⟩
  | cons emp rest ih =>
    intro done n tx hatt hot htab hndE
    have hpe := processEmployee_quiet env p periodID adminID ip W emp tx hq
    simp only [employeesLoop, hpe]
    have hnd : (tx.db.reimbursement_requests.map (fun r => r.ID)).Nodup := by
      rw [htab, markRows_ids]; exact hT0
    obtain ⟨htab1, _⟩ := processEmployee_rr env p periodID adminID ip W emp tx hnd hpe
    obtain ⟨ps, hps, hcontent⟩ := processEmployee_payslip env p periodID adminID ip W emp tx hpe
    obtain ⟨hrl, _⟩ := processEmployee_loop env p periodID adminID ip W emp tx hpe
    have hfr := (processEmployee_frame env p periodID adminID ip W emp tx).1
    have hF := claimedBy_markPaid env periodID adminID ip emp (tx.step + 2)
    have hnotdone : emp.ID ∉ done := by
      intro hmem
      have := List.disjoint_of_nodup_append hndE hmem
      exact this (by simp)
    rw [htab, markRows_markRows periodID adminID ip _ _ hF,
      claimed_or_done env periodID emp _ done hq] at htab1
    have hfetch : tx.next.next.findReimbursements env emp.ID periodID
        = db0.reimbursement_requests.filter
            (fun r => decide (r.EmployeeID = emp.ID) && eligible periodID r) := by
      rw [findReimbursements_eq env tx.next.next emp periodID]
      show tx.db.reimbursement_requests.filter (claimedBy env periodID emp (tx.step + 2)) = _
      rw [htab, filter_markRows periodID adminID ip _ _ hF,
        claimed_not_done env periodID emp _ done hq hnotdone]
    have hfa : tx.findAttendance env emp.ID p.StartDate p.EndDate
        = db0.attendance_records.filter (fun r =>
            decide (r.EmployeeID = emp.ID) && decide (p.StartDate.instant ≤ r.Date.instant)
              && decide (r.Date.instant ≤ p.EndDate.instant)) := by
      unfold Tx.findAttendance
      rw [hq, hatt]
    have hfo : tx.next.findOvertime env emp.ID p.StartDate p.EndDate
        = db0.overtime_records.filter (fun r =>
            decide (r.EmployeeID = emp.ID) && decide (p.StartDate.instant ≤ r.Date.instant)
              && decide (r.Date.instant ≤ p.EndDate.instant)) := by
      unfold Tx.findOvertime
      rw [hq]
      show tx.db.overtime_records.filter _ = _
      rw [hot]
    have hps0 : { ps with ID := 0 }
        = payslipOf periodID adminID ip p W db0.attendance_records db0.overtime_records
            db0.reimbursement_requests emp := by
      rw [hcontent, reimbursementLoop_total env periodID adminID ip _ _ _ hrl, hfa, hfo, hfetch]
      rfl
    have hndE1 : ((done ++ [emp.ID]) ++ rest.map (fun e => e.ID)).Nodup := by
      simpa [List.append_assoc] using hndE
    obtain ⟨news, hnews, hmap⟩ := ih (done ++ [emp.ID]) (n + 1) _
      (hfr.2.1.trans hatt) (hfr.2.2.trans hot) htab1 hndE1
    refine ⟨ps :: news, ?_, ?_⟩
    · rw [hnews, hps]; simp
    · rw [List.map_cons, List.map_cons, hps0, hmap]


/-- A request answered with 200 on a store that answers every operation, with distinct employee
ids and distinct request ids: the payslips added are, up to their generated identifiers, the
payslips computed for the employees of the store from the rows as they were before the run. -/
theorem RunPayroll_payslipOf (env : Env) (c : Ctx) (db : DB)
    (hq : ∀ n, env.faults n = none) (hok : (RunPayroll env c db).2.code = 200)
    (hemp : (db.employees.map (fun e => e.ID)).Nodup)
    (hrr : (db.reimbursement_requests.map (fun r => r.ID)).Nodup) :
    ∃ id periodID adminID p news,
      c.body = Except.ok id ∧ env.uuidParse id = some periodID ∧ c.userID = some adminID ∧
      db.attendance_periods.find? (fun q => decide (q.ID = periodID)) = some p ∧
      p.PayrollRunAt = none ∧ CalculateWorkingDays p.StartDate p.EndDate ≠ 0 ∧
      (RunPayroll env c db).1.payslips = db.payslips ++ news ∧
      news.map (fun ps => { ps with ID := 0 })
        = db.employees.map (payslipOf periodID adminID c.ip p
            (CalculateWorkingDays p.StartDate p.EndDate) db.attendance_records
            db.overtime_records db.reimbursement_requests) ∧
      (RunPayroll env c db).1.reimbursement_requests
        = markRows periodID adminID c.ip (fun r => eligible periodID r &&
            decide (r.EmployeeID ∈ db.employees.map (fun e => e.ID)))
            db.reimbursement_requests ∧
      (RunPayroll env c db).1.attendance_periods
        = db.attendance_periods.map (fun r => if r.ID = periodID then
            { p with PayrollRunAt := some env.now, UpdatedBy := some adminID,
                     IPAddress := some c.ip } else r) := by
  obtain ⟨id, periodID, adminID, p, hbody, hparse, huser, hfind, hrun, hW, _, _, _, _, _, hpay,
    hreq, hper, _⟩ := RunPayroll_ok_tables env c db hok
  obtain ⟨news, hnews, hmap⟩ := employeesLoop_payslipOf env p periodID adminID c.ip
    (CalculateWorkingDays p.StartDate p.EndDate) db hq hrr
    db.employees [] 0 { db := db, step := 3 } rfl rfl
    (by simp [markRows]) (by simpa using hemp)
  obtain ⟨_, _, hfin, _⟩ := employeesLoop_rr_quiet env p periodID adminID c.ip
    (CalculateWorkingDays p.StartDate p.EndDate) db.reimbursement_requests hq hrr
    db.employees [] 0 { db := db, step := 3 }
    (by simp [markRows]) (by simpa using hemp)
  refine ⟨id, periodID, adminID, p, news, hbody, hparse, huser, hfind, hrun, hW,
    hpay.trans hnews, hmap, ?_, hper⟩
  rw [hreq, hfin]
  simp

/-- C23: take a run answered with 200 on a store that answers every operation, with distinct
employee ids and distinct request ids.  Each payslip it adds is, up to the generated identifier,
the payslip computed from that employee's own row and records, the shared `W` and the period.
Running the same request on the store with its employees in any other order is answered with
200 too, adds the same payslips up to their order and their generated identifiers, and leaves
the same reimbursement requests and the same periods. -/
theorem payroll_independent_of_employee_order (env : Env) (c : Ctx) (db : DB)
    (emps : List Employee)
    (hq : ∀ n, env.faults n = none) (hok : (RunPayroll env c db).2.code = 200)
    (hperm : emps.Perm db.employees)
    (hemp : (db.employees.map (fun e => e.ID)).Nodup)
    (hrr : (db.reimbursement_requests.map (fun r => r.ID)).Nodup) :
    (RunPayroll env c { db with employees := emps }).2.code = 200 ∧
    ∃ periodID adminID p news news1,
      (RunPayroll env c db).1.payslips = db.payslips ++ news ∧
      news.map (fun ps => { ps with ID := 0 })
        = db.employees.map (payslipOf periodID adminID c.ip p
            (CalculateWorkingDays p.StartDate p.EndDate) db.attendance_records
            db.overtime_records db.reimbursement_requests) ∧
      (RunPayroll env c { db with employees := emps }).1.payslips = db.payslips ++ news1 ∧
      (news1.map (fun ps => { ps with ID := 0 })).Perm
        (news.map (fun ps => { ps with ID := 0 })) ∧
      (RunPayroll env c { db with employees := emps }).1.reimbursement_requests
        = (RunPayroll env c db).1.reimbursement_requests ∧
      (RunPayroll env c { db with employees := emps }).1.attendance_periods
        = (RunPayroll env c db).1.attendance_periods := by
  obtain ⟨id, periodID, adminID, p, news, hbody, hparse, huser, hfind, hrun, hW, hpay, hmap,
    hreq, hper⟩ := RunPayroll_payslipOf env c db hq hok hemp hrr
  have hok1 : (RunPayroll env c { db with employees := emps }).2.code = 200 :=
    RunPayroll_quiet env c { db with employees := emps } id periodID adminID p hq hbody hparse
      huser hfind hrun hW
  have hemp1 : (emps.map (fun e => e.ID)).Nodup :=
    (List.Perm.nodup_iff (List.Perm.map _ hperm)).mpr hemp
  obtain ⟨id1, periodID1, adminID1, p1, news1, hbody1, hparse1, huser1, hfind1, _, _, hpay1,
    hmap1, hreq1, hper1⟩ :=
    RunPayroll_payslipOf env c { db with employees := emps } hq hok1 hemp1 hrr
  rw [hbody] at hbody1
  cases hbody1
  rw [hparse] at hparse1
  cases hparse1
  rw [huser] at huser1
  cases huser1
  have hp : p1 = p := by
    have : some p1 = some p := hfind1.symm.trans hfind
    exact Option.some.inj this
  subst hp
  refine ⟨hok1, periodID, adminID, p1, news, news1, hpay, hmap, hpay1, ?_, ?_, ?_⟩
  · rw [hmap1, hmap]
    exact List.Perm.map _ hperm
  · rw [hreq1, hreq]
    congr 1
    funext r
    congr 1
    apply decide_eq_decide.mpr
    exact List.Perm.mem_iff (List.Perm.map _ hperm)
  · rw [hper1, hper]


theorem payroll_independent_of_employee_order_witness :
    (RunPayroll quietEnv adminRequest twoEmployeesDB).2.code = 200 ∧
    [employee8, employee7].Perm twoEmployeesDB.employees ∧
    (RunPayroll quietEnv adminRequest
      { twoEmployeesDB with employees := [employee8, employee7] }).2.code = 200 ∧
    (RunPayroll quietEnv adminRequest twoEmployeesDB).1.payslips.map
        (fun ps => (ps.EmployeeID, ps.AttendanceCount, ps.ReimbursementsTotal.val))
      = [(7, 1, 150), (8, 2, 20)] ∧
    (RunPayroll quietEnv adminRequest
        { twoEmployeesDB with employees := [employee8, employee7] }).1.payslips.map
        (fun ps => (ps.EmployeeID, ps.AttendanceCount, ps.ReimbursementsTotal.val))
      = [(8, 2, 20), (7, 1, 150)] ∧
    ∃ periodID adminID p news news1,
      (RunPayroll quietEnv adminRequest twoEmployeesDB).1.payslips
        = twoEmployeesDB.payslips ++ news ∧
      news.map (fun ps => { ps with ID := 0 })
        = twoEmployeesDB.employees.map (payslipOf periodID adminID adminRequest.ip p
            (CalculateWorkingDays p.StartDate p.EndDate) twoEmployeesDB.attendance_records
            twoEmployeesDB.overtime_records twoEmployeesDB.reimbursement_requests) ∧
      (RunPayroll quietEnv adminRequest
        { twoEmployeesDB with employees := [employee8, employee7] }).1.payslips
        = twoEmployeesDB.payslips ++ news1 ∧
      (news1.map (fun ps => { ps with ID := 0 })).Perm
        (news.map (fun ps => { ps with ID := 0 })) ∧
      (RunPayroll quietEnv adminRequest
        { twoEmployeesDB with employees := [employee8, employee7] }).1.reimbursement_requests
        = (RunPayroll quietEnv adminRequest twoEmployeesDB).1.reimbursement_requests ∧
      (RunPayroll quietEnv adminRequest
        { twoEmployeesDB with employees := [employee8, employee7] }).1.attendance_periods
        = (RunPayroll quietEnv adminRequest twoEmployeesDB).1.attendance_periods :=
  have h := payroll_independent_of_employee_order quietEnv adminRequest twoEmployeesDB
    [employee8, employee7] (fun _ => rfl) (by decide!) (List.Perm.swap employee7 employee8 [])
    (by decide!) (by decide!)
  ⟨by decide!, List.Perm.swap employee7 employee8 [], h.1, by decide!, by decide!, h.2⟩


/-! ### The amounts of the payslips of a run -/

theorem forall₂_of_map_eq {α β γ : Type} (f : β → γ) (g : α → γ) :
    ∀ (l1 : List α) (l2 : List β), l2.map f = l1.map g →
      List.Forall₂ (fun a b => f b = g a) l1 l2 := by
  intro l1
  induction l1 with
  | nil =>
    intro l2 h
    cases l2 with
    | nil => exact List.Forall₂.nil
    | cons b l2 => simp at h
  | cons a l1 ih =>
    intro l2 h
    cases l2 with
    | nil => simp at h
    | cons b l2 =>
      simp only [List.map_cons, List.cons.injEq] at h
      exact List.Forall₂.cons h.1 (ih l2 h.2)

theorem toRat_foldl_amounts (rrs : List ReimbursementRequest) :
    ∀ total : Decimal,
      (rrs.foldl (fun t rr => t.Add (Decimal.NewFromFloat rr.Amount)) total).toRat
        = total.toRat + amountsTotal rrs := by
  induction rrs with
  | nil => intro total; simp [amountsTotal]
  | cons rr rest ih =>
    intro total
    simp only [List.foldl_cons]
    rw [ih, Decimal.toRat_Add]
    simp only [amountsTotal, List.map_cons, List.sum_cons]
    ring

theorem toRat_reimbursementSum (rrs : List ReimbursementRequest) :
    (reimbursementSum rrs).toRat = amountsTotal rrs := by
  unfold reimbursementSum
  rw [toRat_foldl_amounts, toRat_NewFromFloat_zero, zero_add]

/-- The overtime records that the query selects are those dated within the period, when the
`date` columns hold calendar dates. -/
theorem filter_overtime_dates (records : List OvertimeRecord) (employeeID : UUID)
    (p : AttendancePeriod) (hrec : ∀ r ∈ records, IsDate r.Date)
    (hp : IsDate p.StartDate ∧ IsDate p.EndDate) :
    records.filter (fun r =>
        decide (r.EmployeeID = employeeID) && decide (p.StartDate.instant ≤ r.Date.instant)
          && decide (r.Date.instant ≤ p.EndDate.instant))
      = overtimeInPeriod records employeeID p := by
  unfold overtimeInPeriod
  apply List.filter_congr
  intro r hr
  unfold inPeriod
  rw [Bool.and_assoc]
  congr 1
  rw [decide_eq_decide.mpr (instant_le_iff_of_date _ _ hp.1 (hrec r hr)),
    decide_eq_decide.mpr (instant_le_iff_of_date _ _ (hrec r hr) hp.2)]

/-- A request answered with 200 on a store that answers every operation, with distinct employee
ids and distinct request ids: the fields of each payslip added, as the row of the payslip
computed for the employee from the rows of the store. -/
theorem RunPayroll_rows (env : Env) (c : Ctx) (db : DB)
    (hq : ∀ n, env.faults n = none) (hok : (RunPayroll env c db).2.code = 200)
    (hemp : (db.employees.map (fun e => e.ID)).Nodup)
    (hrr : (db.reimbursement_requests.map (fun r => r.ID)).Nodup) :
    ∃ id periodID adminID p news,
      c.body = Except.ok id ∧ env.uuidParse id = some periodID ∧ c.userID = some adminID ∧
      db.attendance_periods.find? (fun q => decide (q.ID = periodID)) = some p ∧
      0 < CalculateWorkingDays p.StartDate p.EndDate ∧
      (RunPayroll env c db).1.payslips = db.payslips ++ news ∧
      List.Forall₂ (fun emp ps =>
        ps.EmployeeID = emp.ID ∧ ps.AttendancePeriodID = periodID ∧
        ps.TotalWorkingDays = CalculateWorkingDays p.StartDate p.EndDate ∧
        ps.BaseSalary = numeric2 emp.Salary ∧
        ps.ProratedSalary
          = numeric2 (proratedSalaryOf emp.Salary (CalculateWorkingDays p.StartDate p.EndDate)
              ps.AttendanceCount).InexactFloat64 ∧
        ps.OvertimePay
          = numeric2 (overtimeOf emp.Salary (CalculateWorkingDays p.StartDate p.EndDate)
              (db.overtime_records.filter (fun r =>
                decide (r.EmployeeID = emp.ID) && decide (p.StartDate.instant ≤ r.Date.instant)
                  && decide (r.Date.instant ≤ p.EndDate.instant)))).1.InexactFloat64 ∧
        ps.ReimbursementsTotal
          = numeric2 (reimbursementSum (db.reimbursement_requests.filter
              (fun r => decide (r.EmployeeID = emp.ID) && eligible periodID r))).InexactFloat64 ∧
        ps.TakeHomePay
          = numeric2 (((proratedSalaryOf emp.Salary (CalculateWorkingDays p.StartDate p.EndDate)
                ps.AttendanceCount).Add
              (overtimeOf emp.Salary (CalculateWorkingDays p.StartDate p.EndDate)
                (db.overtime_records.filter (fun r =>
                  decide (r.EmployeeID = emp.ID) && decide (p.StartDate.instant ≤ r.Date.instant)
                    && decide (r.Date.instant ≤ p.EndDate.instant)))).1).Add
              (reimbursementSum (db.reimbursement_requests.filter
                (fun r => decide (r.EmployeeID = emp.ID) && eligible periodID r)))).InexactFloat64)
        db.employees news := by
  obtain ⟨id, periodID, adminID, p, news, hbody, hparse, huser, hfind, _, hW, hpay, hmap, _, _⟩ :=
    RunPayroll_payslipOf env c db hq hok hemp hrr
  refine ⟨id, periodID, adminID, p, news, hbody, hparse, huser, hfind, Nat.pos_of_ne_zero hW,
    hpay, List.Forall₂.imp ?_ (forall₂_of_map_eq _ _ _ _ hmap)⟩
  intro emp ps h
  have hatt := congrArg Payslip.AttendanceCount h
  have h1 := congrArg Payslip.EmployeeID h
  have h2 := congrArg Payslip.AttendancePeriodID h
  have h3 := congrArg Payslip.TotalWorkingDays h
  have h4 := congrArg Payslip.BaseSalary h
  have h5 := congrArg Payslip.ProratedSalary h
  have h6 := congrArg Payslip.OvertimePay h
  have h7 := congrArg Payslip.ReimbursementsTotal h
  have h8 := congrArg Payslip.TakeHomePay h
  simp only [payslipOf, payslipFrom, Payslip.row] at hatt h1 h2 h3 h4 h5 h6 h7 h8
  refine ⟨h1, h2, h3, h4, ?_, h6, h7, ?_⟩
  · rw [h5, hatt]
  · rw [h8, hatt]

/-! ### Claims about the take-home pay -/

/-- C1, as stated, fails: in the run on `thirdsDB` (salary 100, three working days, one day
present, one overtime hour at 2.0) the payslip stored holds prorated salary 33.33, overtime pay
8.33, reimbursements total 0 and take-home pay 41.67, which is neither the `float64` sum nor the
exact sum of the three, 41.66. -/
theorem take_home_pay_not_sum_of_stored :
    ∃ ps ∈ (RunPayroll quietEnv adminRequest thirdsDB).1.payslips,
      ps ∉ thirdsDB.payslips ∧
      ps.ProratedSalary = roundToFloat64 (3333 / 100) ∧
      ps.OvertimePay = roundToFloat64 (833 / 100) ∧
      ps.ReimbursementsTotal = roundToFloat64 0 ∧
      ps.TakeHomePay = roundToFloat64 (4167 / 100) ∧
      ps.TakeHomePay ≠ (ps.ProratedSalary.add ps.OvertimePay).add ps.ReimbursementsTotal ∧
      ps.TakeHomePay.val
        ≠ ps.ProratedSalary.val + ps.OvertimePay.val + ps.ReimbursementsTotal.val ∧
      ps.TakeHomePay ≠ roundToFloat64 ((3333 : ℚ) / 100 + 833 / 100 + 0) := by
  decide!

/-- C1, amended: in a run that is answered with 200 on a store that answers every operation, with
distinct employee ids, distinct request ids and calendar dates in the `date` columns, the payslip
of every employee holds four amounts that are each rounded on their own: with `P` the decimal
prorated salary `round16(salary / W) * attendance_count`, `O` the decimal overtime pay summed
over the employee's overtime records dated within the period and `R` the decimal sum of the
amounts of the employee's eligible reimbursement requests, the stored prorated salary, overtime
pay and reimbursements total are what the `decimal(10,2)` columns keep of the `float64` of `P`,
of `O` and of `R`, and the stored take-home pay is what its column keeps of the `float64` of the
exact sum `P + O + R`. -/
theorem take_home_pay_rounds_exact_sum (env : Env) (c : Ctx) (db : DB)
    (hq : ∀ n, env.faults n = none) (hok : (RunPayroll env c db).2.code = 200)
    (hemp : (db.employees.map (fun e => e.ID)).Nodup)
    (hrr : (db.reimbursement_requests.map (fun r => r.ID)).Nodup)
    (hrec : ∀ r ∈ db.overtime_records, IsDate r.Date)
    (hper : ∀ q ∈ db.attendance_periods, IsDate q.StartDate ∧ IsDate q.EndDate) :
    ∃ id periodID p news,
      c.body = Except.ok id ∧ env.uuidParse id = some periodID ∧
      db.attendance_periods.find? (fun q => decide (q.ID = periodID)) = some p ∧
      0 < CalculateWorkingDays p.StartDate p.EndDate ∧
      (RunPayroll env c db).1.payslips = db.payslips ++ news ∧
      List.Forall₂ (fun emp ps =>
        ps.EmployeeID = emp.ID ∧ ps.AttendancePeriodID = periodID ∧
        ps.TotalWorkingDays = CalculateWorkingDays p.StartDate p.EndDate ∧
        ps.ProratedSalary
          = numeric2 (roundToFloat64
              (roundPlaces ((Decimal.NewFromFloat emp.Salary).toRat / ps.TotalWorkingDays) 16
                * ps.AttendanceCount)) ∧
        ps.OvertimePay
          = numeric2 (roundToFloat64 (overtimePaySum emp.Salary ps.TotalWorkingDays
              (overtimeInPeriod db.overtime_records emp.ID p))) ∧
        ps.ReimbursementsTotal
          = numeric2 (roundToFloat64 (amountsTotal (db.reimbursement_requests.filter
              (fun r => decide (r.EmployeeID = emp.ID) && eligible periodID r)))) ∧
        ps.TakeHomePay
          = numeric2 (roundToFloat64
              (roundPlaces ((Decimal.NewFromFloat emp.Salary).toRat / ps.TotalWorkingDays) 16
                  * ps.AttendanceCount
                + overtimePaySum emp.Salary ps.TotalWorkingDays
                    (overtimeInPeriod db.overtime_records emp.ID p)
                + amountsTotal (db.reimbursement_requests.filter
                    (fun r => decide (r.EmployeeID = emp.ID) && eligible periodID r)))))
        db.employees news := by
  obtain ⟨id, periodID, adminID, p, news, hbody, hparse, _, hfind, hW, hpay, hall⟩ :=
    RunPayroll_rows env c db hq hok hemp hrr
  refine ⟨id, periodID, p, news, hbody, hparse, hfind, hW, hpay, List.Forall₂.imp ?_ hall⟩
  intro emp ps ⟨h1, h2, h3, _, h5, h6, h7, h8⟩
  have hfo := filter_overtime_dates db.overtime_records emp.ID p hrec
    (hper p (find?_ID _ _ _ hfind).2)
  obtain ⟨hp1, _⟩ := toRat_overtimeOf emp.Salary (CalculateWorkingDays p.StartDate p.EndDate)
    hW (overtimeInPeriod db.overtime_records emp.ID p)
  have hP := toRat_proratedSalaryOf emp.Salary (CalculateWorkingDays p.StartDate p.EndDate)
    ps.AttendanceCount hW
  rw [hfo] at h6 h8
  refine ⟨h1, h2, h3, ?_, ?_, ?_, ?_⟩
  · rw [h5, h3]
    unfold Decimal.InexactFloat64
    rw [hP]
  · rw [h6, h3]
    unfold Decimal.InexactFloat64
    rw [hp1]
  · rw [h7]
    unfold Decimal.InexactFloat64
    rw [toRat_reimbursementSum]
  · rw [h8, h3]
    unfold Decimal.InexactFloat64
    rw [Decimal.toRat_Add, Decimal.toRat_Add, hP, hp1, toRat_reimbursementSum]

theorem take_home_pay_rounds_exact_sum_witness :
    (RunPayroll quietEnv adminRequest thirdsDB).2.code = 200 ∧
    (RunPayroll quietEnv adminRequest thirdsDB).1.payslips = [thirdsPayslip] ∧
    ∃ id periodID p news,
      adminRequest.body = Except.ok id ∧ quietEnv.uuidParse id = some periodID ∧
      thirdsDB.attendance_periods.find? (fun q => decide (q.ID = periodID)) = some p ∧
      0 < CalculateWorkingDays p.StartDate p.EndDate ∧
      (RunPayroll quietEnv adminRequest thirdsDB).1.payslips = thirdsDB.payslips ++ news ∧
      List.Forall₂ (fun emp ps =>
        ps.EmployeeID = emp.ID ∧ ps.AttendancePeriodID = periodID ∧
        ps.TotalWorkingDays = CalculateWorkingDays p.StartDate p.EndDate ∧
        ps.ProratedSalary
          = numeric2 (roundToFloat64
              (roundPlaces ((Decimal.NewFromFloat emp.Salary).toRat / ps.TotalWorkingDays) 16
                * ps.AttendanceCount)) ∧
        ps.OvertimePay
          = numeric2 (roundToFloat64 (overtimePaySum emp.Salary ps.TotalWorkingDays
              (overtimeInPeriod thirdsDB.overtime_records emp.ID p))) ∧
        ps.ReimbursementsTotal
          = numeric2 (roundToFloat64 (amountsTotal (thirdsDB.reimbursement_requests.filter
              (fun r => decide (r.EmployeeID = emp.ID) && eligible periodID r)))) ∧
        ps.TakeHomePay
          = numeric2 (roundToFloat64
              (roundPlaces ((Decimal.NewFromFloat emp.Salary).toRat / ps.TotalWorkingDays) 16
                  * ps.AttendanceCount
                + overtimePaySum emp.Salary ps.TotalWorkingDays
                    (overtimeInPeriod thirdsDB.overtime_records emp.ID p)
                + amountsTotal (thirdsDB.reimbursement_requests.filter
                    (fun r => decide (r.EmployeeID = emp.ID) && eligible periodID r)))))
        thirdsDB.employees news :=
  ⟨by decide!, by decide!,
    take_home_pay_rounds_exact_sum quietEnv adminRequest thirdsDB (fun _ => rfl) (by decide!)
      (by decide!) (by decide!) (by decide!) (by decide!)⟩

/-! ### Claims about full attendance -/

theorem numeric2_zero : numeric2 (roundToFloat64 0) = { val := 0 } := by
  have := numeric2_intCast 0 le_rfl (by norm_num)
  simpa using this

/-- C3: in a run that is answered with 200 on a store that answers every operation, with distinct
employee ids, distinct request ids and calendar dates in the `date` columns, take an employee
whose salary is an amount read from its `decimal(10,2)` column and whose attendance
count equals `W` (`W > 0` in such a run, and below `2 ^ 31` as for any two dates of a `date`
column).  The payslip stored holds the salary as base salary and a prorated salary equal to it;
and when the employee has no overtime record dated within the period and no eligible
reimbursement request, overtime pay and reimbursements total are 0 and the take-home pay equals
the base salary too. -/
theorem full_attendance_base_salary (env : Env) (c : Ctx) (db : DB)
    (hq : ∀ n, env.faults n = none) (hok : (RunPayroll env c db).2.code = 200)
    (hemp : (db.employees.map (fun e => e.ID)).Nodup)
    (hrr : (db.reimbursement_requests.map (fun r => r.ID)).Nodup)
    (hrec : ∀ r ∈ db.overtime_records, IsDate r.Date)
    (hper : ∀ q ∈ db.attendance_periods, IsDate q.StartDate ∧ IsDate q.EndDate) :
    ∃ id periodID p news,
      c.body = Except.ok id ∧ env.uuidParse id = some periodID ∧
      db.attendance_periods.find? (fun q => decide (q.ID = periodID)) = some p ∧
      0 < CalculateWorkingDays p.StartDate p.EndDate ∧
      (RunPayroll env c db).1.payslips = db.payslips ++ news ∧
      List.Forall₂ (fun emp ps =>
        ps.EmployeeID = emp.ID ∧ ps.AttendancePeriodID = periodID ∧
        ps.TotalWorkingDays = CalculateWorkingDays p.StartDate p.EndDate ∧
        (IsAmount emp.Salary → ps.TotalWorkingDays < 2 ^ 31 →
          ps.AttendanceCount = ps.TotalWorkingDays →
            ps.BaseSalary = emp.Salary ∧ ps.ProratedSalary = ps.BaseSalary ∧
            (overtimeInPeriod db.overtime_records emp.ID p = [] →
              db.reimbursement_requests.filter
                (fun r => decide (r.EmployeeID = emp.ID) && eligible periodID r) = [] →
              ps.OvertimePay.val = 0 ∧ ps.ReimbursementsTotal.val = 0 ∧
                ps.TakeHomePay = ps.BaseSalary)))
        db.employees news := by
  obtain ⟨id, periodID, adminID, p, news, hbody, hparse, _, hfind, hW, hpay, hall⟩ :=
    RunPayroll_rows env c db hq hok hemp hrr
  refine ⟨id, periodID, p, news, hbody, hparse, hfind, hW, hpay, List.Forall₂.imp ?_ hall⟩
  intro emp ps ⟨h1, h2, h3, h4, h5, h6, h7, h8⟩
  refine ⟨h1, h2, h3, ?_⟩
  intro hs hlt hfull
  have hbase : ps.BaseSalary = emp.Salary := h4.trans (numeric2_of_isAmount _ hs)
  have hWps : 0 < ps.TotalWorkingDays := by rw [h3]; exact hW
  have hpro : ps.ProratedSalary = emp.Salary := by
    rw [h5, hfull, ← h3]
    exact numeric2_prorated_full emp.Salary hs ps.TotalWorkingDays hWps hlt
  refine ⟨hbase, hpro.trans hbase.symm, ?_⟩
  intro hno hnr
  have hfo := filter_overtime_dates db.overtime_records emp.ID p hrec
    (hper p (find?_ID _ _ _ hfind).2)
  rw [hfo, hno] at h6 h8
  rw [hnr] at h7 h8
  have ho : (overtimeOf emp.Salary (CalculateWorkingDays p.StartDate p.EndDate) []).1
      = Decimal.NewFromFloat { val := 0 } := by
    unfold overtimeOf
    rw [if_pos hW]
    rfl
  have hr : reimbursementSum [] = Decimal.NewFromFloat { val := 0 } := rfl
  rw [ho] at h6 h8
  rw [hr] at h7 h8
  have hz : (Decimal.NewFromFloat { val := 0 }).InexactFloat64 = roundToFloat64 0 := by
    unfold Decimal.InexactFloat64
    rw [toRat_NewFromFloat_zero]
  refine ⟨?_, ?_, ?_⟩
  · rw [h6, hz, numeric2_zero]
  · rw [h7, hz, numeric2_zero]
  · have e : (((proratedSalaryOf emp.Salary (CalculateWorkingDays p.StartDate p.EndDate)
          ps.AttendanceCount).Add (Decimal.NewFromFloat { val := 0 })).Add
        (Decimal.NewFromFloat { val := 0 })).InexactFloat64
        = (proratedSalaryOf emp.Salary (CalculateWorkingDays p.StartDate p.EndDate)
            ps.AttendanceCount).InexactFloat64 := by
      unfold Decimal.InexactFloat64
      rw [Decimal.toRat_Add, Decimal.toRat_Add, toRat_NewFromFloat_zero, add_zero, add_zero]
    rw [h8, e, ← h5, hbase]
    exact hpro

theorem full_attendance_base_salary_witness :
    (RunPayroll quietEnv adminRequest februaryDB).2.code = 200 ∧
    (RunPayroll quietEnv adminRequest februaryDB).1.payslips = [februaryPayslip] ∧
    IsAmount { val := 80000 } ∧
    februaryPayslip.AttendanceCount = 20 ∧ februaryPayslip.TotalWorkingDays = 20 ∧
    februaryPayslip.ProratedSalary.val = 80000 ∧ februaryPayslip.TakeHomePay.val = 80000 ∧
    (∃ ps ∈ (RunPayroll quietEnv adminRequest fullAttendanceDB).1.payslips,
      ps.AttendanceCount = 3 ∧ ps.TotalWorkingDays = 3 ∧
      (proratedSalaryOf { val := 1 } 3 3).toRat = 9999999999999999 / 10000000000000000 ∧
      ps.BaseSalary.val = 1 ∧ ps.ProratedSalary.val = 1 ∧ ps.TakeHomePay.val = 1) ∧
    ∃ id periodID p news,
      adminRequest.body = Except.ok id ∧ quietEnv.uuidParse id = some periodID ∧
      februaryDB.attendance_periods.find? (fun q => decide (q.ID = periodID)) = some p ∧
      0 < CalculateWorkingDays p.StartDate p.EndDate ∧
      (RunPayroll quietEnv adminRequest februaryDB).1.payslips = februaryDB.payslips ++ news ∧
      List.Forall₂ (fun emp ps =>
        ps.EmployeeID = emp.ID ∧ ps.AttendancePeriodID = periodID ∧
        ps.TotalWorkingDays = CalculateWorkingDays p.StartDate p.EndDate ∧
        (IsAmount emp.Salary → ps.TotalWorkingDays < 2 ^ 31 →
          ps.AttendanceCount = ps.TotalWorkingDays →
            ps.BaseSalary = emp.Salary ∧ ps.ProratedSalary = ps.BaseSalary ∧
            (overtimeInPeriod februaryDB.overtime_records emp.ID p = [] →
              februaryDB.reimbursement_requests.filter
                (fun r => decide (r.EmployeeID = emp.ID) && eligible periodID r) = [] →
              ps.OvertimePay.val = 0 ∧ ps.ReimbursementsTotal.val = 0 ∧
                ps.TakeHomePay = ps.BaseSalary)))
        februaryDB.employees news :=
  ⟨by decide!, by decide!, ⟨8000000, by decide, by decide!⟩, rfl, rfl, rfl, rfl, by decide!,
    full_attendance_base_salary quietEnv adminRequest februaryDB (fun _ => rfl) (by decide!)
      (by decide!) (by decide!) (by decide!) (by decide!)⟩

end PayslipGenerator
